import Mathlib

/-!
Constellation poems watchface: word selection, constellation generator, phase scheduler,
drawing, and the word selection of the variant `words-test.c`.

A shallow embedding of `src/c/constellation-poems.c`.

Conventions of the embedding.

* The C library random source is a stream `R : Nat → Nat`; `R s` is the value returned by the
  `s`-th call of `rand()`. Every function that calls `rand()` takes the number `seed` of calls made
  so far and returns the new number. `RAND_MAX` is a parameter (its value comes from the platform
  headers); a well-formed stream satisfies `∀ s, R s ≤ RAND_MAX`.
* C arrays are lists; a write is `List.set`, a read is `List.getD _ _ 0`.
* Loop counters that the loop guards keep non-negative are natural numbers; every loop is a
  recursion on a fuel argument that repeats the C loop guard, and the loop state returned contains
  the loop counter, so that the guard can be seen to be false on exit.
-/

namespace ConstellationPoems

/-! ## Configuration constants -/

/-- Macro `NUM_WORD_LAYERS`. -/
def NUM_WORD_LAYERS : Nat := 8

/-- Macro `NUM_STARS`. -/
def NUM_STARS : Nat := 40

/-- Macro `NUM_CONSTELLATION_STARS`: maximum number of stars in the constellation. -/
def NUM_CONSTELLATION_STARS : Nat := 16

/-- Macro `TIMER_PERIOD`: number of milliseconds between updates. -/
def TIMER_PERIOD : Int := 500

/-- The vocabulary `words[]`. -/
def words : List String :=
  ["azure", "indigo", "crimson", "dust", "fragment", "Luna", "rock", "void", "darkness", "nova",
   "vast", "incessant", "continuous", "infinite", "night", "light", "bright", "glowing", "flowing",
   "point", "otherness", "sleeping", "waking", "awe", "wave", "companion", "double", "brilliant",
   "nucleus", "dense", "visible", "obscured", "patch", "disk", "invisible", "cloud",
   "incandescent", "luminous", "cluster", "resolved", "globular", "round", "ominous", "spectrum",
   "gas", "space", "boundary", "distant", "nearby"]

/-- Macro `NUM_TOTAL_WORDS`, that is `sizeof(words)/sizeof(*words)`. -/
def NUM_TOTAL_WORDS : Nat := words.length

/-- The table `prefixes[]`. -/
def prefixes : List String :=
  ["Bor", "Cen", "Ib", "Op", "Xe", "Ab", "Dec", "Hi", "Pur", "Neb", "Reg", "Zur", "Sex"]

/-- The table `postfixes[]`. -/
def postfixes : List String :=
  ["lux", "stor", "tion", "able", "ser", "furg", "quest", "zeru", "yack", "kulp", "fed", "ula",
   "der"]

/-! ## Word selector -/

/-- Loop state of `shuffle`: the counter `i`, the number of `rand()` calls made, the array. -/
structure ShuffleState where
  i : Nat
  seed : Nat
  array : List Int

/-- The `for (i = 0; i < n - 1; i++)` loop of `shuffle`, entered only when `n > 1`. -/
def shuffleLoop (R : Nat → Nat) (RAND_MAX n : Nat) : Nat → ShuffleState → ShuffleState
  | 0, st => st
  | fuel + 1, st =>
    if st.i < n - 1 then
      let j := st.i + R st.seed / (RAND_MAX / (n - st.i) + 1)
      let t := st.array.getD j 0
      let array1 := st.array.set j (st.array.getD st.i 0)
      let array2 := array1.set st.i t
      shuffleLoop R RAND_MAX n fuel ⟨st.i + 1, st.seed + 1, array2⟩
    else st

/-- Function `shuffle(array, n)`; the result is the final loop state (for `n ≤ 1` the loop is not
entered). -/
def shuffle (R : Nat → Nat) (RAND_MAX : Nat) (array : List Int) (n : Nat) (seed : Nat) :
    ShuffleState :=
  if n > 1 then shuffleLoop R RAND_MAX n (n - 1) ⟨0, seed, array⟩ else ⟨0, seed, array⟩

/-- Loop state of the selection loop of `generate_random_word_list`: the counters `in` and `im`,
the number of `rand()` calls made, and `word_indices`. -/
structure SelectState where
  in_ : Nat
  im : Nat
  seed : Nat
  word_indices : List Int

/-- The loop `for (in = 0; (in < max_words) && (im < max_layers); ++in)` of
`generate_random_word_list`. -/
def selectLoop (R : Nat → Nat) (max_words max_layers : Nat) : Nat → SelectState → SelectState
  | 0, st => st
  | fuel + 1, st =>
    if st.in_ < max_words ∧ st.im < max_layers then
      let rn := max_words - st.in_
      let rm := max_layers - st.im
      if R st.seed % rn < rm then
        selectLoop R max_words max_layers fuel
          ⟨st.in_ + 1, st.im + 1, st.seed + 1, st.word_indices.set st.im (st.in_ : Int)⟩
      else
        selectLoop R max_words max_layers fuel ⟨st.in_ + 1, st.im, st.seed + 1, st.word_indices⟩
    else st

/-- The selection part of `generate_random_word_list` (everything before the call of `shuffle`),
for a vocabulary of `max_words` words and `max_layers` slots. -/
def selectWords (R : Nat → Nat) (max_words max_layers : Nat) (word_indices : List Int)
    (seed : Nat) : SelectState :=
  selectLoop R max_words max_layers max_words ⟨0, 0, seed, word_indices⟩

/-- Function `generate_random_word_list` with the two macros `NUM_TOTAL_WORDS` (`max_words`) and
`NUM_WORD_LAYERS` (`max_layers`) as parameters: selection, then `shuffle(word_indices,
NUM_WORD_LAYERS)`. Returns the new `word_indices` and the new number of `rand()` calls. -/
def generate_random_word_list_of (R : Nat → Nat) (RAND_MAX max_words max_layers : Nat)
    (word_indices : List Int) (seed : Nat) : List Int × Nat :=
  let sel := selectWords R max_words max_layers word_indices seed
  let sh := shuffle R RAND_MAX sel.word_indices max_layers sel.seed
  (sh.array, sh.seed)

/-- Function `generate_random_word_list` of the program: 49 words, 8 slots. -/
def generate_random_word_list (R : Nat → Nat) (RAND_MAX : Nat) (word_indices : List Int)
    (seed : Nat) : List Int × Nat :=
  generate_random_word_list_of R RAND_MAX NUM_TOTAL_WORDS NUM_WORD_LAYERS word_indices seed

/-! ## Machine integers and points -/

/-- Conversion of an `int` value to `int16_t` (two's complement wrap-around). -/
def toInt16 (v : Int) : Int := (v + 32768) % 65536 - 32768

/-- Conversion of an `int` value to `uint8_t`. -/
def toUInt8 (v : Int) : Int := v % 256

/-- The SDK type `GPoint`: two `int16_t` coordinates. -/
structure GPoint where
  x : Int
  y : Int
deriving DecidableEq, Repr

/-! ## Constellation generator -/

/-- Loop state of `generate_random_stars`. -/
structure StarsState where
  i : Nat
  seed : Nat
  stars : List GPoint

/-- The loop `for (int i = 0; i < NUM_STARS; i++)` of `generate_random_stars`; `w`, `h` are
`bounds.size.w`, `bounds.size.h`. The C operator `%` is `Int.tmod`. -/
def starsLoop (R : Nat → Nat) (w h : Int) : Nat → StarsState → StarsState
  | 0, st => st
  | fuel + 1, st =>
    if st.i < NUM_STARS then
      let x := toInt16 (Int.tmod (R st.seed) w)
      let y := toInt16 (Int.tmod (R (st.seed + 1)) h)
      starsLoop R w h fuel ⟨st.i + 1, st.seed + 2, st.stars.set st.i ⟨x, y⟩⟩
    else st

/-- Function `generate_random_stars`. -/
def generate_random_stars (R : Nat → Nat) (w h : Int) (stars : List GPoint) (seed : Nat) :
    StarsState :=
  starsLoop R w h NUM_STARS ⟨0, seed, stars⟩

/-- Loop state of `generate_random_constellation`. -/
structure ConstellationState where
  i : Nat
  seed : Nat
  constellation_stars : List GPoint

/-- The loop `for (int i = 1; i < num_constellation_stars_chosen; i++)` of
`generate_random_constellation`. -/
def constellationLoop (R : Nat → Nat) (num_chosen : Nat) :
    Nat → ConstellationState → ConstellationState
  | 0, st => st
  | fuel + 1, st =>
    if st.i < num_chosen then
      let prev := st.constellation_stars.getD (st.i - 1) ⟨0, 0⟩
      let star : GPoint := ⟨prev.x, prev.y⟩
      let x_offset : Int := Int.tmod (R st.seed) 25
      let y_offset : Int := Int.tmod (R (st.seed + 1)) 25
      let dir := toUInt8 (Int.tmod (R (st.seed + 2)) 2)
      let x_offset := if dir = 1 then -1 * x_offset else x_offset
      let dir := toUInt8 (Int.tmod (R (st.seed + 3)) 2)
      let y_offset := if dir = 1 then -1 * y_offset else y_offset
      let star : GPoint := ⟨toInt16 (star.x + x_offset), toInt16 (star.y + y_offset)⟩
      constellationLoop R num_chosen fuel
        ⟨st.i + 1, st.seed + 4, st.constellation_stars.set st.i star⟩
    else st

/-- What `generate_random_constellation` leaves behind: the length
`num_constellation_stars_chosen`, the buffer `constellation_stars`, the number of `rand()`
calls, and the final value of the loop counter. -/
structure Constellation where
  num_constellation_stars_chosen : Nat
  constellation_stars : List GPoint
  seed : Nat
  i : Nat

/-- Function `generate_random_constellation`; `w`, `h` are `bounds.size.w`, `bounds.size.h`.
The C operator `/` is `Int.tdiv`, `%` is `Int.tmod`; the length is stored in a `uint8_t`. -/
def generate_random_constellation (R : Nat → Nat) (w h : Int)
    (constellation_stars : List GPoint) (seed : Nat) : Constellation :=
  let num_chosen := (R seed % (NUM_CONSTELLATION_STARS - 4) + 4) % 256
  let x := toInt16 (Int.tmod (R (seed + 1)) (Int.tdiv w 2) + Int.tdiv w 4)
  let y := toInt16 (Int.tmod (R (seed + 2)) (Int.tdiv h 2) + Int.tdiv h 4)
  let buf := constellation_stars.set 0 ⟨x, y⟩
  let st := constellationLoop R num_chosen (num_chosen - 1) ⟨1, seed + 3, buf⟩
  ⟨num_chosen, st.constellation_stars, st.seed, st.i⟩

/-! ## Phase scheduler -/

/-- The enumeration `stars_state_t`. -/
inductive stars_state_t where
  | STATE_START
  | STATE_TITLE
  | STATE_BLANK_1
  | STATE_WORDS
  | STATE_BLANK_2
deriving DecidableEq, Repr

open stars_state_t

/-- The table `state_times[]`: amount of time to stay in each state. -/
def state_times : stars_state_t → Int
  | STATE_START => 1 * TIMER_PERIOD
  | STATE_TITLE => 5 * TIMER_PERIOD
  | STATE_BLANK_1 => 2 * TIMER_PERIOD
  | STATE_WORDS => 10 * TIMER_PERIOD
  | STATE_BLANK_2 => 3 * TIMER_PERIOD

/-- The global `margin`: margin for the text area, in pixels. -/
def margin : Int := 4

/-- The calls made to the presentation toolkit that create, fill, attach or release a resource,
in the order in which they are made. Layers, fonts and timers are handles (natural numbers,
`0` is the null pointer); a `*_create`, `fonts_load_custom_font` or `app_timer_register` call
is recorded with the handle it returns. Pure styling calls (colours, alignment, font
assignment, overflow mode) and logging are not recorded. -/
inductive Call where
  | layer_create (layer : Nat)
  | layer_destroy (layer : Nat)
  | text_layer_create (layer : Nat) (x y w h : Int)
  | text_layer_set_text (layer : Nat) (text : String)
  | text_layer_destroy (layer : Nat)
  | layer_add_child (layer : Nat)
  | layer_mark_dirty (layer : Nat)
  | fonts_load_custom_font (font : Nat)
  | fonts_unload_custom_font (font : Nat)
  | app_timer_register (timer : Nat) (timeout_ms : Int)
  | app_timer_cancel (timer : Nat)
deriving DecidableEq, Repr

/-- The global variables of the program, together with the viewport `bounds.size`, the number
`seed` of `rand()` calls made so far, the next unused handle `fresh`, and the record `calls` of
the toolkit calls made so far (oldest first). -/
structure App where
  stars_state : stars_state_t
  currentStateTime : Int
  currentWordLayer : Nat
  word_indices : List Int
  word_layers : List Nat
  stars : List GPoint
  constellation_stars : List GPoint
  num_constellation_stars_chosen : Nat
  constellation_name : String
  s_stars_layer : Nat
  s_time_layer : Nat
  s_time_font : Nat
  s_title_layer : Nat
  s_title_font : Nat
  s_word_font : Nat
  stateTimer : Nat
  bounds_w : Int
  bounds_h : Int
  seed : Nat
  fresh : Nat
  calls : List Call

/-- The C call `snprintf(buf, size, "NAME:\n%s%s", a, b)`: at most `size - 1` characters of
the formatted text are stored. -/
def snprintf_name (size : Nat) (a b : String) : String :=
  String.mk ((("NAME:\n" ++ a ++ b).toList).take (size - 1))

/-- Function `generate_title_layer(title)`. -/
def generate_title_layer (s : App) (title : String) : App :=
  let text_height : Int := toUInt8 (20 + 8 + 20 + 20)
  let layer := s.fresh
  let font := s.fresh + 1
  { s with
    s_title_layer := layer
    s_title_font := font
    fresh := s.fresh + 2
    calls := s.calls ++
      [Call.text_layer_create layer (toInt16 margin) (toInt16 (84 - Int.tdiv text_height 2))
         (toInt16 (s.bounds_w - 2 * margin)) (toInt16 text_height),
       Call.fonts_load_custom_font font,
       Call.text_layer_set_text layer title,
       Call.layer_add_child layer] }

/-- Function `destroy_title_layer`. -/
def destroy_title_layer (s : App) : App :=
  { s with
    calls := s.calls ++
      [Call.text_layer_destroy s.s_title_layer, Call.fonts_unload_custom_font s.s_title_font] }

/-- Function `createWordLayer`; returns the new state and the new layer. A read of `words[index]`
is `List.getD` at `index.toNat`. -/
def createWordLayer (R : Nat → Nat) (s : App) : App × Nat :=
  let randX := toUInt8 (Int.tmod (R s.seed) (toUInt8 (Int.tdiv s.bounds_w 2)))
  let randY := toUInt8 (Int.tmod (R (s.seed + 1)) (toUInt8 s.bounds_h - 20))
  let word_layer := s.fresh
  let index := s.word_indices.getD s.currentWordLayer 0
  ({ s with
     seed := s.seed + 2
     fresh := s.fresh + 1
     word_layers := s.word_layers.set s.currentWordLayer word_layer
     currentWordLayer := (s.currentWordLayer + 1) % 256
     calls := s.calls ++
       [Call.text_layer_create word_layer (toInt16 (randX + margin))
          (toInt16 (randY - 2 * margin)) (toInt16 (s.bounds_w - margin * 2)) 140,
        Call.text_layer_set_text word_layer (words.getD index.toNat "")] },
   word_layer)

/-- The body of the `switch (stars_state)` of `stateTimerCallback`. -/
def stateSwitch (R : Nat → Nat) (RAND_MAX : Nat) (s : App) : App :=
  match s.stars_state with
  | STATE_START =>
    if s.currentStateTime < state_times STATE_START then
      { s with currentStateTime := s.currentStateTime + TIMER_PERIOD }
    else
      let pre_index := R s.seed % prefixes.length
      let post_index := R (s.seed + 1) % postfixes.length
      let name := snprintf_name 18 (prefixes.getD pre_index "") (postfixes.getD post_index "")
      let s1 : App :=
        { s with currentStateTime := 0, seed := s.seed + 2, constellation_name := name }
      let s2 := generate_title_layer s1 name
      { s2 with stars_state := STATE_TITLE }
  | STATE_TITLE =>
    if s.currentStateTime < state_times STATE_TITLE then
      { s with currentStateTime := s.currentStateTime + TIMER_PERIOD }
    else
      let s1 := destroy_title_layer { s with currentStateTime := 0 }
      { s1 with stars_state := STATE_BLANK_1 }
  | STATE_BLANK_1 =>
    if s.currentStateTime < state_times STATE_BLANK_1 then
      { s with currentStateTime := s.currentStateTime + TIMER_PERIOD }
    else
      { s with currentStateTime := 0, stars_state := STATE_WORDS }
  | STATE_WORDS =>
    if s.currentWordLayer < NUM_WORD_LAYERS then
      if s.currentStateTime < state_times STATE_WORDS then
        { s with currentStateTime := s.currentStateTime + TIMER_PERIOD }
      else
        let r := createWordLayer R s
        { r.1 with calls := r.1.calls ++ [Call.layer_add_child r.2], currentStateTime := 0 }
    else
      { s with
        calls := s.calls ++
          (List.range NUM_WORD_LAYERS).map (fun i => Call.text_layer_destroy (s.word_layers.getD i 0))
        currentStateTime := 0
        currentWordLayer := 0
        stars_state := STATE_BLANK_2 }
  | STATE_BLANK_2 =>
    if s.currentStateTime < state_times STATE_BLANK_2 then
      { s with currentStateTime := s.currentStateTime + TIMER_PERIOD }
    else
      let st := generate_random_stars R s.bounds_w s.bounds_h s.stars s.seed
      let c := generate_random_constellation R s.bounds_w s.bounds_h s.constellation_stars st.seed
      let wl := generate_random_word_list R RAND_MAX s.word_indices c.seed
      { s with
        stars := st.stars
        constellation_stars := c.constellation_stars
        num_constellation_stars_chosen := c.num_constellation_stars_chosen
        word_indices := wl.1
        seed := wl.2
        calls := s.calls ++ [Call.layer_mark_dirty s.s_stars_layer]
        stars_state := STATE_START
        currentStateTime := 0 }

/-- Function `stateTimerCallback`: the switch, then the timer is registered for the next
period. -/
def stateTimerCallback (R : Nat → Nat) (RAND_MAX : Nat) (s : App) : App :=
  let s1 := stateSwitch R RAND_MAX s
  { s1 with
    stateTimer := s1.fresh
    fresh := s1.fresh + 1
    calls := s1.calls ++ [Call.app_timer_register s1.fresh TIMER_PERIOD] }

/-- The state after `n` consecutive timer ticks (calls of `stateTimerCallback`). -/
def ticks (R : Nat → Nat) (RAND_MAX : Nat) : Nat → App → App
  | 0, s => s
  | n + 1, s => stateTimerCallback R RAND_MAX (ticks R RAND_MAX n s)

/-- The values of the global variables at program start (static initialisers, zero otherwise),
before `main_window_load` has run. -/
def initialApp : App :=
  { stars_state := STATE_START
    currentStateTime := 0
    currentWordLayer := 0
    word_indices := List.replicate (NUM_WORD_LAYERS + 1) 0
    word_layers := List.replicate NUM_WORD_LAYERS 0
    stars := List.replicate NUM_STARS ⟨0, 0⟩
    constellation_stars := List.replicate NUM_CONSTELLATION_STARS ⟨0, 0⟩
    num_constellation_stars_chosen := 0
    constellation_name := ""
    s_stars_layer := 0
    s_time_layer := 0
    s_time_font := 0
    s_title_layer := 0
    s_title_font := 0
    s_word_font := 0
    stateTimer := 0
    bounds_w := 0
    bounds_h := 0
    seed := 0
    fresh := 1
    calls := [] }

/-- Function `main_window_load`; `w`, `h` is the size of the frame of the window's root layer
and `seed` the position in the random stream. -/
def main_window_load (R : Nat → Nat) (RAND_MAX : Nat) (w h : Int) (s : App) : App :=
  let stars_layer := s.fresh
  let st := generate_random_stars R w h s.stars s.seed
  let c := generate_random_constellation R w h s.constellation_stars st.seed
  let wl := generate_random_word_list R RAND_MAX s.word_indices c.seed
  let time_font := s.fresh + 1
  let word_font := s.fresh + 2
  let time_layer := s.fresh + 3
  let timer := s.fresh + 4
  { s with
    bounds_w := w
    bounds_h := h
    s_stars_layer := stars_layer
    stars := st.stars
    constellation_stars := c.constellation_stars
    num_constellation_stars_chosen := c.num_constellation_stars_chosen
    word_indices := wl.1
    seed := wl.2
    s_time_font := time_font
    s_word_font := word_font
    s_time_layer := time_layer
    stateTimer := timer
    fresh := s.fresh + 5
    calls := s.calls ++
      [Call.layer_create stars_layer,
       Call.fonts_load_custom_font time_font,
       Call.fonts_load_custom_font word_font,
       Call.text_layer_create time_layer (toInt16 margin) 144 (toInt16 (w - 2 * margin)) 20,
       Call.text_layer_set_text time_layer "00:00",
       Call.layer_add_child time_layer,
       Call.layer_add_child stars_layer,
       Call.app_timer_register timer TIMER_PERIOD] }

/-- Function `main_window_unload`. -/
def main_window_unload (s : App) : App :=
  { s with
    calls := s.calls ++
      [Call.layer_destroy s.s_stars_layer, Call.text_layer_destroy s.s_time_layer] ++
      (List.range NUM_WORD_LAYERS).map (fun i => Call.text_layer_destroy (s.word_layers.getD i 0)) ++
      [Call.fonts_unload_custom_font s.s_time_font,
       Call.fonts_unload_custom_font s.s_word_font,
       Call.app_timer_cancel s.stateTimer] }

/-! ## Definitions used to state the properties -/

/-- Two points differ by at most 25 in each coordinate. -/
def Near (p q : GPoint) : Prop := |p.x - q.x| ≤ 25 ∧ |p.y - q.y| ≤ 25

/-- Invariant of the loop of `generate_random_constellation`: the points written so far form a
chain of bounded steps, and the last point written is far from the limits of `int16_t`. -/
def WalkInv (st : ConstellationState) : Prop :=
  st.constellation_stars.length = NUM_CONSTELLATION_STARS ∧
  1 ≤ st.i ∧
  (∀ m, 0 < m → m < st.i →
    Near (st.constellation_stars.getD m ⟨0, 0⟩) (st.constellation_stars.getD (m - 1) ⟨0, 0⟩)) ∧
  -(24 * ((st.i : Int) - 1)) ≤ (st.constellation_stars.getD (st.i - 1) ⟨0, 0⟩).x ∧
  (st.constellation_stars.getD (st.i - 1) ⟨0, 0⟩).x ≤ 24576 + 24 * ((st.i : Int) - 1) ∧
  -(24 * ((st.i : Int) - 1)) ≤ (st.constellation_stars.getD (st.i - 1) ⟨0, 0⟩).y ∧
  (st.constellation_stars.getD (st.i - 1) ⟨0, 0⟩).y ≤ 24576 + 24 * ((st.i : Int) - 1)

/-- A concrete `rand()` stream with `RAND_MAX = 32767`, used to instantiate the theorems. -/
def sampleStream : Nat → Nat := fun s => s * 7919 % 32768

/-- A state at the entry of the Words phase on the 144 x 168 viewport: the initial values of the
globals, with the word selection that `generate_random_word_list` produces from them. -/
def sampleWordsEntry : App :=
  { initialApp with
    stars_state := STATE_WORDS
    bounds_w := 144
    bounds_h := 168
    word_indices :=
      (generate_random_word_list sampleStream 32767 (List.replicate (NUM_WORD_LAYERS + 1) 0) 0).1 }

/-- The fixed cycle Start -> Title -> Blank1 -> Words -> Blank2 -> Start. -/
def nextPhase : stars_state_t → stars_state_t
  | STATE_START => STATE_TITLE
  | STATE_TITLE => STATE_BLANK_1
  | STATE_BLANK_1 => STATE_WORDS
  | STATE_WORDS => STATE_BLANK_2
  | STATE_BLANK_2 => STATE_START

/-- The control part of the scheduler state: phase, elapsed time, slot index. -/
structure Ctrl where
  phase : stars_state_t
  elapsed : Int
  slot : Nat
deriving DecidableEq, Repr

/-- The control part of a program state. -/
def ctrl (s : App) : Ctrl := ⟨s.stars_state, s.currentStateTime, s.currentWordLayer⟩

/-- The effect of one call of `stateTimerCallback` on the control part, read off the `switch`:
the phase, the elapsed time and the slot index after the call depend on nothing else. -/
def ctrlStep (c : Ctrl) : Ctrl :=
  match c.phase with
  | STATE_START =>
    if c.elapsed < state_times STATE_START then ⟨STATE_START, c.elapsed + TIMER_PERIOD, c.slot⟩
    else ⟨STATE_TITLE, 0, c.slot⟩
  | STATE_TITLE =>
    if c.elapsed < state_times STATE_TITLE then ⟨STATE_TITLE, c.elapsed + TIMER_PERIOD, c.slot⟩
    else ⟨STATE_BLANK_1, 0, c.slot⟩
  | STATE_BLANK_1 =>
    if c.elapsed < state_times STATE_BLANK_1 then ⟨STATE_BLANK_1, c.elapsed + TIMER_PERIOD, c.slot⟩
    else ⟨STATE_WORDS, 0, c.slot⟩
  | STATE_WORDS =>
    if c.slot < NUM_WORD_LAYERS then
      if c.elapsed < state_times STATE_WORDS then ⟨STATE_WORDS, c.elapsed + TIMER_PERIOD, c.slot⟩
      else ⟨STATE_WORDS, 0, (c.slot + 1) % 256⟩
    else ⟨STATE_BLANK_2, 0, 0⟩
  | STATE_BLANK_2 =>
    if c.elapsed < state_times STATE_BLANK_2 then ⟨STATE_BLANK_2, c.elapsed + TIMER_PERIOD, c.slot⟩
    else ⟨STATE_START, 0, c.slot⟩

/-- The control part after `n` ticks. -/
def ctrlIter : Nat → Ctrl → Ctrl
  | 0, c => c
  | n + 1, c => ctrlStep (ctrlIter n c)

/-- The generated data of a program state: star field, constellation buffer, constellation
length, word selection. -/
def generated (s : App) : List GPoint × List GPoint × Nat × List Int :=
  (s.stars, s.constellation_stars, s.num_constellation_stars_chosen, s.word_indices)

/-- The data produced by running `generate_random_stars`, `generate_random_constellation` and
`generate_random_word_list` one after the other in state `s`, as the `STATE_BLANK_2` branch of
`stateTimerCallback` does. -/
def regenerated (R : Nat → Nat) (RAND_MAX : Nat) (s : App) :
    List GPoint × List GPoint × Nat × List Int :=
  let st := generate_random_stars R s.bounds_w s.bounds_h s.stars s.seed
  let c := generate_random_constellation R s.bounds_w s.bounds_h s.constellation_stars st.seed
  let wl := generate_random_word_list R RAND_MAX s.word_indices c.seed
  (st.stars, c.constellation_stars, c.num_constellation_stars_chosen, wl.1)

/-- The word presented by `createWordLayer` for slot `k` of the selection `word_indices`. -/
def wordAt (word_indices : List Int) (k : Nat) : String :=
  words.getD (word_indices.getD k 0).toNat ""

/-- The texts set during a tick taken in phase `STATE_WORDS` with control part `c`: one word when
`createWordLayer` is called, none otherwise. -/
def wordEmit (word_indices : List Int) (c : Ctrl) : List String :=
  if c.slot < NUM_WORD_LAYERS ∧ ¬ c.elapsed < state_times STATE_WORDS then
    [wordAt word_indices c.slot]
  else []

/-- The texts set during the first `n` ticks from control part `c`, all taken in phase
`STATE_WORDS`. -/
def wordsEmitted (word_indices : List Int) : Nat → Ctrl → List String
  | 0, _ => []
  | n + 1, c => wordsEmitted word_indices n c ++ wordEmit word_indices (ctrlIter n c)

/-- The texts of the `text_layer_set_text` calls in a record of calls, in order. -/
def shownTexts : List Call → List String
  | [] => []
  | Call.text_layer_set_text _ t :: cs => t :: shownTexts cs
  | _ :: cs => shownTexts cs

/-! ## Drawing -/

/-- The drawing calls made by `stars_update_proc`, in the order in which they are made (the
colour settings are not recorded). -/
inductive Draw where
  | graphics_fill_rect (origin : GPoint) (w h : Int)
  | graphics_draw_line (p0 p1 : GPoint)
deriving DecidableEq, Repr

/-- Function `stars_update_proc`: the three `for` loops, each over a fixed range of indices. The
rectangle is `GRect(0, 0, 2, 2)` with its origin replaced by the point. -/
def stars_update_proc (stars constellation_stars : List GPoint)
    (num_constellation_stars_chosen : Nat) : List Draw :=
  (List.range NUM_STARS).map (fun i => Draw.graphics_fill_rect (stars.getD i ⟨0, 0⟩) 2 2) ++
  (List.range NUM_CONSTELLATION_STARS).map
    (fun i => Draw.graphics_fill_rect (constellation_stars.getD i ⟨0, 0⟩) 2 2) ++
  (List.range' 1 (num_constellation_stars_chosen - 1)).map
    (fun i => Draw.graphics_draw_line (constellation_stars.getD (i - 1) ⟨0, 0⟩)
      (constellation_stars.getD i ⟨0, 0⟩))

/-- Whether a drawing call is a filled square. -/
def isFillRect : Draw → Bool
  | Draw.graphics_fill_rect _ _ _ => true
  | Draw.graphics_draw_line _ _ => false

/-! ## The variant `words-test.c` -/

namespace WordsTest

/-- Macro `NUM_WORD_LAYERS` of `words-test.c`. -/
def NUM_WORD_LAYERS : Nat := 12

/-- The vocabulary `words[]` of `words-test.c`. -/
def words : List String :=
  ["azure", "indigo", "crimson", "dust", "fragment", "Luna", "rock", "void", "nova", "vast",
   "incessant", "continuous", "infinite", "night", "light", "point", "otherness", "sleep",
   "wake", "awe", "wave", "companion", "double", "brilliant", "nucleus", "dense", "visible",
   "obscured", "patch", "disk", "visible", "ominous", "spectrum", "gas"]

/-- Macro `NUM_TOTAL_WORDS` of `words-test.c`. -/
def NUM_TOTAL_WORDS : Nat := words.length

/-- The selection loop of `generate_random_word_list` in `words-test.c`: as in
`constellation-poems.c`, except that the value stored is `in + 1`. -/
def selectLoop (R : Nat → Nat) (max_words max_layers : Nat) : Nat → SelectState → SelectState
  | 0, st => st
  | fuel + 1, st =>
    if st.in_ < max_words ∧ st.im < max_layers then
      let rn := max_words - st.in_
      let rm := max_layers - st.im
      if R st.seed % rn < rm then
        selectLoop R max_words max_layers fuel
          ⟨st.in_ + 1, st.im + 1, st.seed + 1, st.word_indices.set st.im ((st.in_ : Int) + 1)⟩
      else
        selectLoop R max_words max_layers fuel ⟨st.in_ + 1, st.im, st.seed + 1, st.word_indices⟩
    else st

/-- Function `generate_random_word_list` of `words-test.c` with the two macros as parameters
(`shuffle` is the same function in both files). -/
def generate_random_word_list_of (R : Nat → Nat) (RAND_MAX max_words max_layers : Nat)
    (word_indices : List Int) (seed : Nat) : List Int × Nat :=
  let sel := selectLoop R max_words max_layers max_words ⟨0, 0, seed, word_indices⟩
  let sh := shuffle R RAND_MAX sel.word_indices max_layers sel.seed
  (sh.array, sh.seed)

/-- Function `generate_random_word_list` of `words-test.c`: 34 words, 12 slots. -/
def generate_random_word_list (R : Nat → Nat) (RAND_MAX : Nat) (word_indices : List Int)
    (seed : Nat) : List Int × Nat :=
  generate_random_word_list_of R RAND_MAX NUM_TOTAL_WORDS NUM_WORD_LAYERS word_indices seed

end WordsTest

/-! ## Definitions used to state the properties of reachable states -/

/-- The effect of one toolkit call on the list of text layers that exist: `text_layer_create`
adds the new layer, `text_layer_destroy` removes the layer, nothing else matters. -/
def liveStep (live : List Nat) : Call → List Nat
  | Call.text_layer_create layer _ _ _ _ => live ++ [layer]
  | Call.text_layer_destroy layer => live.erase layer
  | _ => live

/-- The text layers that exist after a record of calls: created and not destroyed since. -/
def liveLayers (calls : List Call) : List Nat := calls.foldl liveStep []

/-- The layers handed to `text_layer_destroy` in a record of calls, in order. -/
def destroyedLayers : List Call → List Nat
  | [] => []
  | Call.text_layer_destroy layer :: cs => layer :: destroyedLayers cs
  | _ :: cs => destroyedLayers cs

/-- The word presentations of a state: the layers that `createWordLayer` has stored in
`word_layers` since the slot index was last 0. -/
def wordPresentations (s : App) : List Nat := s.word_layers.take s.currentWordLayer

/-- The title presentation of a state, if the phase is Title. -/
def titlePresentation (s : App) : List Nat :=
  if s.stars_state = STATE_TITLE then [s.s_title_layer] else []

/-- The states of a run of the program: `main_window_load` on a `w` x `h` viewport from the
initial values of the globals, then any number of timer ticks. -/
def Reachable (R : Nat → Nat) (RAND_MAX : Nat) (w h : Int) (s : App) : Prop :=
  ∃ n, s = ticks R RAND_MAX n (main_window_load R RAND_MAX w h initialApp)

/-- The states in which `stateTimerCallback` calls `createWordLayer`: the branch of the `switch`
that contains the only call. -/
def callsCreateWordLayer (s : App) : Prop :=
  s.stars_state = STATE_WORDS ∧ s.currentWordLayer < NUM_WORD_LAYERS ∧
  ¬ s.currentStateTime < state_times STATE_WORDS

/-- Invariant of the reachable states. -/
def AppInv (s : App) : Prop :=
  s.word_indices.length = NUM_WORD_LAYERS + 1 ∧
  (∀ v ∈ s.word_indices.take NUM_WORD_LAYERS, 0 ≤ v ∧ v < (NUM_TOTAL_WORDS : Int)) ∧
  s.word_layers.length = NUM_WORD_LAYERS ∧
  s.currentWordLayer ≤ NUM_WORD_LAYERS ∧
  (s.stars_state ≠ STATE_WORDS → s.currentWordLayer = 0) ∧
  liveLayers s.calls = s.s_time_layer :: (titlePresentation s ++ wordPresentations s) ∧
  (s.s_time_layer :: (titlePresentation s ++ wordPresentations s)).Nodup ∧
  ∀ l ∈ s.s_time_layer :: (titlePresentation s ++ wordPresentations s), l < s.fresh

/-- A state in phase Blank2 whose elapsed counter has reached `state_times[STATE_BLANK_2]`, on
the 144 x 168 viewport. -/
def sampleBlank2Exit : App :=
  { initialApp with
    stars_state := STATE_BLANK_2
    currentStateTime := 1500
    bounds_w := 144
    bounds_h := 168 }

/-- A state in phase Start whose elapsed counter has reached `state_times[STATE_START]`. -/
def sampleStartExit : App :=
  { initialApp with currentStateTime := 500 }

/-- A `rand()` stream (all values at most 33) for which the selection loop of `words-test.c`
picks no candidate before it has to: `rand() % rn` is `rn - 1` at every candidate. -/
def lastPickStream : Nat → Nat := fun s => 33 - s

/-! ## Definitions used to state the properties of the selection, the cycle and the teardown -/

/-- The swap index computed in the body of the loop of `shuffle`, for the loop counter `i` and
the `rand()` value `r`: the expression `i + rand() / (RAND_MAX / (n - i) + 1)`. -/
def shuffleIndex (RAND_MAX n i r : Nat) : Nat := i + r / (RAND_MAX / (n - i) + 1)

/-- The phase `m` ticks after the scheduler was in phase Start with elapsed counter 0 and slot
index 0, for `m ≤ 104`: 2 ticks of Start, 6 of Title, 3 of Blank1, 89 of Words, 4 of Blank2. -/
def cyclePhase (m : Nat) : stars_state_t :=
  if m < 2 then STATE_START
  else if m < 2 + 6 then STATE_TITLE
  else if m < 2 + 6 + 3 then STATE_BLANK_1
  else if m < 2 + 6 + 3 + 89 then STATE_WORDS
  else if m < 2 + 6 + 3 + 89 + 4 then STATE_BLANK_2
  else STATE_START

/-- The title layer is none of the other text layers that exist. -/
def TitleInv (s : App) : Prop :=
  s.s_title_layer ≠ s.s_time_layer ∧ s.s_title_layer < s.fresh ∧
  ∀ l ∈ wordPresentations s, s.s_title_layer < l

/-- All vectors of draws for `rn` candidates: the first draw is a value of `rand() % rn`, that
is a number below `rn`, the next one a number below `rn - 1`, and so on. Each vector occurs
once, so that drawing every `rand() % rn` uniformly and independently is drawing a vector
uniformly from this list. -/
def drawVectors : Nat → List (List Nat)
  | 0 => [[]]
  | rn + 1 => (List.range (rn + 1)).flatMap (fun d => (drawVectors rn).map (fun ds => d :: ds))

/-- A `rand()` stream whose first values are the draws `ds`. -/
def drawStream (ds : List Nat) : Nat → Nat := fun s => ds.getD s 0

/-- The candidates picked by the selection loop when the draws `rand() % rn` are the values of
the list, from candidate `i` on and with `rm` slots still to fill (`rn` is the number of draws
left). -/
def picks : Nat → Nat → List Nat → List Nat
  | _, _, [] => []
  | i, rm, d :: ds => if d < rm then i :: picks (i + 1) (rm - 1) ds else picks (i + 1) rm ds

/-- The handles given to `app_timer_cancel` in a record of calls, in order. -/
def cancelledTimers : List Call → List Nat
  | [] => []
  | Call.app_timer_cancel timer :: cs => timer :: cancelledTimers cs
  | _ :: cs => cancelledTimers cs

/-! ## The scheduler with the array accesses of `createWordLayer` checked -/

/-- Function `createWordLayer` with its three array accesses checked, in the order in which the
function makes them: the read `word_indices[currentWordLayer]`, the read `words[index]` and
the write `word_layers[currentWordLayer]`. The result is `none` if one of them is outside its
array, and the result of `createWordLayer` otherwise. -/
def createWordLayerChecked (R : Nat → Nat) (s : App) : Option (App × Nat) :=
  if s.currentWordLayer < s.word_indices.length then
    if 0 ≤ s.word_indices.getD s.currentWordLayer 0 ∧
        (s.word_indices.getD s.currentWordLayer 0).toNat < words.length then
      if s.currentWordLayer < s.word_layers.length then some (createWordLayer R s) else none
    else none
  else none

/-- The body of the `switch (stars_state)` of `stateTimerCallback` with the call of
`createWordLayer` replaced by the checked function: `none` if the call is made and one of its
accesses is out of bounds. -/
def stateSwitchChecked (R : Nat → Nat) (RAND_MAX : Nat) (s : App) : Option App :=
  match s.stars_state with
  | STATE_START =>
    if s.currentStateTime < state_times STATE_START then
      some { s with currentStateTime := s.currentStateTime + TIMER_PERIOD }
    else
      let pre_index := R s.seed % prefixes.length
      let post_index := R (s.seed + 1) % postfixes.length
      let name := snprintf_name 18 (prefixes.getD pre_index "") (postfixes.getD post_index "")
      let s1 : App :=
        { s with currentStateTime := 0, seed := s.seed + 2, constellation_name := name }
      let s2 := generate_title_layer s1 name
      some { s2 with stars_state := STATE_TITLE }
  | STATE_TITLE =>
    if s.currentStateTime < state_times STATE_TITLE then
      some { s with currentStateTime := s.currentStateTime + TIMER_PERIOD }
    else
      let s1 := destroy_title_layer { s with currentStateTime := 0 }
      some { s1 with stars_state := STATE_BLANK_1 }
  | STATE_BLANK_1 =>
    if s.currentStateTime < state_times STATE_BLANK_1 then
      some { s with currentStateTime := s.currentStateTime + TIMER_PERIOD }
    else
      some { s with currentStateTime := 0, stars_state := STATE_WORDS }
  | STATE_WORDS =>
    if s.currentWordLayer < NUM_WORD_LAYERS then
      if s.currentStateTime < state_times STATE_WORDS then
        some { s with currentStateTime := s.currentStateTime + TIMER_PERIOD }
      else
        match createWordLayerChecked R s with
        | none => none
        | some r =>
          some { r.1 with calls := r.1.calls ++ [Call.layer_add_child r.2], currentStateTime := 0 }
    else
      some { s with
        calls := s.calls ++
          (List.range NUM_WORD_LAYERS).map (fun i => Call.text_layer_destroy (s.word_layers.getD i 0))
        currentStateTime := 0
        currentWordLayer := 0
        stars_state := STATE_BLANK_2 }
  | STATE_BLANK_2 =>
    if s.currentStateTime < state_times STATE_BLANK_2 then
      some { s with currentStateTime := s.currentStateTime + TIMER_PERIOD }
    else
      let st := generate_random_stars R s.bounds_w s.bounds_h s.stars s.seed
      let c := generate_random_constellation R s.bounds_w s.bounds_h s.constellation_stars st.seed
      let wl := generate_random_word_list R RAND_MAX s.word_indices c.seed
      some { s with
        stars := st.stars
        constellation_stars := c.constellation_stars
        num_constellation_stars_chosen := c.num_constellation_stars_chosen
        word_indices := wl.1
        seed := wl.2
        calls := s.calls ++ [Call.layer_mark_dirty s.s_stars_layer]
        stars_state := STATE_START
        currentStateTime := 0 }

/-- Function `stateTimerCallback` over the checked switch. -/
def stateTimerCallbackChecked (R : Nat → Nat) (RAND_MAX : Nat) (s : App) : Option App :=
  match stateSwitchChecked R RAND_MAX s with
  | none => none
  | some s1 =>
    some { s1 with
      stateTimer := s1.fresh
      fresh := s1.fresh + 1
      calls := s1.calls ++ [Call.app_timer_register s1.fresh TIMER_PERIOD] }

/-- The state after `n` consecutive checked timer ticks, `none` if one of them made an access
out of bounds. -/
def ticksChecked (R : Nat → Nat) (RAND_MAX : Nat) : Nat → App → Option App
  | 0, s => some s
  | n + 1, s =>
    match ticksChecked R RAND_MAX n s with
    | none => none
    | some t => stateTimerCallbackChecked R RAND_MAX t

/-! ## Lemmas: selection loop -/

/-- Invariant of the selection loop: the slots written so far hold a strictly increasing sequence
of candidate indices below `in`. -/
def SelInv (st : SelectState) : Prop :=
  (st.word_indices.take st.im).Pairwise (· < ·) ∧
  ∀ v ∈ st.word_indices.take st.im, 0 ≤ v ∧ v < (st.in_ : Int)

theorem take_succ_set_eq (a : List Int) (m : Nat) (v : Int) (h : m < a.length) :
    (a.set m v).take (m + 1) = a.take m ++ [v] := by
  rw [List.take_succ]
  have h1 : (a.set m v).take m = a.take m := by
    rw [List.set_take]
    exact List.set_eq_of_length_le (by simp)
  rw [h1]
  simp [List.getElem?_set, h]

theorem SelInv_pick (st : SelectState) (h : SelInv st) (hlen : st.im < st.word_indices.length) :
    SelInv ⟨st.in_ + 1, st.im + 1, st.seed + 1, st.word_indices.set st.im (st.in_ : Int)⟩ := by
  obtain ⟨h1, h2⟩ := h
  unfold SelInv
  simp only
  rw [take_succ_set_eq _ _ _ hlen]
  constructor
  · rw [List.pairwise_append]
    refine ⟨h1, List.pairwise_singleton _ _, ?_⟩
    intro x hx y hy
    simp only [List.mem_singleton] at hy
    subst hy
    exact (h2 x hx).2
  · intro v hv
    rw [List.mem_append] at hv
    rcases hv with hv | hv
    · have := h2 v hv
      constructor
      · exact this.1
      · push_cast; omega
    · simp only [List.mem_singleton] at hv
      subst hv
      constructor
      · exact Int.natCast_nonneg _
      · push_cast; omega

theorem SelInv_skip (st : SelectState) (h : SelInv st) :
    SelInv ⟨st.in_ + 1, st.im, st.seed + 1, st.word_indices⟩ := by
  obtain ⟨h1, h2⟩ := h
  refine ⟨h1, ?_⟩
  intro v hv
  have := h2 v hv
  simp only at hv ⊢
  constructor
  · exact this.1
  · push_cast; omega

/-- Everything the selection loop guarantees, from any loop state in which at least as many
candidates remain as slots. -/
theorem selectLoop_spec (R : Nat → Nat) (n k : Nat) :
    ∀ (fuel : Nat) (st : SelectState),
      st.in_ + fuel = n → st.im ≤ k → k - st.im ≤ n - st.in_ →
      st.word_indices.length > k → SelInv st →
      (selectLoop R n k fuel st).im = k ∧
      (selectLoop R n k fuel st).in_ ≤ n ∧
      (selectLoop R n k fuel st).word_indices.length = st.word_indices.length ∧
      SelInv (selectLoop R n k fuel st) := by
  intro fuel
  induction fuel with
  | zero =>
    intro st h1 h2 h3 _ h5
    simp only [selectLoop]
    exact ⟨by omega, by omega, trivial, h5⟩
  | succ fuel ih =>
    intro st h1 h2 h3 h4 h5
    simp only [selectLoop]
    by_cases hg : st.in_ < n ∧ st.im < k
    · rw [if_pos hg]
      by_cases hp : R st.seed % (n - st.in_) < k - st.im
      · rw [if_pos hp]
        have := ih ⟨st.in_ + 1, st.im + 1, st.seed + 1, st.word_indices.set st.im (st.in_ : Int)⟩
          (by simp only; omega) (by simp only; omega) (by simp only; omega)
          (by simp only [List.length_set]; exact h4)
          (SelInv_pick st h5 (by omega))
        simpa only [List.length_set] using this
      · rw [if_neg hp]
        have hlt : R st.seed % (n - st.in_) < n - st.in_ := Nat.mod_lt _ (by omega)
        exact ih ⟨st.in_ + 1, st.im, st.seed + 1, st.word_indices⟩
          (by simp only; omega) (by simp only; omega) (by simp only; omega)
          (by simp only; exact h4) (SelInv_skip st h5)
    · rw [if_neg hg]
      exact ⟨by omega, by omega, rfl, h5⟩

theorem SelInv_init (a : List Int) (seed : Nat) : SelInv ⟨0, 0, seed, a⟩ := by
  constructor
  · simp
  · intro v hv
    simp at hv

/-! ## Lemmas: shuffle -/

/-- Exchanging two cells of an array permutes it. -/
theorem swap_perm (a : List Int) (i j : Nat) (hi : i < a.length) (hj : j < a.length) :
    ((a.set j (a.getD i 0)).set i (a.getD j 0)).Perm a := by
  rw [List.getD_eq_getElem _ _ hi, List.getD_eq_getElem _ _ hj]
  rw [List.perm_iff_count]
  intro x
  rw [List.count_set _ _ _ _ (by simpa using hi), List.count_set _ _ _ _ hj]
  have ci : a[i] = x → 0 < a.count x := fun h => List.count_pos_iff.mpr (h ▸ List.getElem_mem hi)
  have cj : a[j] = x → 0 < a.count x := fun h => List.count_pos_iff.mpr (h ▸ List.getElem_mem hj)
  by_cases hij : i = j
  · subst hij
    simp only [List.getElem_set_self, beq_iff_eq]
    by_cases h : a[i] = x
    · have := ci h
      simp only [h, if_true]; omega
    · simp only [h, if_false]; omega
  · have hne : j ≠ i := fun h => hij h.symm
    simp only [List.getElem_set_ne hne, beq_iff_eq]
    by_cases h1 : a[i] = x <;> by_cases h2 : a[j] = x
    · have := ci h1
      simp only [h1, h2, if_true]; omega
    · have := ci h1
      simp only [h1, h2, if_true, if_false]; omega
    · have := cj h2
      simp only [h1, h2, if_true, if_false]; omega
    · simp only [h1, h2, if_false]; omega

/-- The swap index of `shuffle` stays inside the part of the array being shuffled. -/
theorem shuffle_index_lt (RAND_MAX n i r : Nat) (hi : i < n - 1) (hr : r ≤ RAND_MAX) :
    i + r / (RAND_MAX / (n - i) + 1) < n := by
  have hm : 0 < n - i := by omega
  have h1 : RAND_MAX < (RAND_MAX / (n - i) + 1) * (n - i) := by
    have e1 := Nat.div_add_mod' RAND_MAX (n - i)
    have e2 := Nat.mod_lt RAND_MAX hm
    rw [Nat.add_mul, Nat.one_mul]
    omega
  have h2 : r / (RAND_MAX / (n - i) + 1) < n - i :=
    Nat.div_lt_of_lt_mul (lt_of_le_of_lt hr h1)
  omega

/-- One exchange inside the first `n` cells permutes these cells and leaves the others alone. -/
theorem swap_take_drop (a : List Int) (n i j : Nat) (hn : n ≤ a.length) (hi : i < n)
    (hj : j < n) :
    (((a.set j (a.getD i 0)).set i (a.getD j 0)).take n).Perm (a.take n) ∧
    ((a.set j (a.getD i 0)).set i (a.getD j 0)).drop n = a.drop n := by
  have hd : ((a.set j (a.getD i 0)).set i (a.getD j 0)).drop n = a.drop n := by
    rw [List.drop_set_of_lt _ _ hi, List.drop_set_of_lt _ _ hj]
  refine ⟨?_, hd⟩
  have hp := swap_perm a i j (by omega) (by omega)
  have hp2 : (((a.set j (a.getD i 0)).set i (a.getD j 0)).take n ++ a.drop n).Perm
      (a.take n ++ a.drop n) := by
    have e1 : ((a.set j (a.getD i 0)).set i (a.getD j 0)).take n ++ a.drop n =
        (a.set j (a.getD i 0)).set i (a.getD j 0) := by
      rw [← hd]
      exact List.take_append_drop n _
    rw [e1, List.take_append_drop]
    exact hp
  exact (List.perm_append_right_iff _).mp hp2

/-- Everything the loop of `shuffle` guarantees. -/
theorem shuffleLoop_spec (R : Nat → Nat) (RAND_MAX n : Nat) (hR : ∀ s, R s ≤ RAND_MAX) :
    ∀ (fuel : Nat) (st : ShuffleState),
      st.i + fuel = n - 1 → n ≤ st.array.length →
      ((shuffleLoop R RAND_MAX n fuel st).array.take n).Perm (st.array.take n) ∧
      (shuffleLoop R RAND_MAX n fuel st).array.drop n = st.array.drop n ∧
      (shuffleLoop R RAND_MAX n fuel st).array.length = st.array.length ∧
      (shuffleLoop R RAND_MAX n fuel st).i = n - 1 ∧
      (shuffleLoop R RAND_MAX n fuel st).seed = st.seed + fuel := by
  intro fuel
  induction fuel with
  | zero =>
    intro st h1 _
    refine ⟨List.Perm.refl _, rfl, rfl, ?_, rfl⟩
    show st.i = n - 1
    omega
  | succ fuel ih =>
    intro st h1 h2
    have hg : st.i < n - 1 := by omega
    simp only [shuffleLoop, if_pos hg]
    have hj := shuffle_index_lt RAND_MAX n st.i (R st.seed) hg (hR st.seed)
    have hsw := swap_take_drop st.array n st.i _ h2 (by omega) hj
    have := ih ⟨st.i + 1, st.seed + 1,
      (st.array.set (st.i + R st.seed / (RAND_MAX / (n - st.i) + 1)) (st.array.getD st.i 0)).set
        st.i (st.array.getD (st.i + R st.seed / (RAND_MAX / (n - st.i) + 1)) 0)⟩
      (by simp only; omega) (by simp only [List.length_set]; exact h2)
    obtain ⟨p1, p2, p3, p4, p5⟩ := this
    simp only [List.length_set] at p3
    refine ⟨p1.trans hsw.1, p2.trans hsw.2, p3, p4, ?_⟩
    rw [p5]
    simp only
    omega

/-- Everything `shuffle` guarantees. -/
theorem shuffle_spec (R : Nat → Nat) (RAND_MAX : Nat) (hR : ∀ s, R s ≤ RAND_MAX)
    (array : List Int) (n seed : Nat) (hn : n ≤ array.length) :
    ((shuffle R RAND_MAX array n seed).array.take n).Perm (array.take n) ∧
    (shuffle R RAND_MAX array n seed).array.drop n = array.drop n ∧
    (shuffle R RAND_MAX array n seed).array.length = array.length := by
  unfold shuffle
  by_cases h : n > 1
  · rw [if_pos h]
    have := shuffleLoop_spec R RAND_MAX n hR (n - 1) ⟨0, seed, array⟩ (by simp) hn
    exact ⟨this.1, this.2.1, this.2.2.1⟩
  · rw [if_neg h]
    exact ⟨List.Perm.refl _, rfl, rfl⟩

/-- Everything the selection part of `generate_random_word_list` guarantees. -/
theorem selectWords_spec (R : Nat → Nat) (n k : Nat) (hk : k ≤ n) (a : List Int) (seed : Nat)
    (ha : a.length = k + 1) :
    (selectWords R n k a seed).im = k ∧
    (selectWords R n k a seed).in_ ≤ n ∧
    (selectWords R n k a seed).word_indices.length = k + 1 ∧
    SelInv (selectWords R n k a seed) := by
  have := selectLoop_spec R n k n ⟨0, 0, seed, a⟩ (by simp) (by simp) (by simp; exact hk)
    (by simp only; omega) (SelInv_init a seed)
  simp only at this
  rw [ha] at this
  exact this

/-- After `generate_random_word_list` the first `k` cells hold `k` pairwise distinct valid
vocabulary indices. -/
theorem word_list_spec (R : Nat → Nat) (RAND_MAX n k : Nat) (hR : ∀ s, R s ≤ RAND_MAX)
    (hk : k ≤ n) (a : List Int) (seed : Nat) (ha : a.length = k + 1) :
    (generate_random_word_list_of R RAND_MAX n k a seed).1.length = k + 1 ∧
    ((generate_random_word_list_of R RAND_MAX n k a seed).1.take k).Nodup ∧
    ∀ v ∈ (generate_random_word_list_of R RAND_MAX n k a seed).1.take k, 0 ≤ v ∧ v < (n : Int) := by
  obtain ⟨s1, s2, s3, s4, s5⟩ := selectWords_spec R n k hk a seed ha
  have hsh := shuffle_spec R RAND_MAX hR (selectWords R n k a seed).word_indices k
    (selectWords R n k a seed).seed (by omega)
  simp only [generate_random_word_list_of]
  rw [s1] at s4 s5
  refine ⟨by rw [hsh.2.2, s3], ?_, ?_⟩
  · rw [hsh.1.nodup_iff]
    exact s4.imp (fun h => ne_of_lt h)
  · intro v hv
    have hv2 := hsh.1.subset hv
    have := s5 v hv2
    constructor
    · exact this.1
    · have : ((selectWords R n k a seed).in_ : Int) ≤ (n : Int) := by exact_mod_cast s2
      omega

theorem sampleStream_le : ∀ s, sampleStream s ≤ 32767 := by
  intro s
  show s * 7919 % 32768 ≤ 32767
  omega

/-! ## Lemmas: constellation generator -/

theorem getD_set_self (a : List GPoint) (i : Nat) (p d : GPoint) (h : i < a.length) :
    (a.set i p).getD i d = p := by
  rw [List.getD_eq_getElem _ _ (by simpa using h)]
  simp

theorem getD_set_ne (a : List GPoint) (i j : Nat) (p d : GPoint) (h : i ≠ j) :
    (a.set i p).getD j d = a.getD j d := by
  simp [List.getD_eq_getElem?_getD, List.getElem?_set_ne h]

/-- A signed offset as computed in the loop body: magnitude `r % 25`, sign from `dir`. -/
theorem offset_bounds (r : Nat) (dir : Int) :
    -24 ≤ (if dir = 1 then -1 * Int.tmod (r : Int) 25 else Int.tmod (r : Int) 25) ∧
    (if dir = 1 then -1 * Int.tmod (r : Int) 25 else Int.tmod (r : Int) 25) ≤ 24 := by
  have h1 : 0 ≤ Int.tmod (r : Int) 25 := Int.tmod_nonneg _ (Int.natCast_nonneg r)
  have h2 : Int.tmod (r : Int) 25 < 25 := Int.tmod_lt_of_pos _ (by decide)
  split <;> omega

/-- One step of the walk from a point far from the limits of `int16_t`. -/
theorem walk_step (v off : Int) (i : Nat) (hi : i ≤ 255) (h1 : -(24 * ((i : Int) - 1)) ≤ v)
    (h2 : v ≤ 24576 + 24 * ((i : Int) - 1)) (h3 : -24 ≤ off) (h4 : off ≤ 24) :
    |toInt16 (v + off) - v| ≤ 25 ∧
    -(24 * (((i + 1 : Nat) : Int) - 1)) ≤ toInt16 (v + off) ∧
    toInt16 (v + off) ≤ 24576 + 24 * (((i + 1 : Nat) : Int) - 1) := by
  have e : toInt16 (v + off) = v + off := by
    unfold toInt16
    omega
  rw [e, abs_le]
  push_cast
  omega

theorem constellationLoop_spec (R : Nat → Nat) (L : Nat) (hL : L ≤ NUM_CONSTELLATION_STARS) :
    ∀ (fuel : Nat) (st : ConstellationState),
      st.i + fuel = L → WalkInv st →
      WalkInv (constellationLoop R L fuel st) ∧ (constellationLoop R L fuel st).i = L := by
  intro fuel
  induction fuel with
  | zero =>
    intro st h1 h2
    exact ⟨h2, by simpa using h1⟩
  | succ fuel ih =>
    intro st h1 h2
    have hg : st.i < L := by omega
    simp only [constellationLoop, if_pos hg]
    apply ih
    · simp only; omega
    · obtain ⟨a1, a2, a3, a4, a5, a6, a7⟩ := h2
      have hlt : st.i < st.constellation_stars.length := by
        rw [a1]; omega
      have h16 : st.i ≤ 255 := by
        simp only [NUM_CONSTELLATION_STARS] at hL; omega
      have ox := offset_bounds (R st.seed) (toUInt8 (Int.tmod (R (st.seed + 2)) 2))
      have oy := offset_bounds (R (st.seed + 1)) (toUInt8 (Int.tmod (R (st.seed + 3)) 2))
      have wx := walk_step _ _ st.i h16 a4 a5 ox.1 ox.2
      have wy := walk_step _ _ st.i h16 a6 a7 oy.1 oy.2
      refine ⟨by simpa using a1, by simp, ?_, ?_⟩
      · intro m hm0 hm
        simp only at hm
        by_cases hmi : m = st.i
        · subst hmi
          rw [getD_set_self _ _ _ _ hlt, getD_set_ne _ _ _ _ _ (by omega)]
          exact ⟨wx.1, wy.1⟩
        · rw [getD_set_ne _ _ _ _ _ (by omega), getD_set_ne _ _ _ _ _ (by omega)]
          exact a3 m hm0 (by omega)
      · simp only [Nat.add_sub_cancel]
        rw [getD_set_self _ _ _ _ hlt]
        exact ⟨wx.2.1, wx.2.2, wy.2.1, wy.2.2⟩

/-- The first point of the constellation lies in the central half of a viewport whose sides are
at least 2 and fit `int16_t`. -/
theorem first_coordinate_bounds (r : Nat) (w : Int) (hw : 2 ≤ w) (hw16 : w ≤ 32767) :
    0 ≤ toInt16 (Int.tmod (r : Int) (Int.tdiv w 2) + Int.tdiv w 4) ∧
    toInt16 (Int.tmod (r : Int) (Int.tdiv w 2) + Int.tdiv w 4) ≤ 24576 := by
  have e2 : Int.tdiv w 2 = w / 2 := Int.tdiv_eq_ediv (by omega) (by decide)
  have e4 : Int.tdiv w 4 = w / 4 := Int.tdiv_eq_ediv (by omega) (by decide)
  rw [e2, e4]
  have h1 : 0 ≤ Int.tmod (r : Int) (w / 2) := Int.tmod_nonneg _ (Int.natCast_nonneg r)
  have h2 : Int.tmod (r : Int) (w / 2) < w / 2 := Int.tmod_lt_of_pos _ (by omega)
  unfold toInt16
  omega

/-- Everything `generate_random_constellation` guarantees about the chain of points. -/
theorem generate_random_constellation_spec (R : Nat → Nat) (w h : Int) (hw : 2 ≤ w)
    (hh : 2 ≤ h) (hw16 : w ≤ 32767) (hh16 : h ≤ 32767) (constellation_stars : List GPoint)
    (seed : Nat) (hlen : constellation_stars.length = NUM_CONSTELLATION_STARS) :
    (generate_random_constellation R w h constellation_stars seed).i =
      (generate_random_constellation R w h constellation_stars seed).num_constellation_stars_chosen ∧
    ∀ m, 0 < m →
      m < (generate_random_constellation R w h constellation_stars seed).num_constellation_stars_chosen →
      Near ((generate_random_constellation R w h constellation_stars seed).constellation_stars.getD m ⟨0, 0⟩)
        ((generate_random_constellation R w h constellation_stars seed).constellation_stars.getD (m - 1) ⟨0, 0⟩) := by
  have hL : (R seed % (NUM_CONSTELLATION_STARS - 4) + 4) % 256 ≤ NUM_CONSTELLATION_STARS := by
    simp only [NUM_CONSTELLATION_STARS]; omega
  have hL4 : 4 ≤ (R seed % (NUM_CONSTELLATION_STARS - 4) + 4) % 256 := by
    simp only [NUM_CONSTELLATION_STARS]; omega
  have h0 : 0 < constellation_stars.length := by
    rw [hlen]; simp only [NUM_CONSTELLATION_STARS]; omega
  have fx := first_coordinate_bounds (R (seed + 1)) w hw hw16
  have fy := first_coordinate_bounds (R (seed + 2)) h hh hh16
  have inv0 : WalkInv ⟨1, seed + 3, constellation_stars.set 0
      ⟨toInt16 (Int.tmod (R (seed + 1)) (Int.tdiv w 2) + Int.tdiv w 4),
       toInt16 (Int.tmod (R (seed + 2)) (Int.tdiv h 2) + Int.tdiv h 4)⟩⟩ := by
    refine ⟨by simpa using hlen, le_refl _, ?_, ?_⟩
    · intro m hm0 hm
      simp only at hm
      omega
    · simp only [Nat.sub_self]
      rw [getD_set_self _ _ _ _ h0]
      simp only [Nat.cast_one, sub_self, mul_zero, neg_zero, add_zero]
      exact ⟨fx.1, fx.2, fy.1, fy.2⟩
  have := constellationLoop_spec R _ hL
    ((R seed % (NUM_CONSTELLATION_STARS - 4) + 4) % 256 - 1) _ (by simp only; omega) inv0
  simp only [generate_random_constellation]
  exact ⟨this.2, fun m hm0 hm => this.1.2.2.1 m hm0 (by rw [this.2]; exact hm)⟩

/-! ## Lemmas: phase scheduler -/

/-- The control part after a tick depends on the control part before it only. -/
theorem ctrl_stateTimerCallback (R : Nat → Nat) (RAND_MAX : Nat) (s : App) :
    ctrl (stateTimerCallback R RAND_MAX s) = ctrlStep (ctrl s) := by
  unfold stateTimerCallback stateSwitch ctrlStep ctrl
  cases hph : s.stars_state <;> simp only [hph] <;> split_ifs <;>
    first | rfl | simp [createWordLayer, hph]

theorem ctrl_fields (p : App) (c : Ctrl) (h : ctrl p = c) :
    p.stars_state = c.phase ∧ p.currentStateTime = c.elapsed ∧ p.currentWordLayer = c.slot := by
  subst h
  exact ⟨rfl, rfl, rfl⟩

theorem ctrl_ticks (R : Nat → Nat) (RAND_MAX : Nat) (s : App) :
    ∀ n, ctrl (ticks R RAND_MAX n s) = ctrlIter n (ctrl s) := by
  intro n
  induction n with
  | zero => rfl
  | succ n ih => simp only [ticks, ctrlIter, ctrl_stateTimerCallback, ih]

/-- A tick that is not the exit from `STATE_BLANK_2` leaves the generated data alone. -/
theorem generated_stateTimerCallback_of_not_exit (R : Nat → Nat) (RAND_MAX : Nat) (s : App)
    (h : ¬ (s.stars_state = STATE_BLANK_2 ∧ ¬ s.currentStateTime < state_times STATE_BLANK_2)) :
    generated (stateTimerCallback R RAND_MAX s) = generated s := by
  unfold stateTimerCallback stateSwitch generated
  cases hph : s.stars_state
  case STATE_BLANK_2 =>
    simp only [hph]
    split_ifs with h1
    · rfl
    · exact absurd ⟨hph, h1⟩ h
  all_goals
    simp only [hph]
    split_ifs <;> rfl

/-- The exit from `STATE_BLANK_2` replaces the generated data by freshly generated ones. -/
theorem generated_stateTimerCallback_of_exit (R : Nat → Nat) (RAND_MAX : Nat) (s : App)
    (h1 : s.stars_state = STATE_BLANK_2)
    (h2 : ¬ s.currentStateTime < state_times STATE_BLANK_2) :
    generated (stateTimerCallback R RAND_MAX s) = regenerated R RAND_MAX s := by
  unfold stateTimerCallback stateSwitch generated regenerated
  simp only [h1, if_neg h2]

/-- As long as the control part has not reached the exit from `STATE_BLANK_2`, the generated
data are those of the initial state. -/
theorem generated_ticks (R : Nat → Nat) (RAND_MAX : Nat) (s : App) :
    ∀ n, (∀ m, m < n → ¬ ((ctrlIter m (ctrl s)).phase = STATE_BLANK_2 ∧
        ¬ (ctrlIter m (ctrl s)).elapsed < state_times STATE_BLANK_2)) →
      generated (ticks R RAND_MAX n s) = generated s := by
  intro n
  induction n with
  | zero => intro _; rfl
  | succ n ih =>
    intro h
    have hn := h n (Nat.lt_succ_self n)
    rw [← ctrl_ticks R RAND_MAX s n] at hn
    simp only [ticks]
    rw [generated_stateTimerCallback_of_not_exit R RAND_MAX _ hn]
    exact ih (fun m hm => h m (Nat.lt_succ_of_lt hm))

set_option maxRecDepth 100000 in
/-- The control part goes once round the cycle in 104 ticks, and reaches the exit from
`STATE_BLANK_2` at tick 103 for the first time. -/
theorem ctrlIter_cycle :
    ctrlIter 104 ⟨STATE_START, 0, 0⟩ = ⟨STATE_START, 0, 0⟩ ∧
    ctrlIter 103 ⟨STATE_START, 0, 0⟩ = ⟨STATE_BLANK_2, 1500, 0⟩ ∧
    ∀ m, m < 103 → ¬ ((ctrlIter m ⟨STATE_START, 0, 0⟩).phase = STATE_BLANK_2 ∧
        ¬ (ctrlIter m ⟨STATE_START, 0, 0⟩).elapsed < state_times STATE_BLANK_2) := by
  refine ⟨by decide, by decide, by decide⟩

theorem shownTexts_append (a b : List Call) :
    shownTexts (a ++ b) = shownTexts a ++ shownTexts b := by
  induction a with
  | nil => rfl
  | cons c cs ih => cases c <;> simp [shownTexts, ih]

/-- A tick taken in phase `STATE_WORDS`: the calls it adds set the text `wordEmit` says, and the
word selection is not touched. -/
theorem words_tick (R : Nat → Nat) (RAND_MAX : Nat) (s : App) (h : s.stars_state = STATE_WORDS) :
    ∃ new, (stateTimerCallback R RAND_MAX s).calls = s.calls ++ new ∧
      shownTexts new = wordEmit s.word_indices (ctrl s) ∧
      (stateTimerCallback R RAND_MAX s).word_indices = s.word_indices := by
  unfold stateTimerCallback stateSwitch wordEmit ctrl
  simp only [h]
  by_cases h1 : s.currentWordLayer < NUM_WORD_LAYERS
  · by_cases h2 : s.currentStateTime < state_times STATE_WORDS
    · simp only [if_pos h1, if_pos h2]
      refine ⟨[Call.app_timer_register s.fresh TIMER_PERIOD], rfl, ?_, trivial⟩
      simp [shownTexts, h2]
    · simp only [if_pos h1, if_neg h2, createWordLayer, List.append_assoc]
      refine ⟨_, rfl, ?_, trivial⟩
      simp [shownTexts, h1, h2, wordAt]
  · simp only [if_neg h1, List.append_assoc]
    refine ⟨_, rfl, ?_, trivial⟩
    have h8 : ¬ s.currentWordLayer < 8 := h1
    simp [shownTexts, h8, shownTexts_append, NUM_WORD_LAYERS, List.range_succ]

/-- A run of ticks all taken in phase `STATE_WORDS`, except possibly for the state reached at
the end. -/
theorem words_ticks (R : Nat → Nat) (RAND_MAX : Nat) (s : App) :
    ∀ n, (∀ m, m < n → (ctrlIter m (ctrl s)).phase = STATE_WORDS) →
      ∃ new, (ticks R RAND_MAX n s).calls = s.calls ++ new ∧
        shownTexts new = wordsEmitted s.word_indices n (ctrl s) ∧
        (ticks R RAND_MAX n s).word_indices = s.word_indices := by
  intro n
  induction n with
  | zero =>
    intro _
    exact ⟨[], by simp [ticks], rfl, rfl⟩
  | succ n ih =>
    intro h
    obtain ⟨new1, a1, a2, a3⟩ := ih (fun m hm => h m (Nat.lt_succ_of_lt hm))
    have hn := h n (Nat.lt_succ_self n)
    rw [← ctrl_ticks R RAND_MAX s n] at hn
    obtain ⟨new2, b1, b2, b3⟩ := words_tick R RAND_MAX (ticks R RAND_MAX n s) hn
    refine ⟨new1 ++ new2, ?_, ?_, ?_⟩
    · simp only [ticks]
      rw [b1, a1, List.append_assoc]
    · rw [shownTexts_append, a2, b2, a3, ctrl_ticks]
      rfl
    · simp only [ticks]
      rw [b3, a3]

set_option maxRecDepth 100000 in
/-- The control part during one pass through phase `STATE_WORDS`: 89 ticks, of which the last
one leaves the phase; a word is due on every eleventh tick. -/
theorem ctrlIter_words :
    ctrlIter 89 ⟨STATE_WORDS, 0, 0⟩ = ⟨STATE_BLANK_2, 0, 0⟩ ∧
    ∀ m, m < 89 →
      ctrlIter m ⟨STATE_WORDS, 0, 0⟩ = ⟨STATE_WORDS, 500 * ((m % 11 : Nat) : Int), m / 11⟩ := by
  refine ⟨by decide, by decide⟩

/-- The words presented during the first `n` ticks of a pass through phase `STATE_WORDS`. -/
theorem wordsEmitted_pass (word_indices : List Int) :
    ∀ n, n ≤ 89 →
      wordsEmitted word_indices n ⟨STATE_WORDS, 0, 0⟩ =
        (List.range (n / 11)).map (wordAt word_indices) := by
  intro n
  induction n with
  | zero => intro _; rfl
  | succ n ih =>
    intro hn
    have hlt : n < 89 := by omega
    simp only [wordsEmitted]
    rw [ih (by omega), ctrlIter_words.2 n hlt]
    unfold wordEmit
    simp only [state_times, TIMER_PERIOD, NUM_WORD_LAYERS]
    by_cases h10 : n % 11 = 10
    · have e : (n + 1) / 11 = n / 11 + 1 := by omega
      have c1 : n / 11 < 8 := by omega
      have c2 : ¬ (500 * ((n % 11 : Nat) : Int) < 10 * 500) := by omega
      rw [if_pos ⟨c1, c2⟩, e, List.range_succ, List.map_append]
      rfl
    · have e : (n + 1) / 11 = n / 11 := by omega
      have c2 : (500 * ((n % 11 : Nat) : Int) < 10 * 500) := by omega
      rw [if_neg (fun hc => hc.2 c2), e, List.append_nil]

set_option maxRecDepth 100000 in
/-- The vocabulary has no repeated word. -/
theorem words_nodup : words.Nodup := by decide

/-- Distinct valid slots of a selection of pairwise distinct valid indices present distinct
words. -/
theorem wordAt_injective (wi : List Int) (k : Nat) (hk : k ≤ wi.length)
    (hnd : (wi.take k).Nodup) (hv : ∀ v ∈ wi.take k, 0 ≤ v ∧ v < (NUM_TOTAL_WORDS : Int)) :
    ∀ i ∈ List.range k, ∀ j ∈ List.range k, wordAt wi i = wordAt wi j → i = j := by
  intro i hi j hj hij
  rw [List.mem_range] at hi hj
  have hil : i < (wi.take k).length := by rw [List.length_take]; omega
  have hjl : j < (wi.take k).length := by rw [List.length_take]; omega
  have ei : wi.getD i 0 = (wi.take k)[i] := by
    rw [List.getD_eq_getElem _ _ (by omega)]
    simp
  have ej : wi.getD j 0 = (wi.take k)[j] := by
    rw [List.getD_eq_getElem _ _ (by omega)]
    simp
  have vi := hv _ (List.getElem_mem hil)
  have vj := hv _ (List.getElem_mem hjl)
  unfold wordAt at hij
  rw [ei, ej] at hij
  have ni : ((wi.take k)[i]).toNat < words.length := by
    have : (NUM_TOTAL_WORDS : Int) = (words.length : Int) := rfl
    omega
  have nj : ((wi.take k)[j]).toNat < words.length := by
    have : (NUM_TOTAL_WORDS : Int) = (words.length : Int) := rfl
    omega
  rw [List.getD_eq_getElem _ _ ni, List.getD_eq_getElem _ _ nj] at hij
  have hn : ((wi.take k)[i]).toNat = ((wi.take k)[j]).toNat :=
    (words_nodup.getElem_inj_iff).mp hij
  have hz : (wi.take k)[i] = (wi.take k)[j] := by omega
  exact (hnd.getElem_inj_iff).mp hz

/-! ## Lemmas: star field and first point -/

/-- A coordinate of a star: `rand() % w` stored in an `int16_t`, for `0 < w ≤ 32767`. -/
theorem star_coordinate (r : Nat) (w : Int) (hw : 0 < w) (hw16 : w ≤ 32767) :
    toInt16 (Int.tmod (r : Int) w) = (r : Int) % w ∧ 0 ≤ (r : Int) % w ∧ (r : Int) % w < w := by
  have e : Int.tmod (r : Int) w = (r : Int) % w :=
    Int.tmod_eq_emod (Int.natCast_nonneg r) (by omega)
  have h1 : 0 ≤ (r : Int) % w := Int.emod_nonneg _ (by omega)
  have h2 : (r : Int) % w < w := Int.emod_lt_of_pos _ hw
  rw [e]
  refine ⟨?_, h1, h2⟩
  unfold toInt16
  omega

/-- The loop of `generate_random_stars` from a state in which the first `i` entries have been
written: it ends with `i = NUM_STARS` and entry `k` holding the point drawn from the values
`2 * k` and `2 * k + 1` of the stream (counted from `seed0`). -/
theorem starsLoop_spec (R : Nat → Nat) (w h : Int) (seed0 : Nat) :
    ∀ (fuel : Nat) (st : StarsState),
      st.i + fuel = NUM_STARS → st.stars.length = NUM_STARS → st.seed = seed0 + 2 * st.i →
      (∀ k, k < st.i → st.stars.getD k ⟨0, 0⟩ =
        ⟨toInt16 (Int.tmod (R (seed0 + 2 * k)) w), toInt16 (Int.tmod (R (seed0 + 2 * k + 1)) h)⟩) →
      (starsLoop R w h fuel st).i = NUM_STARS ∧
      (starsLoop R w h fuel st).stars.length = NUM_STARS ∧
      ∀ k, k < NUM_STARS → (starsLoop R w h fuel st).stars.getD k ⟨0, 0⟩ =
        ⟨toInt16 (Int.tmod (R (seed0 + 2 * k)) w), toInt16 (Int.tmod (R (seed0 + 2 * k + 1)) h)⟩ := by
  intro fuel
  induction fuel with
  | zero =>
    intro st h1 h2 _ h4
    simp only [starsLoop]
    refine ⟨by omega, h2, ?_⟩
    intro k hk
    exact h4 k (by omega)
  | succ fuel ih =>
    intro st h1 h2 h3 h4
    have hg : st.i < NUM_STARS := by omega
    simp only [starsLoop, if_pos hg]
    apply ih
    · simp only; omega
    · simpa using h2
    · simp only; omega
    · intro k hk
      simp only at hk
      by_cases hki : k = st.i
      · subst hki
        rw [getD_set_self _ _ _ _ (by omega), h3]
      · rw [getD_set_ne _ _ _ _ _ (by omega)]
        exact h4 k (by omega)

/-- The loop of `generate_random_constellation` never writes slot 0. -/
theorem constellationLoop_first (R : Nat → Nat) (L : Nat) :
    ∀ (fuel : Nat) (st : ConstellationState), 1 ≤ st.i →
      (constellationLoop R L fuel st).constellation_stars.getD 0 ⟨0, 0⟩ =
        st.constellation_stars.getD 0 ⟨0, 0⟩ := by
  intro fuel
  induction fuel with
  | zero => intro st _; rfl
  | succ fuel ih =>
    intro st h1
    by_cases hg : st.i < L
    · simp only [constellationLoop, if_pos hg]
      rw [ih _ (by simp only; omega)]
      exact getD_set_ne _ _ _ _ _ (by omega)
    · simp only [constellationLoop, if_neg hg]

/-- A coordinate of the first constellation point: `rand() % (w / 2) + w / 4` stored in an
`int16_t`, for `2 ≤ w ≤ 32767`. -/
theorem first_coordinate (r : Nat) (w : Int) (hw : 2 ≤ w) (hw16 : w ≤ 32767) :
    w / 4 ≤ toInt16 (Int.tmod (r : Int) (Int.tdiv w 2) + Int.tdiv w 4) ∧
    toInt16 (Int.tmod (r : Int) (Int.tdiv w 2) + Int.tdiv w 4) < w / 4 + w / 2 ∧
    0 ≤ toInt16 (Int.tmod (r : Int) (Int.tdiv w 2) + Int.tdiv w 4) ∧
    toInt16 (Int.tmod (r : Int) (Int.tdiv w 2) + Int.tdiv w 4) < w := by
  have e2 : Int.tdiv w 2 = w / 2 := Int.tdiv_eq_ediv (by omega) (by decide)
  have e4 : Int.tdiv w 4 = w / 4 := Int.tdiv_eq_ediv (by omega) (by decide)
  rw [e2, e4]
  have h1 : 0 ≤ Int.tmod (r : Int) (w / 2) := Int.tmod_nonneg _ (Int.natCast_nonneg r)
  have h2 : Int.tmod (r : Int) (w / 2) < w / 2 := Int.tmod_lt_of_pos _ (by omega)
  have e : toInt16 (Int.tmod (r : Int) (w / 2) + w / 4) = Int.tmod (r : Int) (w / 2) + w / 4 := by
    unfold toInt16
    omega
  rw [e]
  refine ⟨by omega, by omega, by omega, by omega⟩

/-! ## Lemmas: constellation name -/

/-- For every configured pair the formatted name fits the buffer, so `snprintf` stores it whole. -/
theorem snprintf_name_whole :
    ∀ p ∈ prefixes, ∀ q ∈ postfixes,
      ("NAME:\n" ++ p ++ q).utf8ByteSize ≤ 17 ∧ snprintf_name 18 p q = "NAME:\n" ++ p ++ q := by
  decide

theorem getD_mem_of_lt (l : List String) (i : Nat) (h : i < l.length) : l.getD i "" ∈ l := by
  rw [List.getD_eq_getElem _ _ h]
  exact List.getElem_mem h

/-! ## Lemmas: reachable states -/

theorem liveLayers_append (a b : List Call) :
    liveLayers (a ++ b) = b.foldl liveStep (liveLayers a) := by
  unfold liveLayers
  rw [List.foldl_append]

/-- Destroying, in order, the layers that make up the end of the list of existing layers leaves
the beginning of that list. -/
theorem foldl_destroy_all (l : List Nat) :
    ∀ pre : List Nat, (pre ++ l).Nodup →
      (l.map Call.text_layer_destroy).foldl liveStep (pre ++ l) = pre := by
  induction l with
  | nil => intro pre _; simp
  | cons x xs ih =>
    intro pre hnd
    have hx : x ∉ pre := by
      intro hmem
      have := List.nodup_append.mp hnd
      exact this.2.2 hmem (List.mem_cons_self _ _)
    have hnd2 : (pre ++ xs).Nodup := by
      have h1 := List.nodup_append.mp hnd
      refine List.nodup_append.mpr ⟨h1.1, (List.nodup_cons.mp h1.2.1).2, ?_⟩
      intro a ha hb
      exact h1.2.2 ha (List.mem_cons_of_mem _ hb)
    simp only [List.map_cons, List.foldl_cons, liveStep]
    rw [List.erase_append_right _ hx, List.erase_cons_head]
    exact ih pre hnd2

theorem range_map_getD (wl : List Nat) (n : Nat) (h : wl.length = n) (f : Nat → Call) :
    (List.range n).map (fun i => f (wl.getD i 0)) = wl.map f := by
  apply List.ext_getElem
  · simp [h]
  · intro i h1 h2
    simp only [List.length_map, List.length_range] at h1
    simp [List.getElem?_eq_getElem (show i < wl.length by omega)]

theorem take_succ_set_nat (a : List Nat) (m v : Nat) (h : m < a.length) :
    (a.set m v).take (m + 1) = a.take m ++ [v] := by
  rw [List.take_succ]
  have h1 : (a.set m v).take m = a.take m := by
    rw [List.set_take]
    exact List.set_eq_of_length_le (by simp)
  rw [h1]
  simp [List.getElem?_set, h]

/-- The slot index never exceeds `NUM_WORD_LAYERS` and is 0 outside phase Words: preserved by a
tick. -/
theorem ctrlStep_slot (c : Ctrl) (h1 : c.slot ≤ NUM_WORD_LAYERS)
    (h2 : c.phase ≠ STATE_WORDS → c.slot = 0) :
    (ctrlStep c).slot ≤ NUM_WORD_LAYERS ∧ ((ctrlStep c).phase ≠ STATE_WORDS → (ctrlStep c).slot = 0) := by
  have h8 : c.slot ≤ 8 := h1
  unfold ctrlStep
  cases hph : c.phase <;> simp only [hph] <;> split_ifs <;>
    first
    | exact ⟨h1, fun hne => h2 (by rw [hph]; exact hne)⟩
    | exact ⟨h1, fun hne => absurd rfl hne⟩
    | exact ⟨h1, fun _ => h2 (by rw [hph]; decide)⟩
    | exact ⟨Nat.zero_le _, fun _ => rfl⟩
    | (refine ⟨?_, fun hne => absurd rfl hne⟩
       show (c.slot + 1) % 256 ≤ NUM_WORD_LAYERS
       simp only [NUM_WORD_LAYERS] at *
       omega)

/-- The word selection after a tick: regenerated at the exit from Blank2, unchanged otherwise. -/
theorem word_indices_stateTimerCallback (R : Nat → Nat) (RAND_MAX : Nat) (s : App) :
    (stateTimerCallback R RAND_MAX s).word_indices = s.word_indices ∨
    ∃ seed, (stateTimerCallback R RAND_MAX s).word_indices =
      (generate_random_word_list R RAND_MAX s.word_indices seed).1 := by
  by_cases h : s.stars_state = STATE_BLANK_2 ∧ ¬ s.currentStateTime < state_times STATE_BLANK_2
  · right
    have := generated_stateTimerCallback_of_exit R RAND_MAX s h.1 h.2
    unfold generated regenerated at this
    simp only [Prod.mk.injEq] at this
    exact ⟨_, this.2.2.2⟩
  · left
    have := generated_stateTimerCallback_of_not_exit R RAND_MAX s h
    unfold generated at this
    simp only [Prod.mk.injEq] at this
    exact this.2.2.2

/-- The text layers that exist are the time layer, the title layer while the phase is Title, and
the word presentations: preserved by a tick. -/
theorem live_stateTimerCallback (R : Nat → Nat) (RAND_MAX : Nat) (s : App)
    (hwl : s.word_layers.length = NUM_WORD_LAYERS)
    (hslot : s.currentWordLayer ≤ NUM_WORD_LAYERS)
    (hz : s.stars_state ≠ STATE_WORDS → s.currentWordLayer = 0)
    (hlive : liveLayers s.calls = s.s_time_layer :: (titlePresentation s ++ wordPresentations s))
    (hnd : (s.s_time_layer :: (titlePresentation s ++ wordPresentations s)).Nodup)
    (hlt : ∀ l ∈ s.s_time_layer :: (titlePresentation s ++ wordPresentations s), l < s.fresh) :
    (stateTimerCallback R RAND_MAX s).word_layers.length = NUM_WORD_LAYERS ∧
    liveLayers (stateTimerCallback R RAND_MAX s).calls =
      (stateTimerCallback R RAND_MAX s).s_time_layer ::
        (titlePresentation (stateTimerCallback R RAND_MAX s) ++
          wordPresentations (stateTimerCallback R RAND_MAX s)) ∧
    ((stateTimerCallback R RAND_MAX s).s_time_layer ::
        (titlePresentation (stateTimerCallback R RAND_MAX s) ++
          wordPresentations (stateTimerCallback R RAND_MAX s))).Nodup ∧
    ∀ l ∈ (stateTimerCallback R RAND_MAX s).s_time_layer ::
        (titlePresentation (stateTimerCallback R RAND_MAX s) ++
          wordPresentations (stateTimerCallback R RAND_MAX s)),
      l < (stateTimerCallback R RAND_MAX s).fresh := by
  unfold stateTimerCallback stateSwitch
  cases hph : s.stars_state
  case STATE_WORDS =>
    simp [titlePresentation, hph] at hlive hnd hlt
    simp only [hph]
    by_cases h1 : s.currentWordLayer < NUM_WORD_LAYERS
    · by_cases h2 : s.currentStateTime < state_times STATE_WORDS
      · simp only [if_pos h1, if_pos h2]
        simp [titlePresentation, wordPresentations, hph, liveLayers_append, liveStep, hlive, hwl]
        simp only [wordPresentations] at hnd hlt
        exact ⟨hnd, by omega, fun a ha => by have := hlt.2 a ha; omega⟩
      · simp only [if_pos h1, if_neg h2, createWordLayer]
        have hmod : (s.currentWordLayer + 1) % 256 = s.currentWordLayer + 1 := by
          simp only [NUM_WORD_LAYERS] at h1; omega
        have htake := take_succ_set_nat s.word_layers s.currentWordLayer s.fresh (by omega)
        simp only [wordPresentations] at hlive hnd hlt
        simp [titlePresentation, wordPresentations, hph, liveLayers_append, liveStep, hlive, hwl,
          hmod, htake]
        refine ⟨⟨⟨hnd.1, by omega⟩, ?_⟩, by omega, ?_⟩
        · refine List.nodup_append.mpr ⟨hnd.2, List.nodup_singleton _, ?_⟩
          intro a ha hb
          rw [List.mem_singleton] at hb
          have := hlt.2 a ha
          omega
        · intro a ha
          rcases ha with ha | ha
          · have := hlt.2 a ha
            omega
          · omega
    · have h8 : s.currentWordLayer = NUM_WORD_LAYERS := by omega
      have hall : List.take s.currentWordLayer s.word_layers = s.word_layers :=
        List.take_of_length_le (by omega)
      simp only [wordPresentations, hall] at hlive hnd hlt
      have hd := foldl_destroy_all s.word_layers [s.s_time_layer]
        (by simpa using hnd)
      simp only [if_neg h1]
      rw [range_map_getD s.word_layers NUM_WORD_LAYERS hwl]
      simp [titlePresentation, wordPresentations, hph, liveLayers_append, liveStep, hlive, hwl]
      exact ⟨hd, by omega⟩
  case STATE_TITLE =>
    have h0 := hz (by rw [hph]; decide)
    simp [titlePresentation, wordPresentations, hph, h0] at hlive hnd hlt
    simp only [hph]
    split_ifs with h1
    · simp [titlePresentation, wordPresentations, hph, h0, liveLayers_append, liveStep, hlive,
        hwl]
      omega
    · simp [titlePresentation, wordPresentations, hph, h0, liveLayers_append, liveStep, hlive,
        hwl, destroy_title_layer]
      refine ⟨?_, by omega⟩
      rw [List.erase_cons_tail (by simp [hnd]), List.erase_cons_head]
  all_goals
    have h0 := hz (by rw [hph]; decide)
    simp [titlePresentation, wordPresentations, hph, h0] at hlive hnd hlt
    simp only [hph]
    split_ifs with h1
    all_goals
      simp [titlePresentation, wordPresentations, hph, h0, liveLayers_append, liveStep, hlive,
        hwl, generate_title_layer, destroy_title_layer]
    all_goals omega

/-- The invariant holds in the state left by `main_window_load`. -/
theorem AppInv_main_window_load (R : Nat → Nat) (RAND_MAX : Nat) (hR : ∀ s, R s ≤ RAND_MAX)
    (w h : Int) : AppInv (main_window_load R RAND_MAX w h initialApp) := by
  have hl : initialApp.word_indices.length = NUM_WORD_LAYERS + 1 := by decide
  obtain ⟨w1, _, w3⟩ := word_list_spec R RAND_MAX NUM_TOTAL_WORDS NUM_WORD_LAYERS hR
    (by decide) initialApp.word_indices
    (generate_random_constellation R w h initialApp.constellation_stars
      (generate_random_stars R w h initialApp.stars initialApp.seed).seed).seed hl
  unfold AppInv
  simp only [main_window_load, titlePresentation, wordPresentations]
  refine ⟨w1, w3, ?_, ?_, ?_, ?_, ?_, ?_⟩
  · simp [initialApp, NUM_WORD_LAYERS]
  · simp [initialApp]
  · intro _
    simp [initialApp]
  · simp [initialApp, liveLayers, liveStep]
  · simp [initialApp]
  · simp [initialApp]

/-- The invariant is preserved by a tick. -/
theorem AppInv_stateTimerCallback (R : Nat → Nat) (RAND_MAX : Nat) (hR : ∀ s, R s ≤ RAND_MAX)
    (s : App) (h : AppInv s) : AppInv (stateTimerCallback R RAND_MAX s) := by
  obtain ⟨a1, a2, a3, a4, a5, a6, a7, a8⟩ := h
  obtain ⟨b1, b2, b3, b4⟩ := live_stateTimerCallback R RAND_MAX s a3 a4 a5 a6 a7 a8
  obtain ⟨c1, _, c3⟩ := ctrl_fields _ _ (ctrl_stateTimerCallback R RAND_MAX s)
  have hc := ctrlStep_slot (ctrl s) a4 a5
  rw [← c1, ← c3] at hc
  have hwi : (stateTimerCallback R RAND_MAX s).word_indices.length = NUM_WORD_LAYERS + 1 ∧
      ∀ v ∈ (stateTimerCallback R RAND_MAX s).word_indices.take NUM_WORD_LAYERS,
        0 ≤ v ∧ v < (NUM_TOTAL_WORDS : Int) := by
    rcases word_indices_stateTimerCallback R RAND_MAX s with e | ⟨seed, e⟩
    · rw [e]
      exact ⟨a1, a2⟩
    · rw [e]
      obtain ⟨w1, _, w3⟩ := word_list_spec R RAND_MAX NUM_TOTAL_WORDS NUM_WORD_LAYERS hR
        (by decide) s.word_indices seed a1
      exact ⟨w1, w3⟩
  exact ⟨hwi.1, hwi.2, b1, hc.1, hc.2, b2, b3, b4⟩

/-- The invariant holds in every state of a run. -/
theorem AppInv_of_reachable (R : Nat → Nat) (RAND_MAX : Nat) (hR : ∀ s, R s ≤ RAND_MAX)
    (w h : Int) (s : App) (hs : Reachable R RAND_MAX w h s) : AppInv s := by
  obtain ⟨n, rfl⟩ := hs
  induction n with
  | zero => exact AppInv_main_window_load R RAND_MAX hR w h
  | succ n ih => exact AppInv_stateTimerCallback R RAND_MAX hR _ ih

theorem destroyedLayers_append (a b : List Call) :
    destroyedLayers (a ++ b) = destroyedLayers a ++ destroyedLayers b := by
  induction a with
  | nil => rfl
  | cons c cs ih => cases c <;> simp [destroyedLayers, ih]

theorem destroyedLayers_map (l : List Nat) :
    destroyedLayers (l.map Call.text_layer_destroy) = l := by
  induction l with
  | nil => rfl
  | cons x xs ih => simp [destroyedLayers, ih]

/-- A tick in phase Words with a free slot: the word presentations gain the new layer when
`createWordLayer` is called and are unchanged otherwise. -/
theorem wordPresentations_words_tick (R : Nat → Nat) (RAND_MAX : Nat) (s : App)
    (hph : s.stars_state = STATE_WORDS) (h1 : s.currentWordLayer < NUM_WORD_LAYERS)
    (hwl : s.word_layers.length = NUM_WORD_LAYERS) :
    wordPresentations (stateTimerCallback R RAND_MAX s) =
      wordPresentations s ++
        (if s.currentStateTime < state_times STATE_WORDS then [] else [s.fresh]) := by
  unfold stateTimerCallback stateSwitch
  simp only [hph, if_pos h1]
  by_cases h2 : s.currentStateTime < state_times STATE_WORDS
  · simp [wordPresentations, h2]
  · have hmod : (s.currentWordLayer + 1) % 256 = s.currentWordLayer + 1 := by
      simp only [NUM_WORD_LAYERS] at h1; omega
    have htake := take_succ_set_nat s.word_layers s.currentWordLayer s.fresh (by omega)
    simp [wordPresentations, h2, createWordLayer, hmod, htake]

/-- The tick that leaves phase Words: what it adds to the record of calls. -/
theorem words_exit_tick (R : Nat → Nat) (RAND_MAX : Nat) (s : App)
    (hph : s.stars_state = STATE_WORDS) (h1 : ¬ s.currentWordLayer < NUM_WORD_LAYERS)
    (hwl : s.word_layers.length = NUM_WORD_LAYERS) :
    (stateTimerCallback R RAND_MAX s).s_time_layer = s.s_time_layer ∧
    ∃ new, (stateTimerCallback R RAND_MAX s).calls = s.calls ++ new ∧
      destroyedLayers new = s.word_layers := by
  unfold stateTimerCallback stateSwitch
  simp only [hph, if_neg h1, List.append_assoc]
  refine ⟨trivial, _, rfl, ?_⟩
  rw [range_map_getD s.word_layers NUM_WORD_LAYERS hwl, destroyedLayers_append,
    destroyedLayers_map]
  simp [destroyedLayers]

/-! ## Lemmas: slots written by the constellation generator -/

/-- The loop of `generate_random_constellation` writes no slot at or above the chosen length. -/
theorem constellationLoop_frame (R : Nat → Nat) (L : Nat) (k : Nat) (hk : L ≤ k) :
    ∀ (fuel : Nat) (st : ConstellationState),
      (constellationLoop R L fuel st).constellation_stars.getD k ⟨0, 0⟩ =
        st.constellation_stars.getD k ⟨0, 0⟩ := by
  intro fuel
  induction fuel with
  | zero => intro st; rfl
  | succ fuel ih =>
    intro st
    by_cases hg : st.i < L
    · simp only [constellationLoop, if_pos hg]
      rw [ih]
      exact getD_set_ne _ _ _ _ _ (by omega)
    · simp only [constellationLoop, if_neg hg]

/-- The loop of `generate_random_constellation` keeps the size of the buffer. -/
theorem constellationLoop_length (R : Nat → Nat) (L : Nat) :
    ∀ (fuel : Nat) (st : ConstellationState),
      (constellationLoop R L fuel st).constellation_stars.length =
        st.constellation_stars.length := by
  intro fuel
  induction fuel with
  | zero => intro st; rfl
  | succ fuel ih =>
    intro st
    by_cases hg : st.i < L
    · simp only [constellationLoop, if_pos hg]
      rw [ih]
      simp
    · simp only [constellationLoop, if_neg hg]

/-- The loop of `generate_random_constellation` ends with the counter at the chosen length. -/
theorem constellationLoop_counter (R : Nat → Nat) (L : Nat) :
    ∀ (fuel : Nat) (st : ConstellationState), st.i + fuel = L →
      (constellationLoop R L fuel st).i = L := by
  intro fuel
  induction fuel with
  | zero => intro st h; simpa [constellationLoop] using h
  | succ fuel ih =>
    intro st h
    have hg : st.i < L := by omega
    simp only [constellationLoop, if_pos hg]
    exact ih _ (by simp only; omega)

/-! ## Lemmas: the cycle of the control part -/

set_option maxRecDepth 100000 in
/-- The phase of the control part at each of the first 104 ticks after `(Start, 0, 0)`. -/
theorem ctrlIter_cyclePhase :
    ∀ m, m ≤ 104 → (ctrlIter m ⟨STATE_START, 0, 0⟩).phase = cyclePhase m := by
  decide

set_option maxRecDepth 100000 in
/-- The control part during the 89 ticks of phase Words: the elapsed counter counts the eleven
ticks of a slot, the slot index goes up by one after each eleven ticks. -/
theorem ctrlIter_words_from_start :
    ∀ m, m < 89 →
      ctrlIter (11 + m) ⟨STATE_START, 0, 0⟩ =
        ⟨STATE_WORDS, 500 * ((m % 11 : Nat) : Int), m / 11⟩ := by
  decide

/-! ## Lemmas: the title presentation in reachable states -/

/-- `TitleInv` holds in the state left by `main_window_load`. -/
theorem TitleInv_main_window_load (R : Nat → Nat) (RAND_MAX : Nat) (w h : Int) :
    TitleInv (main_window_load R RAND_MAX w h initialApp) := by
  unfold TitleInv
  simp [main_window_load, initialApp, wordPresentations]

/-- A tick keeps `TitleInv`. -/
theorem TitleInv_stateTimerCallback (R : Nat → Nat) (RAND_MAX : Nat) (s : App)
    (hinv : AppInv s) (ht : TitleInv s) : TitleInv (stateTimerCallback R RAND_MAX s) := by
  obtain ⟨_, _, a3, a4, a5, _, _, a8⟩ := hinv
  obtain ⟨t1, t2, t3⟩ := ht
  have htime : s.s_time_layer < s.fresh := a8 _ (List.mem_cons_self _ _)
  unfold TitleInv
  unfold stateTimerCallback stateSwitch
  cases hph : s.stars_state
  case STATE_WORDS =>
    simp only [hph]
    by_cases h1 : s.currentWordLayer < NUM_WORD_LAYERS
    · by_cases h2 : s.currentStateTime < state_times STATE_WORDS
      · simp only [if_pos h1, if_pos h2]
        simp only [wordPresentations] at t3 ⊢
        exact ⟨t1, by omega, t3⟩
      · have hmod : (s.currentWordLayer + 1) % 256 = s.currentWordLayer + 1 := by
          simp only [NUM_WORD_LAYERS] at h1; omega
        have htake := take_succ_set_nat s.word_layers s.currentWordLayer s.fresh (by omega)
        simp only [if_pos h1, if_neg h2, createWordLayer]
        simp only [wordPresentations, hmod, htake] at t3 ⊢
        refine ⟨t1, by omega, ?_⟩
        intro l hl
        rw [List.mem_append] at hl
        rcases hl with hl | hl
        · exact t3 l hl
        · rw [List.mem_singleton] at hl
          omega
    · simp only [if_neg h1]
      simp only [wordPresentations, List.take_zero]
      exact ⟨t1, by omega, fun l hl => by simp at hl⟩
  all_goals
    have h0 := a5 (by rw [hph]; decide)
    simp only [wordPresentations, h0, List.take_zero] at t3
    simp only [hph]
    split_ifs with h1
    all_goals
      simp [wordPresentations, h0, generate_title_layer, destroy_title_layer]
    all_goals first | exact ⟨t1, by omega⟩ | omega

/-- `TitleInv` holds in every reachable state. -/
theorem TitleInv_of_reachable (R : Nat → Nat) (RAND_MAX : Nat) (hR : ∀ s, R s ≤ RAND_MAX)
    (w h : Int) (s : App) (hs : Reachable R RAND_MAX w h s) : TitleInv s := by
  obtain ⟨n, rfl⟩ := hs
  induction n with
  | zero => exact TitleInv_main_window_load R RAND_MAX w h
  | succ n ih =>
    exact TitleInv_stateTimerCallback R RAND_MAX _
      (AppInv_of_reachable R RAND_MAX hR w h _ ⟨n, rfl⟩) ih

/-! ## Lemmas: the two variants of the selection in lockstep -/

/-- Reading the cell just written. -/
theorem getD_set_same (a : List Int) (i : Nat) (v : Int) (h : i < a.length) :
    (a.set i v).getD i 0 = v := by
  rw [List.getD_eq_getElem _ _ (by simpa using h)]
  simp

/-- Reading a cell other than the one just written. -/
theorem getD_set_other (a : List Int) (i j : Nat) (v : Int) (h : i ≠ j) :
    (a.set i v).getD j 0 = a.getD j 0 := by
  simp [List.getD_eq_getElem?_getD, List.getElem?_set_ne h]

/-- The cells of an array after the exchange of cells `i` and `j`. -/
theorem getD_swap (a : List Int) (i j idx : Nat) (hi : i < a.length) (hj : j < a.length) :
    ((a.set j (a.getD i 0)).set i (a.getD j 0)).getD idx 0 =
      if idx = i then a.getD j 0 else if idx = j then a.getD i 0 else a.getD idx 0 := by
  by_cases h1 : idx = i
  · subst h1
    rw [if_pos rfl, getD_set_same _ _ _ (by simpa using hi)]
  · rw [if_neg h1, getD_set_other _ _ _ _ (fun e => h1 e.symm)]
    by_cases h2 : idx = j
    · subst h2
      rw [if_pos rfl, getD_set_same _ _ _ hj]
    · rw [if_neg h2, getD_set_other _ _ _ _ (fun e => h2 e.symm)]

/-- The two selection loops run in lockstep: same counters, same draws, and the cells written by
the loop of `words-test.c` hold the values written by the loop of `constellation-poems.c` plus
one. -/
theorem selectLoop_lockstep (R : Nat → Nat) (n k : Nat) :
    ∀ (fuel : Nat) (st st' : SelectState),
      st'.in_ = st.in_ → st'.im = st.im → st'.seed = st.seed →
      st'.word_indices.length = st.word_indices.length → k < st.word_indices.length →
      (∀ idx, idx < st.im → st'.word_indices.getD idx 0 = st.word_indices.getD idx 0 + 1) →
      (WordsTest.selectLoop R n k fuel st').in_ = (selectLoop R n k fuel st).in_ ∧
      (WordsTest.selectLoop R n k fuel st').im = (selectLoop R n k fuel st).im ∧
      (WordsTest.selectLoop R n k fuel st').seed = (selectLoop R n k fuel st).seed ∧
      (WordsTest.selectLoop R n k fuel st').word_indices.length =
        (selectLoop R n k fuel st).word_indices.length ∧
      ∀ idx, idx < (selectLoop R n k fuel st).im →
        (WordsTest.selectLoop R n k fuel st').word_indices.getD idx 0 =
          (selectLoop R n k fuel st).word_indices.getD idx 0 + 1 := by
  intro fuel
  induction fuel with
  | zero =>
    intro st st' h1 h2 h3 h4 _ h6
    exact ⟨h1, h2, h3, h4, h6⟩
  | succ fuel ih =>
    intro st st' h1 h2 h3 h4 h5 h6
    simp only [selectLoop, WordsTest.selectLoop, h1, h2, h3]
    by_cases hg : st.in_ < n ∧ st.im < k
    · rw [if_pos hg, if_pos hg]
      by_cases hp : R st.seed % (n - st.in_) < k - st.im
      · rw [if_pos hp, if_pos hp]
        apply ih
        · rfl
        · rfl
        · rfl
        · simp [h4]
        · simpa using h5
        · intro idx hidx
          simp only at hidx
          by_cases he : idx = st.im
          · subst he
            rw [getD_set_same _ _ _ (by omega), getD_set_same _ _ _ (by omega)]
          · rw [getD_set_other _ _ _ _ (fun e => he e.symm),
              getD_set_other _ _ _ _ (fun e => he e.symm)]
            exact h6 idx (by omega)
      · rw [if_neg hp, if_neg hp]
        exact ih _ _ rfl rfl rfl h4 h5 h6
    · rw [if_neg hg, if_neg hg]
      exact ⟨h1, h2, h3, h4, h6⟩

/-- `shuffle` acts in the same way on two arrays: if the first `n` cells of one hold the values
of the other plus one before the loop, they do so after it. -/
theorem shuffleLoop_lockstep (R : Nat → Nat) (RAND_MAX n : Nat) (hR : ∀ s, R s ≤ RAND_MAX) :
    ∀ (fuel : Nat) (st st' : ShuffleState),
      st'.i = st.i → st'.seed = st.seed → st'.array.length = st.array.length →
      n ≤ st.array.length →
      (∀ idx, idx < n → st'.array.getD idx 0 = st.array.getD idx 0 + 1) →
      ∀ idx, idx < n →
        (shuffleLoop R RAND_MAX n fuel st').array.getD idx 0 =
          (shuffleLoop R RAND_MAX n fuel st).array.getD idx 0 + 1 := by
  intro fuel
  induction fuel with
  | zero =>
    intro st st' _ _ _ _ h5
    exact h5
  | succ fuel ih =>
    intro st st' h1 h2 h3 h4 h5
    simp only [shuffleLoop, h1, h2]
    by_cases hg : st.i < n - 1
    · rw [if_pos hg, if_pos hg]
      have hj := shuffle_index_lt RAND_MAX n st.i (R st.seed) hg (hR st.seed)
      apply ih
      · rfl
      · rfl
      · simp [h3]
      · simpa using h4
      · intro idx hidx
        simp only
        rw [getD_swap _ _ _ _ (by omega) (by omega), getD_swap _ _ _ _ (by omega) (by omega)]
        split_ifs
        · exact h5 _ hj
        · exact h5 _ (by omega)
        · exact h5 _ hidx
    · rw [if_neg hg, if_neg hg]
      exact h5

/-! ## Lemmas: counting the draws of the selection -/

/-- Counting in a concatenation of lists. -/
theorem countP_flatMap_sum {α β : Type} (p : β → Bool) (g : α → List β) (l : List α) :
    (l.flatMap g).countP p = (l.map (fun d => (g d).countP p)).sum := by
  induction l with
  | nil => rfl
  | cons x xs ih => simp [List.flatMap_cons, ih]

/-- The sum over `d < m` of a function that is `A` below `rm` and `B` from `rm` on. -/
theorem sum_range_two_values (f : Nat → Nat) (rm A B : Nat) :
    ∀ m, rm ≤ m → (∀ d, d < rm → f d = A) → (∀ d, rm ≤ d → d < m → f d = B) →
      ((List.range m).map f).sum = rm * A + (m - rm) * B := by
  intro m
  induction m with
  | zero =>
    intro h _ _
    have : rm = 0 := by omega
    subst this
    simp
  | succ m ih =>
    intro h hA hB
    rw [List.range_succ, List.map_append, List.sum_append]
    by_cases hm : rm ≤ m
    · rw [ih hm hA (fun d h1 h2 => hB d h1 (by omega))]
      simp only [List.map_cons, List.map_nil, List.sum_cons, List.sum_nil, add_zero]
      rw [hB m hm (by omega)]
      have : m + 1 - rm = (m - rm) + 1 := by omega
      rw [this, Nat.add_mul, Nat.one_mul, Nat.add_assoc]
    · have e : rm = m + 1 := by omega
      subst e
      have h1 : ((List.range m).map f) = (List.range m).map (fun _ => A) := by
        apply List.map_congr_left
        intro d hd
        rw [List.mem_range] at hd
        exact hA d (by omega)
      rw [h1]
      simp only [List.map_cons, List.map_nil, List.sum_cons, List.sum_nil, add_zero]
      rw [hA m (by omega)]
      simp [Nat.add_mul]

/-- There are `rn!` vectors of draws for `rn` candidates. -/
theorem drawVectors_length : ∀ rn, (drawVectors rn).length = rn.factorial := by
  intro rn
  induction rn with
  | zero => rfl
  | succ rn ih =>
    have h := sum_range_two_values
      (fun d => ((drawVectors rn).map (fun ds => d :: ds)).length) 0 0 rn.factorial (rn + 1)
      (Nat.zero_le _) (fun d hd => absurd hd (Nat.not_lt_zero d))
      (fun d _ _ => by simp [ih])
    simp only [drawVectors, List.length_flatMap]
    rw [Nat.factorial_succ]
    simpa [Function.comp_def] using h

/-- A vector of draws for `rn` candidates has `rn` entries, entry `t` below `rn - t`. -/
theorem drawVectors_mem : ∀ rn ds, ds ∈ drawVectors rn →
    ds.length = rn ∧ ∀ t, t < rn → ds.getD t 0 < rn - t := by
  intro rn
  induction rn with
  | zero =>
    intro ds h
    simp [drawVectors] at h
    subst h
    exact ⟨rfl, fun t ht => absurd ht (Nat.not_lt_zero t)⟩
  | succ rn ih =>
    intro ds h
    simp only [drawVectors, List.mem_flatMap, List.mem_range, List.mem_map] at h
    obtain ⟨d, hd, ds', hds', rfl⟩ := h
    obtain ⟨h1, h2⟩ := ih ds' hds'
    refine ⟨by simp [h1], ?_⟩
    intro t ht
    cases t with
    | zero => simpa using hd
    | succ t =>
      have := h2 t (by omega)
      simp only [List.getD_cons_succ]
      omega

/-- With no slot left to fill nothing is picked. -/
theorem picks_zero : ∀ ds i, picks i 0 ds = [] := by
  intro ds
  induction ds with
  | nil => intro i; rfl
  | cons d ds ih => intro i; simp [picks, ih]

/-- Only candidates from the current one on are picked. -/
theorem picks_ge : ∀ ds i rm x, x ∈ picks i rm ds → i ≤ x := by
  intro ds
  induction ds with
  | nil => intro i rm x h; simp [picks] at h
  | cons d ds ih =>
    intro i rm x h
    simp only [picks] at h
    split_ifs at h
    · rw [List.mem_cons] at h
      rcases h with h | h
      · omega
      · have := ih _ _ _ h
        omega
    · have := ih _ _ _ h
      omega

/-- Among the `(rn + 1)!` vectors of draws for `rn + 1` candidates, starting at candidate `i0`
with `rm` slots to fill, exactly `rm * rn!` make the loop pick the candidate `i`. -/
theorem count_picks_mem : ∀ rn rm i0 i, rm ≤ rn + 1 → i0 ≤ i → i < i0 + rn + 1 →
    (drawVectors (rn + 1)).countP (fun ds => decide (i ∈ picks i0 rm ds)) = rm * rn.factorial := by
  intro rn
  induction rn with
  | zero =>
    intro rm i0 i h1 h2 h3
    have hi : i = i0 := by omega
    subst hi
    have hrm : rm = 0 ∨ rm = 1 := by omega
    rcases hrm with e | e <;> subst e <;> simp [drawVectors, picks, List.range_succ]
  | succ rn ih =>
    intro rm i0 i h1 h2 h3
    have hdv : drawVectors (rn + 1 + 1) =
        (List.range (rn + 1 + 1)).flatMap
          (fun d => (drawVectors (rn + 1)).map (fun ds => d :: ds)) := rfl
    rw [hdv, countP_flatMap_sum]
    by_cases hi : i = i0
    · subst hi
      rw [sum_range_two_values _ rm (rn + 1).factorial 0 (rn + 1 + 1) h1]
      · simp
      · intro d hd
        rw [List.countP_map, ← drawVectors_length (rn + 1), List.countP_eq_length]
        intro ds _
        simp [picks, hd]
      · intro d hd _
        rw [List.countP_map, List.countP_eq_zero]
        intro ds _
        have hnd : ¬ d < rm := by omega
        simp only [Function.comp, picks, hnd, if_false, decide_eq_true_eq]
        intro hmem
        have := picks_ge _ _ _ _ hmem
        omega
    · rw [sum_range_two_values _ rm ((rm - 1) * rn.factorial) (rm * rn.factorial)
        (rn + 1 + 1) h1]
      · rcases Nat.eq_zero_or_pos rm with e | hpos
        · subst e; simp
        · obtain ⟨r, rfl⟩ : ∃ r, rm = r + 1 := ⟨rm - 1, by omega⟩
          obtain ⟨c, hc⟩ : ∃ c, rn + 1 + 1 - (r + 1) = c := ⟨_, rfl⟩
          have hc2 : c + r = rn + 1 := by omega
          rw [hc, Nat.factorial_succ, ← hc2]
          simp only [Nat.add_sub_cancel]
          ring
      · intro d hd
        rw [List.countP_map]
        rw [← ih (rm - 1) (i0 + 1) i (by omega) (by omega) (by omega)]
        apply List.countP_congr
        intro ds _
        simp only [Function.comp, picks, hd, if_true, decide_eq_true_eq, List.mem_cons]
        constructor
        · rintro (h | h)
          · exact absurd h hi
          · exact h
        · exact Or.inr
      · intro d hd hd2
        rw [List.countP_map]
        rw [← ih rm (i0 + 1) i (by omega) (by omega) (by omega)]
        apply List.countP_congr
        intro ds _
        have hnd : ¬ d < rm := by omega
        simp only [Function.comp, picks, hnd, if_false]

/-- The selection loop run on a stream picks the candidates that `picks` computes from the
draws `rand() % rn` of that stream. -/
theorem selectLoop_picks (R : Nat → Nat) (n k : Nat) :
    ∀ (ds : List Nat) (st : SelectState),
      st.in_ + ds.length = n → st.im ≤ k → k - st.im ≤ n - st.in_ →
      k < st.word_indices.length →
      (∀ t, t < ds.length → R (st.seed + t) % (ds.length - t) = ds.getD t 0) →
      (selectLoop R n k ds.length st).word_indices.take (selectLoop R n k ds.length st).im =
        st.word_indices.take st.im ++ List.map (fun (x : Nat) => (x : Int)) (picks st.in_ (k - st.im) ds) := by
  intro ds
  induction ds with
  | nil =>
    intro st _ _ _ _ _
    simp [selectLoop, picks]
  | cons d ds ih =>
    intro st h1 h2 h3 h4 h5
    simp only [List.length_cons] at h1 h5 ⊢
    have hd : R st.seed % (ds.length + 1) = d := by
      have := h5 0 (Nat.succ_pos _)
      simpa using this
    have hrn : n - st.in_ = ds.length + 1 := by omega
    have hnext : ∀ (sd : Nat), sd = st.seed + 1 →
        ∀ t, t < ds.length → R (sd + t) % (ds.length - t) = ds.getD t 0 := by
      intro sd hsd t ht
      have := h5 (t + 1) (by omega)
      simp only [List.getD_cons_succ] at this
      have e1 : st.seed + (t + 1) = st.seed + 1 + t := by omega
      have e2 : ds.length + 1 - (t + 1) = ds.length - t := by omega
      rw [e1, e2] at this
      rw [hsd]
      exact this
    simp only [selectLoop]
    by_cases hk : st.im < k
    · rw [if_pos ⟨by omega, hk⟩, hrn, hd]
      by_cases hp : d < k - st.im
      · rw [if_pos hp]
        rw [ih ⟨st.in_ + 1, st.im + 1, st.seed + 1, st.word_indices.set st.im (st.in_ : Int)⟩
          (by simp only; omega) (by simp only; omega) (by simp only; omega)
          (by simpa using h4) (hnext _ rfl)]
        simp only [picks, if_pos hp]
        rw [take_succ_set_eq _ _ _ (by omega)]
        simp [Nat.sub_sub]
      · rw [if_neg hp]
        have hdlt : d < ds.length + 1 := by
          rw [← hd]
          exact Nat.mod_lt _ (Nat.succ_pos _)
        rw [ih ⟨st.in_ + 1, st.im, st.seed + 1, st.word_indices⟩
          (by simp only; omega) h2 (by simp only; omega) h4 (hnext _ rfl)]
        simp only [picks, if_neg hp]
    · have hk0 : k - st.im = 0 := by omega
      rw [if_neg (fun hc => hk hc.2), hk0, picks_zero]
      simp

/-- A strictly increasing list of numbers in `[a, b)` has at most `b - a` entries. -/
theorem pairwise_lt_length : ∀ (S : List Nat) (a b : Nat), S.Pairwise (· < ·) →
    (∀ x ∈ S, a ≤ x ∧ x < b) → S.length ≤ b - a := by
  intro S
  induction S with
  | nil => intros; simp
  | cons x S ih =>
    intro a b hp hb
    rw [List.pairwise_cons] at hp
    have hx := hb x (List.mem_cons_self _ _)
    have := ih (x + 1) b hp.2
      (fun y hy => ⟨hp.1 y hy, (hb y (List.mem_cons_of_mem _ hy)).2⟩)
    simp only [List.length_cons]
    omega

/-- Among the `rn!` vectors of draws for `rn` candidates, starting at candidate `i0` with `rm`
slots to fill, exactly `rm! * (rn - rm)!` make the loop pick a given increasing list of `rm`
candidates. -/
theorem count_picks_eq : ∀ rn rm i0 (S : List Nat), S.Pairwise (· < ·) → S.length = rm →
    (∀ x ∈ S, i0 ≤ x ∧ x < i0 + rn) →
    (drawVectors rn).countP (fun ds => decide (picks i0 rm ds = S)) =
      rm.factorial * (rn - rm).factorial := by
  intro rn
  induction rn with
  | zero =>
    intro rm i0 S hp hl hb
    have h0 := pairwise_lt_length S i0 (i0 + 0) hp hb
    have hrm : rm = 0 := by omega
    subst hrm
    have hS : S = [] := List.length_eq_zero.mp hl
    subst hS
    simp [drawVectors, picks]
  | succ rn ih =>
    intro rm i0 S hp hl hb
    have hdv : drawVectors (rn + 1) =
        (List.range (rn + 1)).flatMap
          (fun d => (drawVectors rn).map (fun ds => d :: ds)) := rfl
    have hle := pairwise_lt_length S i0 (i0 + (rn + 1)) hp hb
    have hrm1 : rm ≤ rn + 1 := by omega
    rw [hdv, countP_flatMap_sum]
    by_cases hhead : i0 ∈ S
    · -- the list starts with the candidate `i0`
      obtain ⟨S', rfl⟩ : ∃ S', S = i0 :: S' := by
        cases S with
        | nil => simp at hhead
        | cons x S' =>
          refine ⟨S', ?_⟩
          rw [List.pairwise_cons] at hp
          rw [List.mem_cons] at hhead
          rcases hhead with h | h
          · rw [h]
          · have h1 := hp.1 i0 h
            have h2 := (hb x (List.mem_cons_self _ _)).1
            omega
      rw [List.pairwise_cons] at hp
      simp only [List.length_cons] at hl
      subst hl
      rw [sum_range_two_values _ (S'.length + 1)
        (S'.length.factorial * (rn - S'.length).factorial) 0 (rn + 1) hrm1]
      · rw [Nat.factorial_succ]
        have : rn + 1 - (S'.length + 1) = rn - S'.length := by omega
        rw [this]
        ring
      · intro d hd
        rw [List.countP_map]
        rw [← ih S'.length (i0 + 1) S' hp.2 rfl
          (fun y hy => ⟨hp.1 y hy, by have := (hb y (List.mem_cons_of_mem _ hy)).2; omega⟩)]
        apply List.countP_congr
        intro ds _
        simp [picks, hd]
      · intro d hd _
        rw [List.countP_map, List.countP_eq_zero]
        intro ds _
        have hnd : ¬ d < S'.length + 1 := by omega
        simp only [Function.comp, picks, hnd, if_false, decide_eq_true_eq]
        intro heq
        have hmem : i0 ∈ picks (i0 + 1) (S'.length + 1) ds := by
          rw [heq]
          exact List.mem_cons_self _ _
        have := picks_ge _ _ _ _ hmem
        omega
    · -- the candidate `i0` is not in the list
      have hb2 : ∀ x ∈ S, i0 + 1 ≤ x ∧ x < i0 + 1 + rn := by
        intro x hx
        have h1 := hb x hx
        have h2 : x ≠ i0 := fun e => hhead (e ▸ hx)
        omega
      have hle2 := pairwise_lt_length S (i0 + 1) (i0 + 1 + rn) hp hb2
      have hrm2 : rm ≤ rn := by omega
      rw [sum_range_two_values _ rm 0 (rm.factorial * (rn - rm).factorial) (rn + 1) hrm1]
      · have : rn + 1 - rm = (rn - rm) + 1 := by omega
        rw [this, Nat.factorial_succ]
        ring
      · intro d hd
        rw [List.countP_map, List.countP_eq_zero]
        intro ds _
        simp only [Function.comp, picks, hd, if_true, decide_eq_true_eq]
        intro heq
        exact hhead (heq ▸ List.mem_cons_self _ _)
      · intro d hd _
        rw [List.countP_map]
        rw [← ih rm (i0 + 1) S hp hl hb2]
        apply List.countP_congr
        intro ds _
        have hnd : ¬ d < rm := by omega
        simp [picks, hnd]

/-- Of the `m` values below `m`, `rm` are below `rm ≤ m`. -/
theorem countP_lt_range (rm : Nat) :
    ∀ m, rm ≤ m → (List.range m).countP (fun d => decide (d < rm)) = rm := by
  intro m
  induction m with
  | zero =>
    intro h
    have : rm = 0 := by omega
    subst this
    rfl
  | succ m ih =>
    intro h
    rw [List.range_succ, List.countP_append]
    by_cases hm : rm ≤ m
    · rw [ih hm]
      have : ¬ m < rm := by omega
      simp [this]
    · have e : rm = m + 1 := by omega
      subst e
      have h1 : (List.range m).countP (fun d => decide (d < m + 1)) = (List.range m).length := by
        rw [List.countP_eq_length]
        intro d hd
        rw [List.mem_range] at hd
        simp only [decide_eq_true_eq]
        omega
      rw [h1]
      simp

/-- On a vector of draws the selection part of `generate_random_word_list` writes the
candidates computed by `picks`. -/
theorem selectWords_draws (n k : Nat) (hk : k ≤ n) (a : List Int) (ha : a.length = k + 1)
    (ds : List Nat) (hds : ds ∈ drawVectors n) :
    (selectWords (drawStream ds) n k a 0).word_indices.take k =
      List.map (fun (x : Nat) => (x : Int)) (picks 0 k ds) := by
  obtain ⟨hl, hb⟩ := drawVectors_mem n ds hds
  have him := (selectWords_spec (drawStream ds) n k hk a 0 ha).1
  have hp := selectLoop_picks (drawStream ds) n k ds ⟨0, 0, 0, a⟩
    (by simp [hl]) (Nat.zero_le _) (by simp only; omega) (by simp only; omega)
    (by
      intro t ht
      simp only [drawStream, Nat.zero_add]
      have := hb t (by omega)
      rw [hl]
      exact Nat.mod_eq_of_lt this)
  rw [hl] at hp
  have hsel : selectLoop (drawStream ds) n k n ⟨0, 0, 0, a⟩ =
      selectWords (drawStream ds) n k a 0 := rfl
  rw [hsel, him] at hp
  rw [hp]
  simp

/-! ## Lemmas: the checked scheduler -/

/-- When the checked `createWordLayer` returns, it returns what `createWordLayer` returns. -/
theorem createWordLayerChecked_some (R : Nat → Nat) (s : App) (r : App × Nat)
    (h : createWordLayerChecked R s = some r) : r = createWordLayer R s := by
  unfold createWordLayerChecked at h
  split_ifs at h
  exact (Option.some.inj h).symm

/-- The checked `createWordLayer` fails exactly if one of the three accesses is out of
bounds. -/
theorem createWordLayerChecked_none (R : Nat → Nat) (s : App) :
    createWordLayerChecked R s = none ↔
      ¬ (s.currentWordLayer < s.word_indices.length ∧
         0 ≤ s.word_indices.getD s.currentWordLayer 0 ∧
         (s.word_indices.getD s.currentWordLayer 0).toNat < words.length ∧
         s.currentWordLayer < s.word_layers.length) := by
  unfold createWordLayerChecked
  split_ifs with h1 h2 h3
  · constructor
    · intro h
      exact absurd h (by simp)
    · intro hn
      exact absurd ⟨h1, h2.1, h2.2, h3⟩ hn
  · simp only [true_iff]
    intro hc
    exact h3 hc.2.2.2
  · simp only [true_iff]
    intro hc
    exact h2 ⟨hc.2.1, hc.2.2.1⟩
  · simp [h1]

/-- When the checked switch returns, it returns what the switch of the program returns. -/
theorem stateSwitchChecked_some (R : Nat → Nat) (RAND_MAX : Nat) (s u : App)
    (h : stateSwitchChecked R RAND_MAX s = some u) : u = stateSwitch R RAND_MAX s := by
  unfold stateSwitchChecked at h
  unfold stateSwitch
  cases hph : s.stars_state
  case STATE_WORDS =>
    simp only [hph] at h ⊢
    split_ifs at h ⊢ with h1 h2
    · exact (Option.some.inj h).symm
    · cases hc : createWordLayerChecked R s with
      | none => rw [hc] at h; exact absurd h (by simp)
      | some r =>
        rw [hc] at h
        have hr := createWordLayerChecked_some R s r hc
        subst hr
        exact (Option.some.inj h).symm
    · exact (Option.some.inj h).symm
  all_goals
    simp only [hph] at h ⊢
    split_ifs at h ⊢
    all_goals exact (Option.some.inj h).symm

/-- The checked switch fails exactly in the states in which the switch calls `createWordLayer`
and one of the accesses of that call is out of bounds. -/
theorem stateSwitchChecked_none (R : Nat → Nat) (RAND_MAX : Nat) (s : App) :
    stateSwitchChecked R RAND_MAX s = none ↔
      callsCreateWordLayer s ∧ createWordLayerChecked R s = none := by
  unfold stateSwitchChecked callsCreateWordLayer
  cases hph : s.stars_state
  case STATE_WORDS =>
    simp only [hph]
    split_ifs with h1 h2
    · simp [h2]
    · cases hc : createWordLayerChecked R s with
      | none => simp [h1, h2]
      | some r => simp
    · simp [h1]
  all_goals
    simp only [hph]
    split_ifs
    all_goals simp

/-- In a state of a run in which the switch calls `createWordLayer`, the three accesses of the
call are in bounds. -/
theorem createWordLayer_bounds (s : App) (hinv : AppInv s) (hc : callsCreateWordLayer s) :
    s.currentWordLayer < s.word_indices.length ∧
    s.currentWordLayer < s.word_layers.length ∧
    0 ≤ s.word_indices.getD s.currentWordLayer 0 ∧
    s.word_indices.getD s.currentWordLayer 0 < (NUM_TOTAL_WORDS : Int) ∧
    (s.word_indices.getD s.currentWordLayer 0).toNat < words.length := by
  obtain ⟨a1, a2, a3, _, _, _, _, _⟩ := hinv
  obtain ⟨_, hlt, _⟩ := hc
  have hmem : s.word_indices.getD s.currentWordLayer 0 ∈ s.word_indices.take NUM_WORD_LAYERS := by
    rw [List.getD_eq_getElem _ _ (by omega)]
    have hl : s.currentWordLayer < (s.word_indices.take NUM_WORD_LAYERS).length := by
      rw [List.length_take]; omega
    have e : (s.word_indices.take NUM_WORD_LAYERS)[s.currentWordLayer] =
        s.word_indices[s.currentWordLayer] := by simp
    rw [← e]
    exact List.getElem_mem hl
  have hv := a2 _ hmem
  have hw : (NUM_TOTAL_WORDS : Int) = (words.length : Int) := rfl
  exact ⟨by omega, by omega, hv.1, hv.2, by omega⟩

/-- In a state of a run the checked switch does not fail. -/
theorem stateSwitchChecked_of_inv (R : Nat → Nat) (RAND_MAX : Nat) (s : App) (hinv : AppInv s) :
    stateSwitchChecked R RAND_MAX s = some (stateSwitch R RAND_MAX s) := by
  cases h : stateSwitchChecked R RAND_MAX s with
  | some u => rw [stateSwitchChecked_some R RAND_MAX s u h]
  | none =>
    obtain ⟨hc, hn⟩ := (stateSwitchChecked_none R RAND_MAX s).mp h
    obtain ⟨b1, b2, b3, _, b5⟩ := createWordLayer_bounds s hinv hc
    exact absurd ⟨b1, b3, b5, b2⟩ ((createWordLayerChecked_none R s).mp hn)

/-- In a state of a run the checked tick does not fail and is the tick of the program. -/
theorem stateTimerCallbackChecked_of_inv (R : Nat → Nat) (RAND_MAX : Nat) (s : App)
    (hinv : AppInv s) :
    stateTimerCallbackChecked R RAND_MAX s = some (stateTimerCallback R RAND_MAX s) := by
  unfold stateTimerCallbackChecked
  rw [stateSwitchChecked_of_inv R RAND_MAX s hinv]
  rfl

/-- The checked run never fails and is the run of the program. -/
theorem ticksChecked_eq (R : Nat → Nat) (RAND_MAX : Nat) (hR : ∀ s, R s ≤ RAND_MAX)
    (w h : Int) : ∀ n,
    ticksChecked R RAND_MAX n (main_window_load R RAND_MAX w h initialApp) =
      some (ticks R RAND_MAX n (main_window_load R RAND_MAX w h initialApp)) := by
  intro n
  induction n with
  | zero => rfl
  | succ n ih =>
    simp only [ticksChecked, ih]
    exact stateTimerCallbackChecked_of_inv R RAND_MAX _
      (AppInv_of_reachable R RAND_MAX hR w h _ ⟨n, rfl⟩)

/-! ## Word selector: the properties -/

/-- C1: for every vocabulary size `n`, every slot count `k ≤ n` and every stream of `rand()`
values, the selection loop of `generate_random_word_list` exits with exactly `k` indices written
(`im == max_layers`); the loop guard is false in the state returned, so the loop has really
ended. -/
theorem selection_writes_exactly_max_layers (R : Nat → Nat) (n k : Nat) (hk : k ≤ n)
    (word_indices : List Int) (seed : Nat) (hlen : word_indices.length = k + 1) :
    (selectWords R n k word_indices seed).im = k ∧
    ¬ ((selectWords R n k word_indices seed).in_ < n ∧
       (selectWords R n k word_indices seed).im < k) := by
  have h := (selectWords_spec R n k hk word_indices seed hlen).1
  refine ⟨h, ?_⟩
  rw [h]
  omega

/-- Witness for C1: the program's own sizes (49 words, 8 slots) and a concrete stream. -/
theorem selection_writes_exactly_max_layers_witness :
    (selectWords sampleStream NUM_TOTAL_WORDS NUM_WORD_LAYERS
        (List.replicate 9 0) 0).im = NUM_WORD_LAYERS ∧
    ¬ ((selectWords sampleStream NUM_TOTAL_WORDS NUM_WORD_LAYERS
          (List.replicate 9 0) 0).in_ < NUM_TOTAL_WORDS ∧
       (selectWords sampleStream NUM_TOTAL_WORDS NUM_WORD_LAYERS
          (List.replicate 9 0) 0).im < NUM_WORD_LAYERS) :=
  selection_writes_exactly_max_layers sampleStream NUM_TOTAL_WORDS
    NUM_WORD_LAYERS (by decide) (List.replicate 9 0) 0 (by decide)

/-- C2: for every well-formed `rand()` stream and `k ≤ n`, after `generate_random_word_list`
(selection, then shuffle) the first `k` entries of `word_indices` are pairwise distinct. -/
theorem word_list_indices_distinct (R : Nat → Nat) (RAND_MAX n k : Nat)
    (hR : ∀ s, R s ≤ RAND_MAX) (hk : k ≤ n) (word_indices : List Int) (seed : Nat)
    (hlen : word_indices.length = k + 1) :
    ((generate_random_word_list_of R RAND_MAX n k word_indices seed).1.take k).Nodup :=
  (word_list_spec R RAND_MAX n k hR hk word_indices seed hlen).2.1

/-- Witness for C2: the program's own sizes and a concrete stream. -/
theorem word_list_indices_distinct_witness :
    ((generate_random_word_list sampleStream 32767 (List.replicate 9 0)
        0).1.take NUM_WORD_LAYERS).Nodup :=
  word_list_indices_distinct sampleStream 32767 NUM_TOTAL_WORDS NUM_WORD_LAYERS
    sampleStream_le
    (by decide) (List.replicate 9 0) 0 (by decide)

/-- C3: for every well-formed `rand()` stream and `k ≤ n`, each of the first `k` entries of
`word_indices` after `generate_random_word_list` is a valid vocabulary index:
`0 ≤ index < n` (`n` is `NUM_TOTAL_WORDS`). -/
theorem word_list_indices_valid (R : Nat → Nat) (RAND_MAX n k : Nat)
    (hR : ∀ s, R s ≤ RAND_MAX) (hk : k ≤ n) (word_indices : List Int) (seed : Nat)
    (hlen : word_indices.length = k + 1) :
    ∀ v ∈ (generate_random_word_list_of R RAND_MAX n k word_indices seed).1.take k,
      0 ≤ v ∧ v < (n : Int) :=
  (word_list_spec R RAND_MAX n k hR hk word_indices seed hlen).2.2

/-- Witness for C3: the program's own sizes and a concrete stream; the entry 46 of the
selection. -/
theorem word_list_indices_valid_witness :
    (46 : Int) ∈ (generate_random_word_list sampleStream 32767 (List.replicate 9 0)
        0).1.take NUM_WORD_LAYERS ∧
    (0 : Int) ≤ 46 ∧ (46 : Int) < (NUM_TOTAL_WORDS : Int) :=
  ⟨by decide,
   word_list_indices_valid sampleStream 32767 NUM_TOTAL_WORDS NUM_WORD_LAYERS
    sampleStream_le (by decide) (List.replicate 9 0) 0 (by decide) 46 (by decide)⟩

/-- C4: for every array of at least `n` cells and every well-formed `rand()` stream,
`shuffle(array, n)` leaves the first `n` elements a permutation of what they were and leaves
every element at index `n` or above unchanged. -/
theorem shuffle_permutes_first_n (R : Nat → Nat) (RAND_MAX : Nat) (hR : ∀ s, R s ≤ RAND_MAX)
    (array : List Int) (n seed : Nat) (hn : n ≤ array.length) :
    ((shuffle R RAND_MAX array n seed).array.take n).Perm (array.take n) ∧
    (shuffle R RAND_MAX array n seed).array.drop n = array.drop n ∧
    (shuffle R RAND_MAX array n seed).array.length = array.length :=
  shuffle_spec R RAND_MAX hR array n seed hn

/-- Witness for C4: a five-cell array of which the first four cells are shuffled (the result is
`[30, 40, 10, 20, 50]`). -/
theorem shuffle_permutes_first_n_witness :
    ((shuffle sampleStream 32767 [10, 20, 30, 40, 50] 4 3).array.take 4).Perm
      ([10, 20, 30, 40, 50].take 4) ∧
    (shuffle sampleStream 32767 [10, 20, 30, 40, 50] 4 3).array.drop 4 =
      [10, 20, 30, 40, 50].drop 4 ∧
    (shuffle sampleStream 32767 [10, 20, 30, 40, 50] 4 3).array.length =
      [10, 20, 30, 40, 50].length :=
  shuffle_permutes_first_n sampleStream 32767 sampleStream_le [10, 20, 30, 40, 50] 4 3
    (by decide)

/-! ## Constellation generator: the properties -/

/-- C5: for every `rand()` stream, `generate_random_constellation` sets the constellation length
`L` (`num_constellation_stars_chosen`) so that `4 ≤ L ≤ NUM_CONSTELLATION_STARS`. -/
theorem constellation_length_bounds (R : Nat → Nat) (w h : Int)
    (constellation_stars : List GPoint) (seed : Nat) :
    4 ≤ (generate_random_constellation R w h constellation_stars seed).num_constellation_stars_chosen ∧
    (generate_random_constellation R w h constellation_stars seed).num_constellation_stars_chosen
      ≤ NUM_CONSTELLATION_STARS := by
  simp only [generate_random_constellation, NUM_CONSTELLATION_STARS]
  omega

/-- C6: for every `rand()` stream and every viewport with width and height at least 2 (and
within the range of the `int16_t` fields of `bounds.size`), every pair of consecutive points
produced by `generate_random_constellation` satisfies `|x[i] - x[i-1]| ≤ 25` and
`|y[i] - y[i-1]| ≤ 25` for all `0 < i < L`. -/
theorem constellation_consecutive_points_near (R : Nat → Nat) (w h : Int) (hw : 2 ≤ w)
    (hh : 2 ≤ h) (hw16 : w ≤ 32767) (hh16 : h ≤ 32767) (constellation_stars : List GPoint)
    (seed : Nat) (hlen : constellation_stars.length = NUM_CONSTELLATION_STARS) :
    ∀ i, 0 < i →
      i < (generate_random_constellation R w h constellation_stars seed).num_constellation_stars_chosen →
      |((generate_random_constellation R w h constellation_stars seed).constellation_stars.getD i ⟨0, 0⟩).x -
        ((generate_random_constellation R w h constellation_stars seed).constellation_stars.getD (i - 1) ⟨0, 0⟩).x|
        ≤ 25 ∧
      |((generate_random_constellation R w h constellation_stars seed).constellation_stars.getD i ⟨0, 0⟩).y -
        ((generate_random_constellation R w h constellation_stars seed).constellation_stars.getD (i - 1) ⟨0, 0⟩).y|
        ≤ 25 :=
  (generate_random_constellation_spec R w h hw hh hw16 hh16 constellation_stars seed hlen).2

/-- Witness for C6: the 144 x 168 viewport, an all-zero buffer and a concrete stream; the first
step of the walk. -/
theorem constellation_consecutive_points_near_witness :
    1 < (generate_random_constellation sampleStream 144 168
          (List.replicate 16 ⟨0, 0⟩) 0).num_constellation_stars_chosen ∧
    |((generate_random_constellation sampleStream 144 168
          (List.replicate 16 ⟨0, 0⟩) 0).constellation_stars.getD 1 ⟨0, 0⟩).x -
      ((generate_random_constellation sampleStream 144 168
          (List.replicate 16 ⟨0, 0⟩) 0).constellation_stars.getD (1 - 1) ⟨0, 0⟩).x| ≤ 25 ∧
    |((generate_random_constellation sampleStream 144 168
          (List.replicate 16 ⟨0, 0⟩) 0).constellation_stars.getD 1 ⟨0, 0⟩).y -
      ((generate_random_constellation sampleStream 144 168
          (List.replicate 16 ⟨0, 0⟩) 0).constellation_stars.getD (1 - 1) ⟨0, 0⟩).y| ≤ 25 :=
  ⟨by decide,
   constellation_consecutive_points_near sampleStream 144 168 (by decide) (by decide)
    (by decide) (by decide) (List.replicate 16 ⟨0, 0⟩) 0 (by decide) 1 (by decide) (by decide)⟩

/-! ## Phase scheduler: the properties -/

/-- C7: for every scheduler state and every `rand()` stream, one call of `stateTimerCallback`
either leaves the phase unchanged or moves it to the next phase of the cycle
Start -> Title -> Blank1 -> Words -> Blank2 -> Start. -/
theorem phase_unchanged_or_next (R : Nat → Nat) (RAND_MAX : Nat) (s : App) :
    (stateTimerCallback R RAND_MAX s).stars_state = s.stars_state ∨
    (stateTimerCallback R RAND_MAX s).stars_state = nextPhase s.stars_state := by
  have h := ctrl_stateTimerCallback R RAND_MAX s
  have hp : (stateTimerCallback R RAND_MAX s).stars_state = (ctrlStep (ctrl s)).phase := by
    rw [← h]
    rfl
  rw [hp]
  unfold ctrlStep ctrl
  cases hph : s.stars_state <;> simp only [nextPhase] <;> split_ifs <;> simp

/-- C8, counterexample: in the state left by `main_window_load` on the 144 x 168 viewport the
phase is Start, the elapsed counter 0 and the slot index 0; one call of `stateTimerCallback`
later the phase is still Start, not Title. -/
theorem start_to_title_in_one_tick_counterexample :
    ctrl (main_window_load sampleStream 32767 144 168 initialApp) = ⟨STATE_START, 0, 0⟩ ∧
    (ticks sampleStream 32767 1
        (main_window_load sampleStream 32767 144 168 initialApp)).stars_state = STATE_START ∧
    (ticks sampleStream 32767 1
        (main_window_load sampleStream 32767 144 168 initialApp)).stars_state ≠ STATE_TITLE := by
  refine ⟨rfl, rfl, by decide⟩

/-- C8, amended: from phase Start with elapsed counter 0, one call of `stateTimerCallback` leaves
the phase at Start and moves the elapsed counter to `state_times[STATE_START]` (one
`TIMER_PERIOD`); the phase is Title after exactly two calls, whatever the rest of the state and
the `rand()` stream. -/
theorem start_phase_lasts_two_ticks (R : Nat → Nat) (RAND_MAX : Nat) (s : App) :
    (ticks R RAND_MAX 1 { s with stars_state := STATE_START, currentStateTime := 0 }).stars_state
      = STATE_START ∧
    (ticks R RAND_MAX 1 { s with stars_state := STATE_START, currentStateTime := 0 }).currentStateTime
      = state_times STATE_START ∧
    (ticks R RAND_MAX 2 { s with stars_state := STATE_START, currentStateTime := 0 }).stars_state
      = STATE_TITLE ∧
    (ticks R RAND_MAX 2 { s with stars_state := STATE_START, currentStateTime := 0 }).currentStateTime
      = 0 := by
  refine ⟨rfl, rfl, rfl, rfl⟩

/-- C9, counterexample: in the state left by `main_window_load` (phase Start, elapsed 0, slot 0)
on the 144 x 168 viewport, 14 ticks later the phase is Words, not Start, and the generated data
are still those of the initial state. -/
theorem full_cycle_in_14_ticks_counterexample :
    ctrl (main_window_load sampleStream 32767 144 168 initialApp) = ⟨STATE_START, 0, 0⟩ ∧
    (ticks sampleStream 32767 14
        (main_window_load sampleStream 32767 144 168 initialApp)).stars_state = STATE_WORDS ∧
    (ticks sampleStream 32767 14
        (main_window_load sampleStream 32767 144 168 initialApp)).stars_state ≠ STATE_START ∧
    generated (ticks sampleStream 32767 14
        (main_window_load sampleStream 32767 144 168 initialApp)) =
      generated (main_window_load sampleStream 32767 144 168 initialApp) := by
  refine ⟨rfl, rfl, by decide, rfl⟩

/-- C9, amended: from phase Start with elapsed counter 0 and slot index 0 the scheduler completes
one full cycle: after some number `N` of ticks it is back in phase Start with elapsed counter 0
and slot index 0, that tick having replaced the star field, constellation and word selection by
freshly generated ones, and before that tick the generated data are unchanged. The dwell times
are those of `state_times`, so `N` is at least `1 + 5 + 2 + 8 * 10 + 3` ticks. -/
theorem full_cycle_returns_to_start (R : Nat → Nat) (RAND_MAX : Nat) (s : App)
    (h : ctrl s = ⟨STATE_START, 0, 0⟩) :
    ∃ N, 1 + 5 + 2 + NUM_WORD_LAYERS * 10 + 3 ≤ N ∧
      ctrl (ticks R RAND_MAX N s) = ⟨STATE_START, 0, 0⟩ ∧
      generated (ticks R RAND_MAX N s) = regenerated R RAND_MAX (ticks R RAND_MAX (N - 1) s) ∧
      ∀ m, m < N → generated (ticks R RAND_MAX m s) = generated s := by
  obtain ⟨c1, c2, c3⟩ := ctrlIter_cycle
  refine ⟨104, by decide, ?_, ?_, ?_⟩
  · rw [ctrl_ticks, h, c1]
  · have hc : ctrl (ticks R RAND_MAX 103 s) = ⟨STATE_BLANK_2, 1500, 0⟩ := by
      rw [ctrl_ticks, h, c2]
    obtain ⟨hph, hel, _⟩ := ctrl_fields _ _ hc
    show generated (stateTimerCallback R RAND_MAX (ticks R RAND_MAX 103 s)) = _
    exact generated_stateTimerCallback_of_exit R RAND_MAX _ hph (by rw [hel]; decide)
  · intro m hm
    apply generated_ticks
    intro j hj
    rw [h]
    exact c3 j (by omega)

/-- Witness for C9, amended: the state left by `main_window_load` on the 144 x 168 viewport. -/
theorem full_cycle_returns_to_start_witness :
    ∃ N, 1 + 5 + 2 + NUM_WORD_LAYERS * 10 + 3 ≤ N ∧
      ctrl (ticks sampleStream 32767 N (main_window_load sampleStream 32767 144 168 initialApp))
        = ⟨STATE_START, 0, 0⟩ ∧
      generated (ticks sampleStream 32767 N
          (main_window_load sampleStream 32767 144 168 initialApp)) =
        regenerated sampleStream 32767 (ticks sampleStream 32767 (N - 1)
          (main_window_load sampleStream 32767 144 168 initialApp)) ∧
      ∀ m, m < N → generated (ticks sampleStream 32767 m
          (main_window_load sampleStream 32767 144 168 initialApp)) =
        generated (main_window_load sampleStream 32767 144 168 initialApp) :=
  full_cycle_returns_to_start sampleStream 32767
    (main_window_load sampleStream 32767 144 168 initialApp) rfl

/-- C10: one pass through the Words phase, entered with elapsed counter 0 and slot index 0 and
with the word selection produced by `generate_random_word_list`. The pass lasts 89 ticks (the
phase is Words before each of them and Blank2 after the last). The texts set during the pass
(only `createWordLayer` sets a text in this phase, once per invocation) are exactly
`NUM_WORD_LAYERS` many, the `k`-th being `words[word_indices[k]]`, in that order, and they are
pairwise distinct. -/
theorem words_phase_presents_selection (R : Nat → Nat) (RAND_MAX : Nat)
    (hR : ∀ s, R s ≤ RAND_MAX) (s : App) (old : List Int) (seed0 : Nat)
    (hold : old.length = NUM_WORD_LAYERS + 1) (hc : ctrl s = ⟨STATE_WORDS, 0, 0⟩)
    (hsel : s.word_indices = (generate_random_word_list R RAND_MAX old seed0).1) :
    (∀ m, m < 89 → (ticks R RAND_MAX m s).stars_state = STATE_WORDS) ∧
    (ticks R RAND_MAX 89 s).stars_state = STATE_BLANK_2 ∧
    ∃ new, (ticks R RAND_MAX 89 s).calls = s.calls ++ new ∧
      shownTexts new =
        (List.range NUM_WORD_LAYERS).map
          (fun k => words.getD (s.word_indices.getD k 0).toNat "") ∧
      (shownTexts new).length = NUM_WORD_LAYERS ∧
      (shownTexts new).Nodup := by
  obtain ⟨c1, c2⟩ := ctrlIter_words
  have hphase : ∀ m, m < 89 → (ctrlIter m (ctrl s)).phase = STATE_WORDS := by
    intro m hm
    rw [hc, c2 m hm]
  refine ⟨?_, ?_, ?_⟩
  · intro m hm
    rw [(ctrl_fields _ _ (ctrl_ticks R RAND_MAX s m)).1]
    exact hphase m hm
  · rw [(ctrl_fields _ _ (ctrl_ticks R RAND_MAX s 89)).1, hc, c1]
  · obtain ⟨new, n1, n2, _⟩ := words_ticks R RAND_MAX s 89 hphase
    rw [hc, wordsEmitted_pass s.word_indices 89 (le_refl _)] at n2
    have e : (89 / 11 : Nat) = NUM_WORD_LAYERS := rfl
    rw [e] at n2
    obtain ⟨w1, w2, w3⟩ := word_list_spec R RAND_MAX NUM_TOTAL_WORDS NUM_WORD_LAYERS hR
      (by decide) old seed0 hold
    have hgen : generate_random_word_list_of R RAND_MAX NUM_TOTAL_WORDS NUM_WORD_LAYERS old seed0
        = generate_random_word_list R RAND_MAX old seed0 := rfl
    rw [hgen, ← hsel] at w1 w2 w3
    refine ⟨new, n1, n2, ?_, ?_⟩
    · rw [n2, List.length_map, List.length_range]
    · rw [n2]
      exact List.Nodup.map_on
        (wordAt_injective s.word_indices NUM_WORD_LAYERS (by omega) w2 w3)
        (List.nodup_range _)

/-- Witness for C10: a state at the entry of the Words phase on the 144 x 168 viewport, whose
word selection is the one `generate_random_word_list` produces from the all-zero array. -/
theorem words_phase_presents_selection_witness :
    (∀ m, m < 89 → (ticks sampleStream 32767 m sampleWordsEntry).stars_state = STATE_WORDS) ∧
    (ticks sampleStream 32767 89 sampleWordsEntry).stars_state = STATE_BLANK_2 ∧
    ∃ new, (ticks sampleStream 32767 89 sampleWordsEntry).calls =
        sampleWordsEntry.calls ++ new ∧
      shownTexts new =
        (List.range NUM_WORD_LAYERS).map
          (fun k => words.getD (sampleWordsEntry.word_indices.getD k 0).toNat "") ∧
      (shownTexts new).length = NUM_WORD_LAYERS ∧
      (shownTexts new).Nodup :=
  words_phase_presents_selection sampleStream 32767 sampleStream_le sampleWordsEntry
    (List.replicate (NUM_WORD_LAYERS + 1) 0) 0 (by decide) rfl (by simp only [sampleWordsEntry])

/-- C11, counterexample: at the entry of the Words phase (elapsed counter 0, slot index 0, which
is below `NUM_WORD_LAYERS`) one tick presents no word and leaves the slot index at 0. -/
theorem one_word_per_tick_counterexample :
    sampleWordsEntry.stars_state = STATE_WORDS ∧
    sampleWordsEntry.currentWordLayer < NUM_WORD_LAYERS ∧
    (ticks sampleStream 32767 1 sampleWordsEntry).currentWordLayer = 0 ∧
    shownTexts (ticks sampleStream 32767 1 sampleWordsEntry).calls = [] := by
  refine ⟨rfl, by decide, rfl, rfl⟩

/-- C11, amended: on a tick in phase Words while the slot index is below `NUM_WORD_LAYERS`, the
next word is presented and the slot index advances by one (the elapsed counter going back to 0)
only if the elapsed counter has reached `state_times[STATE_WORDS]`; otherwise the tick presents
nothing and only adds `TIMER_PERIOD` to the elapsed counter. -/
theorem words_tick_presents_only_when_due (R : Nat → Nat) (RAND_MAX : Nat) (s : App)
    (hph : s.stars_state = STATE_WORDS) (hslot : s.currentWordLayer < NUM_WORD_LAYERS) :
    ∃ new, (stateTimerCallback R RAND_MAX s).calls = s.calls ++ new ∧
      (s.currentStateTime < state_times STATE_WORDS →
        shownTexts new = [] ∧
        ctrl (stateTimerCallback R RAND_MAX s) =
          ⟨STATE_WORDS, s.currentStateTime + TIMER_PERIOD, s.currentWordLayer⟩) ∧
      (¬ s.currentStateTime < state_times STATE_WORDS →
        shownTexts new = [wordAt s.word_indices s.currentWordLayer] ∧
        ctrl (stateTimerCallback R RAND_MAX s) = ⟨STATE_WORDS, 0, s.currentWordLayer + 1⟩) := by
  obtain ⟨new, h1, h2, _⟩ := words_tick R RAND_MAX s hph
  have hc := ctrl_stateTimerCallback R RAND_MAX s
  have h8 : s.currentWordLayer < 8 := hslot
  refine ⟨new, h1, ?_, ?_⟩
  · intro hlt
    constructor
    · rw [h2]
      simp [wordEmit, ctrl, hlt]
    · rw [hc]
      simp [ctrlStep, ctrl, hph, hslot, hlt]
  · intro hge
    constructor
    · rw [h2]
      simp [wordEmit, ctrl, hge, hslot]
    · rw [hc]
      simp only [ctrlStep, ctrl, hph, hslot, hge, if_true, if_false]
      have : (s.currentWordLayer + 1) % 256 = s.currentWordLayer + 1 := by omega
      rw [this]

/-- Witness for C11, amended: the entry of the Words phase, where the elapsed counter is 0. -/
theorem words_tick_presents_only_when_due_witness :
    ∃ new, (stateTimerCallback sampleStream 32767 sampleWordsEntry).calls =
        sampleWordsEntry.calls ++ new ∧
      (sampleWordsEntry.currentStateTime < state_times STATE_WORDS →
        shownTexts new = [] ∧
        ctrl (stateTimerCallback sampleStream 32767 sampleWordsEntry) =
          ⟨STATE_WORDS, sampleWordsEntry.currentStateTime + TIMER_PERIOD,
            sampleWordsEntry.currentWordLayer⟩) ∧
      (¬ sampleWordsEntry.currentStateTime < state_times STATE_WORDS →
        shownTexts new = [wordAt sampleWordsEntry.word_indices sampleWordsEntry.currentWordLayer] ∧
        ctrl (stateTimerCallback sampleStream 32767 sampleWordsEntry) =
          ⟨STATE_WORDS, 0, sampleWordsEntry.currentWordLayer + 1⟩) :=
  words_tick_presents_only_when_due sampleStream 32767 sampleWordsEntry rfl (by decide)

/-- C13: a tick of `stateTimerCallback` that is not the exit from Blank2 leaves the star field,
the constellation buffer and length and the word selection unchanged; the exit from Blank2
replaces them by the results of `generate_random_stars`, `generate_random_constellation` and
`generate_random_word_list`, moves the phase to Start and resets the elapsed counter to 0. -/
theorem generated_data_replaced_only_at_blank2_exit (R : Nat → Nat) (RAND_MAX : Nat) (s : App) :
    generated (stateTimerCallback R RAND_MAX s) =
      (if s.stars_state = STATE_BLANK_2 ∧ ¬ s.currentStateTime < state_times STATE_BLANK_2 then
        regenerated R RAND_MAX s
      else generated s) ∧
    (s.stars_state = STATE_BLANK_2 ∧ ¬ s.currentStateTime < state_times STATE_BLANK_2 →
      (stateTimerCallback R RAND_MAX s).stars_state = STATE_START ∧
      (stateTimerCallback R RAND_MAX s).currentStateTime = 0) := by
  constructor
  · by_cases h : s.stars_state = STATE_BLANK_2 ∧ ¬ s.currentStateTime < state_times STATE_BLANK_2
    · rw [if_pos h]
      exact generated_stateTimerCallback_of_exit R RAND_MAX s h.1 h.2
    · rw [if_neg h]
      exact generated_stateTimerCallback_of_not_exit R RAND_MAX s h
  · intro h
    have hc := ctrl_fields _ _ (ctrl_stateTimerCallback R RAND_MAX s)
    rw [hc.1, hc.2.1]
    simp [ctrlStep, ctrl, h.1, h.2]

/-- Witness for C13: a state at the exit from Blank2 on the 144 x 168 viewport. -/
theorem generated_data_replaced_only_at_blank2_exit_witness :
    (sampleBlank2Exit.stars_state = STATE_BLANK_2 ∧
      ¬ sampleBlank2Exit.currentStateTime < state_times STATE_BLANK_2) ∧
    generated (stateTimerCallback sampleStream 32767 sampleBlank2Exit) =
      regenerated sampleStream 32767 sampleBlank2Exit ∧
    (stateTimerCallback sampleStream 32767 sampleBlank2Exit).stars_state = STATE_START ∧
    (stateTimerCallback sampleStream 32767 sampleBlank2Exit).currentStateTime = 0 :=
  ⟨by decide,
   by
    have h := (generated_data_replaced_only_at_blank2_exit sampleStream 32767
      sampleBlank2Exit).1
    rw [if_pos (by decide)] at h
    exact h,
   (generated_data_replaced_only_at_blank2_exit sampleStream 32767 sampleBlank2Exit).2
    (by decide)⟩

/-- C15, the failing run: with a `rand()` stream for which the selection loop of `words-test.c`
picks the last 12 candidates, the value stored for the last candidate is 34, which is
`NUM_TOTAL_WORDS` and so not an index of the 34-word vocabulary (`words[34]` does not exist). -/
theorem words_test_index_out_of_range :
    (∀ s, lastPickStream s ≤ 33) ∧
    (34 : Int) ∈ (WordsTest.generate_random_word_list lastPickStream 33 (List.replicate 13 0)
        0).1.take WordsTest.NUM_WORD_LAYERS ∧
    ¬ ((34 : Int) < (WordsTest.NUM_TOTAL_WORDS : Int)) ∧
    WordsTest.words.get? 34 = none := by
  refine ⟨?_, by decide, by decide, by decide⟩
  intro s
  show 33 - s ≤ 33
  omega

/-- C16, counterexample: on the 144 x 168 viewport the second tick after `main_window_load` is
the Start -> Title transition; the name it writes is `"NAME:\nSexstor"`, which is not the
concatenation of a prefix and a postfix. -/
theorem name_is_prefix_postfix_counterexample :
    (ticks sampleStream 32767 1
        (main_window_load sampleStream 32767 144 168 initialApp)).stars_state = STATE_START ∧
    (ticks sampleStream 32767 2
        (main_window_load sampleStream 32767 144 168 initialApp)).stars_state = STATE_TITLE ∧
    (ticks sampleStream 32767 2
        (main_window_load sampleStream 32767 144 168 initialApp)).constellation_name =
      "NAME:\nSexstor" ∧
    ∀ p ∈ prefixes, ∀ q ∈ postfixes, "NAME:\nSexstor" ≠ p ++ q := by
  refine ⟨rfl, rfl, by decide, by decide⟩

/-- C16, amended: for every `rand()` stream the constellation name written on the
Start -> Title transition is the text `"NAME:\n"` followed by exactly one string of `prefixes`
and exactly one string of `postfixes`, with nothing between or after them; it is the text
given to the title layer. -/
theorem name_is_label_prefix_postfix (R : Nat → Nat) (RAND_MAX : Nat) (s : App)
    (hph : s.stars_state = STATE_START) (hdue : ¬ s.currentStateTime < state_times STATE_START) :
    (stateTimerCallback R RAND_MAX s).stars_state = STATE_TITLE ∧
    ∃ p ∈ prefixes, ∃ q ∈ postfixes,
      (stateTimerCallback R RAND_MAX s).constellation_name = "NAME:\n" ++ p ++ q ∧
      ∃ new, (stateTimerCallback R RAND_MAX s).calls = s.calls ++ new ∧
        shownTexts new = ["NAME:\n" ++ p ++ q] := by
  have hp : prefixes.getD (R s.seed % prefixes.length) "" ∈ prefixes :=
    getD_mem_of_lt _ _ (Nat.mod_lt _ (by decide))
  have hq : postfixes.getD (R (s.seed + 1) % postfixes.length) "" ∈ postfixes :=
    getD_mem_of_lt _ _ (Nat.mod_lt _ (by decide))
  have hw := (snprintf_name_whole _ hp _ hq).2
  refine ⟨?_, _, hp, _, hq, ?_, ?_⟩
  · simp [stateTimerCallback, stateSwitch, hph, hdue, generate_title_layer]
  · simp only [stateTimerCallback, stateSwitch, hph, hdue, generate_title_layer, if_false]
    exact hw
  · simp only [stateTimerCallback, stateSwitch, hph, hdue, generate_title_layer, if_false,
      List.append_assoc]
    refine ⟨_, rfl, ?_⟩
    simp only [List.cons_append, List.nil_append, shownTexts, hw]

/-- Witness for C16, amended: a state in phase Start whose elapsed counter has reached
`state_times[STATE_START]`. -/
theorem name_is_label_prefix_postfix_witness :
    (stateTimerCallback sampleStream 32767 sampleStartExit).stars_state = STATE_TITLE ∧
    ∃ p ∈ prefixes, ∃ q ∈ postfixes,
      (stateTimerCallback sampleStream 32767 sampleStartExit).constellation_name =
        "NAME:\n" ++ p ++ q ∧
      ∃ new, (stateTimerCallback sampleStream 32767 sampleStartExit).calls =
          sampleStartExit.calls ++ new ∧
        shownTexts new = ["NAME:\n" ++ p ++ q] :=
  name_is_label_prefix_postfix sampleStream 32767 sampleStartExit rfl (by decide)

/-- C17: for every pair of a configured prefix and a configured postfix the formatted name takes
at most 17 bytes, so it fits the 18-byte buffer `constellation_name` with its terminator and
`snprintf` stores it whole; and both indices `rand() % 13` are valid for their list. -/
theorem name_fits_buffer (p q : String) (hp : p ∈ prefixes) (hq : q ∈ postfixes) (r : Nat) :
    ("NAME:\n" ++ p ++ q).utf8ByteSize ≤ 17 ∧
    snprintf_name 18 p q = "NAME:\n" ++ p ++ q ∧
    prefixes.length = 13 ∧ postfixes.length = 13 ∧
    r % prefixes.length < prefixes.length ∧ r % postfixes.length < postfixes.length := by
  obtain ⟨h1, h2⟩ := snprintf_name_whole p hp q hq
  exact ⟨h1, h2, rfl, rfl, Nat.mod_lt _ (by decide), Nat.mod_lt _ (by decide)⟩

/-- Witness for C17: the longest pair, `"Sex"` and `"quest"`, and the `rand()` value 32767. -/
theorem name_fits_buffer_witness :
    ("NAME:\n" ++ "Sex" ++ "quest").utf8ByteSize ≤ 17 ∧
    snprintf_name 18 "Sex" "quest" = "NAME:\n" ++ "Sex" ++ "quest" ∧
    prefixes.length = 13 ∧ postfixes.length = 13 ∧
    32767 % prefixes.length < prefixes.length ∧ 32767 % postfixes.length < postfixes.length :=
  name_fits_buffer "Sex" "quest" (by decide) (by decide) 32767

set_option maxRecDepth 100000 in
/-- C20, the failing run: in the state left by `main_window_load` on the 144 x 168 viewport the
constellation has 12 points, yet `stars_update_proc` issues `40 + 16` filled squares, not
`40 + 12`: the four squares for the buffer slots 12 to 15 are drawn at the point (0, 0), which
is neither a star nor one of the 12 constellation points. -/
theorem stars_update_proc_draws_unused_slots :
    (main_window_load sampleStream 32767 144 168
      initialApp).num_constellation_stars_chosen = 12 ∧
    ((stars_update_proc (main_window_load sampleStream 32767 144 168 initialApp).stars
        (main_window_load sampleStream 32767 144 168 initialApp).constellation_stars
        (main_window_load sampleStream 32767 144 168
          initialApp).num_constellation_stars_chosen).filter isFillRect).length = 40 + 16 ∧
    ((stars_update_proc (main_window_load sampleStream 32767 144 168 initialApp).stars
        (main_window_load sampleStream 32767 144 168 initialApp).constellation_stars
        (main_window_load sampleStream 32767 144 168
          initialApp).num_constellation_stars_chosen).filter isFillRect).drop (40 + 12) =
      List.replicate 4 (Draw.graphics_fill_rect ⟨0, 0⟩ 2 2) ∧
    (⟨0, 0⟩ : GPoint) ∉ (main_window_load sampleStream 32767 144 168
      initialApp).constellation_stars.take 12 ∧
    (⟨0, 0⟩ : GPoint) ∉ (main_window_load sampleStream 32767 144 168 initialApp).stars := by
  refine ⟨by decide, by decide, by decide, by decide, by decide⟩

/-- C18: for every viewport with positive width and height (within the range of the `int16_t`
fields of `bounds.size`) and every `rand()` stream, `generate_random_stars` runs through all
`NUM_STARS` entries of the star field and gives each of them a new point, which depends on the
stream only and satisfies `0 ≤ x < width` and `0 ≤ y < height`. -/
theorem star_field_overwritten_in_viewport (R : Nat → Nat) (w h : Int) (hw : 0 < w)
    (hh : 0 < h) (hw16 : w ≤ 32767) (hh16 : h ≤ 32767) (stars : List GPoint) (seed : Nat)
    (hlen : stars.length = NUM_STARS) :
    (generate_random_stars R w h stars seed).i = NUM_STARS ∧
    (generate_random_stars R w h stars seed).stars.length = NUM_STARS ∧
    ∀ k, k < NUM_STARS →
      (generate_random_stars R w h stars seed).stars.getD k ⟨0, 0⟩ =
        ⟨(R (seed + 2 * k) : Int) % w, (R (seed + 2 * k + 1) : Int) % h⟩ ∧
      0 ≤ ((generate_random_stars R w h stars seed).stars.getD k ⟨0, 0⟩).x ∧
      ((generate_random_stars R w h stars seed).stars.getD k ⟨0, 0⟩).x < w ∧
      0 ≤ ((generate_random_stars R w h stars seed).stars.getD k ⟨0, 0⟩).y ∧
      ((generate_random_stars R w h stars seed).stars.getD k ⟨0, 0⟩).y < h := by
  obtain ⟨a1, a2, a3⟩ := starsLoop_spec R w h seed NUM_STARS ⟨0, seed, stars⟩ (by simp) hlen
    (by simp) (by intro k hk; simp at hk)
  refine ⟨a1, a2, ?_⟩
  intro k hk
  have hx := star_coordinate (R (seed + 2 * k)) w hw hw16
  have hy := star_coordinate (R (seed + 2 * k + 1)) h hh hh16
  have e := a3 k hk
  rw [hx.1, hy.1] at e
  unfold generate_random_stars
  rw [e]
  exact ⟨rfl, hx.2.1, hx.2.2, hy.2.1, hy.2.2⟩

/-- Witness for C18: the 144 x 168 viewport, an all-zero star field and a concrete stream; the
last entry. -/
theorem star_field_overwritten_in_viewport_witness :
    (generate_random_stars sampleStream 144 168 (List.replicate 40 ⟨0, 0⟩) 0).i = NUM_STARS ∧
    (generate_random_stars sampleStream 144 168 (List.replicate 40 ⟨0, 0⟩) 0).stars.length
      = NUM_STARS ∧
    (generate_random_stars sampleStream 144 168 (List.replicate 40 ⟨0, 0⟩) 0).stars.getD 39
        ⟨0, 0⟩ =
      ⟨(sampleStream (0 + 2 * 39) : Int) % 144, (sampleStream (0 + 2 * 39 + 1) : Int) % 168⟩ ∧
    0 ≤ ((generate_random_stars sampleStream 144 168 (List.replicate 40 ⟨0, 0⟩) 0).stars.getD
      39 ⟨0, 0⟩).x ∧
    ((generate_random_stars sampleStream 144 168 (List.replicate 40 ⟨0, 0⟩) 0).stars.getD
      39 ⟨0, 0⟩).x < 144 ∧
    0 ≤ ((generate_random_stars sampleStream 144 168 (List.replicate 40 ⟨0, 0⟩) 0).stars.getD
      39 ⟨0, 0⟩).y ∧
    ((generate_random_stars sampleStream 144 168 (List.replicate 40 ⟨0, 0⟩) 0).stars.getD
      39 ⟨0, 0⟩).y < 168 :=
  have h := star_field_overwritten_in_viewport sampleStream 144 168 (by decide) (by decide)
    (by decide) (by decide) (List.replicate 40 ⟨0, 0⟩) 0 (by decide)
  ⟨h.1, h.2.1, h.2.2 39 (by decide)⟩

/-- C19: for every viewport with width and height at least 2 (within the range of the `int16_t`
fields of `bounds.size`) and every `rand()` stream, the first constellation point produced by
`generate_random_constellation` satisfies `w/4 ≤ x < w/4 + w/2` and `h/4 ≤ y < h/4 + h/2`
(integer division), and lies inside the viewport. -/
theorem first_constellation_point_central (R : Nat → Nat) (w h : Int) (hw : 2 ≤ w)
    (hh : 2 ≤ h) (hw16 : w ≤ 32767) (hh16 : h ≤ 32767) (constellation_stars : List GPoint)
    (seed : Nat) (hlen : constellation_stars.length = NUM_CONSTELLATION_STARS) :
    w / 4 ≤ ((generate_random_constellation R w h constellation_stars
      seed).constellation_stars.getD 0 ⟨0, 0⟩).x ∧
    ((generate_random_constellation R w h constellation_stars
      seed).constellation_stars.getD 0 ⟨0, 0⟩).x < w / 4 + w / 2 ∧
    h / 4 ≤ ((generate_random_constellation R w h constellation_stars
      seed).constellation_stars.getD 0 ⟨0, 0⟩).y ∧
    ((generate_random_constellation R w h constellation_stars
      seed).constellation_stars.getD 0 ⟨0, 0⟩).y < h / 4 + h / 2 ∧
    0 ≤ ((generate_random_constellation R w h constellation_stars
      seed).constellation_stars.getD 0 ⟨0, 0⟩).x ∧
    ((generate_random_constellation R w h constellation_stars
      seed).constellation_stars.getD 0 ⟨0, 0⟩).x < w ∧
    0 ≤ ((generate_random_constellation R w h constellation_stars
      seed).constellation_stars.getD 0 ⟨0, 0⟩).y ∧
    ((generate_random_constellation R w h constellation_stars
      seed).constellation_stars.getD 0 ⟨0, 0⟩).y < h := by
  have h0 : 0 < constellation_stars.length := by
    rw [hlen]; decide
  have e : (generate_random_constellation R w h constellation_stars
      seed).constellation_stars.getD 0 ⟨0, 0⟩ =
      ⟨toInt16 (Int.tmod (R (seed + 1)) (Int.tdiv w 2) + Int.tdiv w 4),
       toInt16 (Int.tmod (R (seed + 2)) (Int.tdiv h 2) + Int.tdiv h 4)⟩ := by
    simp only [generate_random_constellation]
    rw [constellationLoop_first R _ _ _ (le_refl 1)]
    exact getD_set_self _ _ _ _ h0
  rw [e]
  obtain ⟨x1, x2, x3, x4⟩ := first_coordinate (R (seed + 1)) w hw hw16
  obtain ⟨y1, y2, y3, y4⟩ := first_coordinate (R (seed + 2)) h hh hh16
  exact ⟨x1, x2, y1, y2, x3, x4, y3, y4⟩

/-- Witness for C19: the 144 x 168 viewport, an all-zero buffer and a concrete stream. -/
theorem first_constellation_point_central_witness :
    (144 : Int) / 4 ≤ ((generate_random_constellation sampleStream 144 168
      (List.replicate 16 ⟨0, 0⟩) 0).constellation_stars.getD 0 ⟨0, 0⟩).x ∧
    ((generate_random_constellation sampleStream 144 168
      (List.replicate 16 ⟨0, 0⟩) 0).constellation_stars.getD 0 ⟨0, 0⟩).x < 144 / 4 + 144 / 2 ∧
    (168 : Int) / 4 ≤ ((generate_random_constellation sampleStream 144 168
      (List.replicate 16 ⟨0, 0⟩) 0).constellation_stars.getD 0 ⟨0, 0⟩).y ∧
    ((generate_random_constellation sampleStream 144 168
      (List.replicate 16 ⟨0, 0⟩) 0).constellation_stars.getD 0 ⟨0, 0⟩).y < 168 / 4 + 168 / 2 ∧
    0 ≤ ((generate_random_constellation sampleStream 144 168
      (List.replicate 16 ⟨0, 0⟩) 0).constellation_stars.getD 0 ⟨0, 0⟩).x ∧
    ((generate_random_constellation sampleStream 144 168
      (List.replicate 16 ⟨0, 0⟩) 0).constellation_stars.getD 0 ⟨0, 0⟩).x < 144 ∧
    0 ≤ ((generate_random_constellation sampleStream 144 168
      (List.replicate 16 ⟨0, 0⟩) 0).constellation_stars.getD 0 ⟨0, 0⟩).y ∧
    ((generate_random_constellation sampleStream 144 168
      (List.replicate 16 ⟨0, 0⟩) 0).constellation_stars.getD 0 ⟨0, 0⟩).y < 168 :=
  first_constellation_point_central sampleStream 144 168 (by decide) (by decide) (by decide)
    (by decide) (List.replicate 16 ⟨0, 0⟩) 0 (by decide)

/-- C12: in every state of a run (from `main_window_load`, any number of ticks, any well-formed
`rand()` stream), the tick that moves the phase from Words to Blank2 is taken exactly when the
slot index equals `NUM_WORD_LAYERS`; that tick hands to `text_layer_destroy` exactly the
`NUM_WORD_LAYERS` word presentations, all of which exist before it and none after it, and
resets the slot index and the elapsed counter to 0; after any other tick every word
presentation still exists. -/
theorem words_exit_destroys_word_presentations (R : Nat → Nat) (RAND_MAX : Nat)
    (hR : ∀ s, R s ≤ RAND_MAX) (w h : Int) (s : App) (hs : Reachable R RAND_MAX w h s) :
    ((s.stars_state = STATE_WORDS ∧
        (stateTimerCallback R RAND_MAX s).stars_state = STATE_BLANK_2) ↔
      (s.stars_state = STATE_WORDS ∧ s.currentWordLayer = NUM_WORD_LAYERS)) ∧
    (s.stars_state = STATE_WORDS ∧ s.currentWordLayer = NUM_WORD_LAYERS →
      (wordPresentations s).length = NUM_WORD_LAYERS ∧
      (∀ l ∈ wordPresentations s,
        l ∈ liveLayers s.calls ∧ l ∉ liveLayers (stateTimerCallback R RAND_MAX s).calls) ∧
      (∃ new, (stateTimerCallback R RAND_MAX s).calls = s.calls ++ new ∧
        destroyedLayers new = wordPresentations s) ∧
      (stateTimerCallback R RAND_MAX s).currentWordLayer = 0 ∧
      (stateTimerCallback R RAND_MAX s).currentStateTime = 0) ∧
    (¬ (s.stars_state = STATE_WORDS ∧ s.currentWordLayer = NUM_WORD_LAYERS) →
      ∀ l ∈ wordPresentations s, l ∈ liveLayers (stateTimerCallback R RAND_MAX s).calls) := by
  have inv := AppInv_of_reachable R RAND_MAX hR w h s hs
  have inv2 := AppInv_stateTimerCallback R RAND_MAX hR s inv
  obtain ⟨_, _, a3, a4, a5, a6, a7, _⟩ := inv
  obtain ⟨_, _, _, _, _, b6, _, _⟩ := inv2
  obtain ⟨c1, c2, c3⟩ := ctrl_fields _ _ (ctrl_stateTimerCallback R RAND_MAX s)
  have a4' : s.currentWordLayer ≤ 8 := a4
  refine ⟨?_, ?_, ?_⟩
  · constructor
    · rintro ⟨hph, hb⟩
      refine ⟨hph, ?_⟩
      by_contra hne
      have hlt : s.currentWordLayer < NUM_WORD_LAYERS := by
        simp only [NUM_WORD_LAYERS] at hne ⊢; omega
      rw [c1] at hb
      simp only [ctrlStep, ctrl, hph, if_pos hlt] at hb
      split_ifs at hb
    · rintro ⟨hph, h8⟩
      refine ⟨hph, ?_⟩
      rw [c1]
      simp [ctrlStep, ctrl, hph, h8]
  · rintro ⟨hph, h8⟩
    have hnlt : ¬ s.currentWordLayer < NUM_WORD_LAYERS := by omega
    have hall : wordPresentations s = s.word_layers := by
      unfold wordPresentations
      exact List.take_of_length_le (by omega)
    obtain ⟨e1, new, e2, e3⟩ := words_exit_tick R RAND_MAX s hph hnlt a3
    have hphase : (stateTimerCallback R RAND_MAX s).stars_state = STATE_BLANK_2 := by
      rw [c1]; simp [ctrlStep, ctrl, hph, h8]
    have hslot : (stateTimerCallback R RAND_MAX s).currentWordLayer = 0 := by
      rw [c3]; simp [ctrlStep, ctrl, hph, h8]
    have htime : (stateTimerCallback R RAND_MAX s).currentStateTime = 0 := by
      rw [c2]; simp [ctrlStep, ctrl, hph, h8]
    refine ⟨by rw [hall, a3], ?_, ⟨new, e2, by rw [e3, hall]⟩, hslot, htime⟩
    intro l hl
    constructor
    · rw [a6]
      exact List.mem_cons_of_mem _ (List.mem_append_right _ hl)
    · rw [b6]
      simp only [titlePresentation, wordPresentations, hphase, hslot, e1, List.take_zero]
      simp only [List.nodup_cons] at a7
      intro hmem
      simp at hmem
      exact a7.1 (hmem ▸ List.mem_append_right _ hl)
  · intro hno l hl
    rw [b6]
    apply List.mem_cons_of_mem
    apply List.mem_append_right
    by_cases hph : s.stars_state = STATE_WORDS
    · have hlt : s.currentWordLayer < NUM_WORD_LAYERS := by
        have : s.currentWordLayer ≠ NUM_WORD_LAYERS := fun e => hno ⟨hph, e⟩
        omega
      rw [wordPresentations_words_tick R RAND_MAX s hph hlt a3]
      exact List.mem_append_left _ hl
    · have h0 := a5 hph
      simp [wordPresentations, h0] at hl

set_option maxRecDepth 100000 in
/-- Witness for C12: the 144 x 168 viewport and a concrete stream; the state after 99 ticks, in
which the phase is Words and the slot index is `NUM_WORD_LAYERS`. -/
theorem words_exit_destroys_word_presentations_witness :
    Reachable sampleStream 32767 144 168
      (ticks sampleStream 32767 99 (main_window_load sampleStream 32767 144 168 initialApp)) ∧
    ((ticks sampleStream 32767 99 (main_window_load sampleStream 32767 144 168
        initialApp)).stars_state = STATE_WORDS ∧
      (ticks sampleStream 32767 99 (main_window_load sampleStream 32767 144 168
        initialApp)).currentWordLayer = NUM_WORD_LAYERS) ∧
    (wordPresentations
      (ticks sampleStream 32767 99 (main_window_load sampleStream 32767 144 168
        initialApp))).length = NUM_WORD_LAYERS ∧
    (stateTimerCallback sampleStream 32767
      (ticks sampleStream 32767 99 (main_window_load sampleStream 32767 144 168
        initialApp))).currentWordLayer = 0 :=
  have hc := ctrl_fields _ _ ((ctrl_ticks sampleStream 32767
    (main_window_load sampleStream 32767 144 168 initialApp) 99).trans
    (show ctrlIter 99 (ctrl (main_window_load sampleStream 32767 144 168 initialApp)) =
      ⟨STATE_WORDS, 0, 8⟩ by decide))
  have h := (words_exit_destroys_word_presentations sampleStream 32767 sampleStream_le 144 168
    _ ⟨99, rfl⟩).2.1 ⟨hc.1, hc.2.2⟩
  ⟨⟨99, rfl⟩, ⟨hc.1, hc.2.2⟩, h.1, h.2.2.2.1⟩

/-- C14: `stateSwitchChecked` is the switch of `stateTimerCallback` in which the call of
`createWordLayer` fails when one of the three array accesses of `createWordLayer` is out of
bounds. For every well-formed `rand()` stream and any number of ticks, the run from
`main_window_load` with the checked tick does not fail and is the run of the program. The
switch calls `createWordLayer` exactly in the states of phase Words with
`currentWordLayer < NUM_WORD_LAYERS` and the elapsed counter at `state_times[STATE_WORDS]`:
in these states its result is built from the result of `createWordLayer`, in every other
state it leaves `word_layers` as it is and does not increment `currentWordLayer`, and the
checked switch fails only in these states, when an access of the call is out of bounds. In
every state of a run in which the call is made, `currentWordLayer` is below
`NUM_WORD_LAYERS`, hence a valid index into `word_indices` and `word_layers`, and the index
read from `word_indices` is a valid index into `words`. -/
theorem createWordLayer_accesses_in_bounds (R : Nat → Nat) (RAND_MAX : Nat)
    (hR : ∀ s, R s ≤ RAND_MAX) (w h : Int) :
    (∀ n, ticksChecked R RAND_MAX n (main_window_load R RAND_MAX w h initialApp) =
      some (ticks R RAND_MAX n (main_window_load R RAND_MAX w h initialApp))) ∧
    (∀ t : App, stateSwitchChecked R RAND_MAX t = none ↔
      (callsCreateWordLayer t ∧ createWordLayerChecked R t = none)) ∧
    (∀ t u : App, stateSwitchChecked R RAND_MAX t = some u → u = stateSwitch R RAND_MAX t) ∧
    (∀ t : App, callsCreateWordLayer t →
      stateSwitch R RAND_MAX t =
        { (createWordLayer R t).1 with
          calls := (createWordLayer R t).1.calls ++ [Call.layer_add_child (createWordLayer R t).2]
          currentStateTime := 0 }) ∧
    (∀ t : App, ¬ callsCreateWordLayer t →
      (stateSwitch R RAND_MAX t).word_layers = t.word_layers ∧
      ((stateSwitch R RAND_MAX t).currentWordLayer = t.currentWordLayer ∨
        (stateSwitch R RAND_MAX t).currentWordLayer = 0)) ∧
    (∀ s : App, Reachable R RAND_MAX w h s →
      stateTimerCallbackChecked R RAND_MAX s = some (stateTimerCallback R RAND_MAX s) ∧
      (callsCreateWordLayer s →
        createWordLayerChecked R s = some (createWordLayer R s) ∧
        s.currentWordLayer < NUM_WORD_LAYERS ∧
        s.word_indices.length = NUM_WORD_LAYERS + 1 ∧
        s.word_layers.length = NUM_WORD_LAYERS ∧
        s.currentWordLayer < s.word_indices.length ∧
        s.currentWordLayer < s.word_layers.length ∧
        0 ≤ s.word_indices.getD s.currentWordLayer 0 ∧
        s.word_indices.getD s.currentWordLayer 0 < (NUM_TOTAL_WORDS : Int) ∧
        (s.word_indices.getD s.currentWordLayer 0).toNat < words.length)) := by
  refine ⟨ticksChecked_eq R RAND_MAX hR w h, stateSwitchChecked_none R RAND_MAX,
    stateSwitchChecked_some R RAND_MAX, ?_, ?_, ?_⟩
  · intro t hc
    obtain ⟨c1, c2, c3⟩ := hc
    unfold stateSwitch
    simp only [c1, if_pos c2, if_neg c3]
  · intro t hnc
    unfold callsCreateWordLayer at hnc
    unfold stateSwitch
    cases hph : t.stars_state
    case STATE_WORDS =>
      simp only [hph]
      split_ifs with h1 h2
      · exact ⟨rfl, Or.inl rfl⟩
      · exact absurd ⟨hph, h1, h2⟩ hnc
      · exact ⟨rfl, Or.inr rfl⟩
    all_goals
      simp only [hph]
      split_ifs
      all_goals exact ⟨rfl, Or.inl rfl⟩
  · intro s hs
    have hinv := AppInv_of_reachable R RAND_MAX hR w h s hs
    refine ⟨stateTimerCallbackChecked_of_inv R RAND_MAX s hinv, ?_⟩
    intro hc
    obtain ⟨b1, b2, b3, b4, b5⟩ := createWordLayer_bounds s hinv hc
    refine ⟨?_, hc.2.1, hinv.1, hinv.2.2.1, b1, b2, b3, b4, b5⟩
    cases hch : createWordLayerChecked R s with
    | some r => rw [createWordLayerChecked_some R s r hch]
    | none => exact absurd ⟨b1, b3, b5, b2⟩ ((createWordLayerChecked_none R s).mp hch)

/-- Witness for C14: the 144 x 168 viewport and a concrete stream; the state after 21 ticks, in
which the first word is due. -/
theorem createWordLayer_accesses_in_bounds_witness :
    ticksChecked sampleStream 32767 22 (main_window_load sampleStream 32767 144 168 initialApp) =
      some (ticks sampleStream 32767 22
        (main_window_load sampleStream 32767 144 168 initialApp)) ∧
    Reachable sampleStream 32767 144 168
      (ticks sampleStream 32767 21 (main_window_load sampleStream 32767 144 168 initialApp)) ∧
    callsCreateWordLayer
      (ticks sampleStream 32767 21 (main_window_load sampleStream 32767 144 168 initialApp)) ∧
    (ticks sampleStream 32767 21 (main_window_load sampleStream 32767 144 168
      initialApp)).currentWordLayer < NUM_WORD_LAYERS ∧
    0 ≤ (ticks sampleStream 32767 21 (main_window_load sampleStream 32767 144 168
      initialApp)).word_indices.getD
        (ticks sampleStream 32767 21 (main_window_load sampleStream 32767 144 168
          initialApp)).currentWordLayer 0 ∧
    (ticks sampleStream 32767 21 (main_window_load sampleStream 32767 144 168
      initialApp)).word_indices.getD
        (ticks sampleStream 32767 21 (main_window_load sampleStream 32767 144 168
          initialApp)).currentWordLayer 0 < (NUM_TOTAL_WORDS : Int) :=
  have hc := ctrl_fields _ _ ((ctrl_ticks sampleStream 32767
    (main_window_load sampleStream 32767 144 168 initialApp) 21).trans
    (show ctrlIter 21 (ctrl (main_window_load sampleStream 32767 144 168 initialApp)) =
      ⟨STATE_WORDS, 5000, 0⟩ by decide))
  have hcall : callsCreateWordLayer
      (ticks sampleStream 32767 21 (main_window_load sampleStream 32767 144 168 initialApp)) :=
    ⟨hc.1, by rw [hc.2.2]; decide, by rw [hc.2.1]; decide⟩
  have h := createWordLayer_accesses_in_bounds sampleStream 32767 sampleStream_le 144 168
  have hb := ((h.2.2.2.2.2 _ ⟨21, rfl⟩).2 hcall).2
  ⟨h.1 22, ⟨21, rfl⟩, hcall, hb.1, hb.2.2.2.2.2.1, hb.2.2.2.2.2.2.1⟩

/-! ## Teardown, vocabulary of the variant, drift of the walk: the properties -/

set_option maxRecDepth 1000000 in
/-- C21, two failing runs on the 144 x 168 viewport. Torn down in phase Title (two ticks after
`main_window_load`), `main_window_unload` cancels the pending timer once but leaves the title
layer alive: it is never destroyed. Torn down after one full cycle (104 ticks), every one of
the eight word layers, already destroyed at the exit from phase Words, is destroyed a second
time by the loop over `word_layers`. -/
theorem unload_leaks_title_and_destroys_twice :
    (ticks sampleStream 32767 2
      (main_window_load sampleStream 32767 144 168 initialApp)).stars_state = STATE_TITLE ∧
    liveLayers (ticks sampleStream 32767 2
      (main_window_load sampleStream 32767 144 168 initialApp)).calls = [4, 7] ∧
    (ticks sampleStream 32767 2
      (main_window_load sampleStream 32767 144 168 initialApp)).s_title_layer = 7 ∧
    liveLayers (main_window_unload (ticks sampleStream 32767 2
      (main_window_load sampleStream 32767 144 168 initialApp))).calls = [7] ∧
    cancelledTimers (main_window_unload (ticks sampleStream 32767 2
      (main_window_load sampleStream 32767 144 168 initialApp))).calls =
        [(ticks sampleStream 32767 2
          (main_window_load sampleStream 32767 144 168 initialApp)).stateTimer] ∧
    (ticks sampleStream 32767 104
      (main_window_load sampleStream 32767 144 168 initialApp)).stars_state = STATE_START ∧
    destroyedLayers (ticks sampleStream 32767 104
      (main_window_load sampleStream 32767 144 168 initialApp)).calls =
        [7, 29, 41, 53, 65, 77, 89, 101, 113] ∧
    destroyedLayers (main_window_unload (ticks sampleStream 32767 104
      (main_window_load sampleStream 32767 144 168 initialApp))).calls =
        [7, 29, 41, 53, 65, 77, 89, 101, 113, 4, 29, 41, 53, 65, 77, 89, 101, 113] := by
  refine ⟨by decide, by decide, by decide, by decide, by decide, by decide, by decide,
    by decide⟩

/-- C22, the failing entries: the vocabulary of `words-test.c` holds the word `"visible"` at
the two distinct valid indices 26 and 30, so it is not a list of pairwise distinct strings. -/
theorem words_test_vocabulary_repeats_word :
    WordsTest.words.getD 26 "" = "visible" ∧ WordsTest.words.getD 30 "" = "visible" ∧
    (26 : Nat) ≠ 30 ∧ 26 < WordsTest.NUM_TOTAL_WORDS ∧ 30 < WordsTest.NUM_TOTAL_WORDS ∧
    ¬ WordsTest.words.Nodup := by
  refine ⟨by decide, by decide, by decide, by decide, by decide, by decide⟩

/-- C23: on the 144 x 168 viewport there is a well-formed `rand()` stream and a start position
in it for which `generate_random_constellation` produces, at an index `i` with `0 < i < L`, a
point outside the rectangle `[0, 144) x [0, 168)`: the walk is not clamped. -/
theorem constellation_can_leave_viewport :
    ∃ (R : Nat → Nat) (seed i : Nat), (∀ s, R s ≤ 32767) ∧ 0 < i ∧
      i < (generate_random_constellation R 144 168 (List.replicate NUM_CONSTELLATION_STARS ⟨0, 0⟩)
        seed).num_constellation_stars_chosen ∧
      ¬ (0 ≤ ((generate_random_constellation R 144 168
            (List.replicate NUM_CONSTELLATION_STARS ⟨0, 0⟩) seed).constellation_stars.getD i
            ⟨0, 0⟩).x ∧
          ((generate_random_constellation R 144 168
            (List.replicate NUM_CONSTELLATION_STARS ⟨0, 0⟩) seed).constellation_stars.getD i
            ⟨0, 0⟩).x < 144 ∧
          0 ≤ ((generate_random_constellation R 144 168
            (List.replicate NUM_CONSTELLATION_STARS ⟨0, 0⟩) seed).constellation_stars.getD i
            ⟨0, 0⟩).y ∧
          ((generate_random_constellation R 144 168
            (List.replicate NUM_CONSTELLATION_STARS ⟨0, 0⟩) seed).constellation_stars.getD i
            ⟨0, 0⟩).y < 168) :=
  ⟨sampleStream, 80, 8, sampleStream_le, by decide, by decide, by decide⟩

/-! ## Index arithmetic of `shuffle`: the property -/

/-- C24: in an iteration of the loop of `shuffle` (`n ≥ 2`, counter `i < n - 1`, value of
`rand()` at most `RAND_MAX`) neither divisor is zero and the swap index
`j = i + rand() / (RAND_MAX / (n - i) + 1)` satisfies `i ≤ j < n`; the iteration exchanges
exactly the cells `i` and `j`. -/
theorem shuffle_index_in_range (R : Nat → Nat) (RAND_MAX n : Nat)
    (fuel : Nat) (st : ShuffleState) (hn : 2 ≤ n) (hi : st.i < n - 1)
    (hr : R st.seed ≤ RAND_MAX) :
    n - st.i ≠ 0 ∧ RAND_MAX / (n - st.i) + 1 ≠ 0 ∧
    st.i ≤ shuffleIndex RAND_MAX n st.i (R st.seed) ∧
    shuffleIndex RAND_MAX n st.i (R st.seed) < n ∧
    shuffleLoop R RAND_MAX n (fuel + 1) st =
      shuffleLoop R RAND_MAX n fuel
        ⟨st.i + 1, st.seed + 1,
         (st.array.set (shuffleIndex RAND_MAX n st.i (R st.seed)) (st.array.getD st.i 0)).set
           st.i (st.array.getD (shuffleIndex RAND_MAX n st.i (R st.seed)) 0)⟩ := by
  have h1 : n - st.i ≠ 0 := by omega
  have h2 : RAND_MAX / (n - st.i) + 1 ≠ 0 := Nat.succ_ne_zero _
  have h3 : st.i ≤ shuffleIndex RAND_MAX n st.i (R st.seed) := Nat.le_add_right _ _
  refine ⟨h1, h2, h3, shuffle_index_lt RAND_MAX n st.i (R st.seed) hi hr, ?_⟩
  simp only [shuffleLoop, if_pos hi, shuffleIndex]

/-- Witness for C24: the first iteration on eight cells, with the `rand()` value 31676; the swap
index is 7. -/
theorem shuffle_index_in_range_witness :
    2 ≤ 8 ∧ sampleStream 4 = 31676 ∧ sampleStream 4 ≤ 32767 ∧
    shuffleIndex 32767 8 0 (sampleStream 4) = 7 ∧
    0 ≤ shuffleIndex 32767 8 0 (sampleStream 4) ∧
    shuffleIndex 32767 8 0 (sampleStream 4) < 8 :=
  ⟨by decide, by decide, by decide, by decide,
   (shuffle_index_in_range sampleStream 32767 8 0 ⟨0, 4, [10, 20, 30, 40, 50, 60, 70, 80]⟩
     (by decide) (by decide) (by decide)).2.2.1,
   (shuffle_index_in_range sampleStream 32767 8 0 ⟨0, 4, [10, 20, 30, 40, 50, 60, 70, 80]⟩
     (by decide) (by decide) (by decide)).2.2.2.1⟩

/-! ## Presentations in reachable states: the property -/

/-- C25: in every state reachable by ticks from the state left by `main_window_load` (for a
well-formed `rand()` stream) the title layer is alive if and only if the phase is Title; the
live text layers are exactly the time layer, the title presentation and the word
presentations, without repetition; the number of word presentations equals
`currentWordLayer`, which is 0 outside phase Words and at most `NUM_WORD_LAYERS`. -/
theorem presentations_scoped_to_phase (R : Nat → Nat) (RAND_MAX : Nat)
    (hR : ∀ s, R s ≤ RAND_MAX) (w h : Int) (s : App) (hs : Reachable R RAND_MAX w h s) :
    (s.s_title_layer ∈ liveLayers s.calls ↔ s.stars_state = STATE_TITLE) ∧
    liveLayers s.calls = s.s_time_layer :: (titlePresentation s ++ wordPresentations s) ∧
    (liveLayers s.calls).Nodup ∧
    (wordPresentations s).length = s.currentWordLayer ∧
    (s.stars_state ≠ STATE_WORDS → s.currentWordLayer = 0) ∧
    s.currentWordLayer ≤ NUM_WORD_LAYERS := by
  obtain ⟨_, _, a3, a4, a5, a6, a7, _⟩ := AppInv_of_reachable R RAND_MAX hR w h s hs
  obtain ⟨t1, _, t3⟩ := TitleInv_of_reachable R RAND_MAX hR w h s hs
  refine ⟨?_, a6, by rw [a6]; exact a7, ?_, a5, a4⟩
  · rw [a6]
    unfold titlePresentation
    by_cases hph : s.stars_state = STATE_TITLE
    · simp [hph]
    · simp only [hph, if_false, List.nil_append, List.mem_cons, iff_false, not_or]
      exact ⟨t1, fun hmem => Nat.lt_irrefl _ (t3 _ hmem)⟩
  · unfold wordPresentations
    rw [List.length_take]
    omega

set_option maxRecDepth 100000 in
/-- Witness for C25: the state three ticks after `main_window_load` on the 144 x 168
viewport (phase Title). -/
theorem presentations_scoped_to_phase_witness :
    Reachable sampleStream 32767 144 168
      (ticks sampleStream 32767 3 (main_window_load sampleStream 32767 144 168 initialApp)) ∧
    ((ticks sampleStream 32767 3 (main_window_load sampleStream 32767 144 168
        initialApp)).s_title_layer ∈
      liveLayers (ticks sampleStream 32767 3 (main_window_load sampleStream 32767 144 168
        initialApp)).calls ↔
      (ticks sampleStream 32767 3 (main_window_load sampleStream 32767 144 168
        initialApp)).stars_state = STATE_TITLE) ∧
    (wordPresentations (ticks sampleStream 32767 3 (main_window_load sampleStream 32767 144 168
        initialApp))).length =
      (ticks sampleStream 32767 3 (main_window_load sampleStream 32767 144 168
        initialApp)).currentWordLayer ∧
    (ticks sampleStream 32767 3 (main_window_load sampleStream 32767 144 168
        initialApp)).currentWordLayer ≤ NUM_WORD_LAYERS :=
  have h := presentations_scoped_to_phase sampleStream 32767 sampleStream_le 144 168 _
    ⟨3, rfl⟩
  ⟨⟨3, rfl⟩, h.1, h.2.2.2.1, h.2.2.2.2.2⟩

/-! ## The two variants of the selection: the property -/

/-- C26: for the same sizes `k ≤ n`, the same well-formed `rand()` stream and the same start
position, each of the first `k` entries of `word_indices` produced by the `words-test.c`
variant of `generate_random_word_list` equals the entry at the same position produced by the
`constellation-poems.c` variant plus 1, and so lies in `1 .. n`. -/
theorem words_test_selection_shifted_by_one (R : Nat → Nat) (RAND_MAX n k : Nat)
    (hR : ∀ s, R s ≤ RAND_MAX) (hk : k ≤ n) (a a' : List Int) (seed : Nat)
    (ha : a.length = k + 1) (ha' : a'.length = k + 1) :
    ∀ idx, idx < k →
      (WordsTest.generate_random_word_list_of R RAND_MAX n k a' seed).1.getD idx 0 =
        (generate_random_word_list_of R RAND_MAX n k a seed).1.getD idx 0 + 1 ∧
      1 ≤ (WordsTest.generate_random_word_list_of R RAND_MAX n k a' seed).1.getD idx 0 ∧
      (WordsTest.generate_random_word_list_of R RAND_MAX n k a' seed).1.getD idx 0 ≤ (n : Int) := by
  obtain ⟨s1, _, s3, _⟩ := selectWords_spec R n k hk a seed ha
  obtain ⟨l1, l2, l3, l4, l5⟩ := selectLoop_lockstep R n k n ⟨0, 0, seed, a⟩ ⟨0, 0, seed, a'⟩
    rfl rfl rfl (by simp [ha, ha']) (by simp [ha]) (by intro idx h; simp at h)
  have hsel : (selectLoop R n k n ⟨0, 0, seed, a⟩) = selectWords R n k a seed := rfl
  rw [hsel] at l1 l2 l3 l4 l5
  rw [s1] at l5
  obtain ⟨w1, _, w3⟩ := word_list_spec R RAND_MAX n k hR hk a seed ha
  have key : ∀ idx, idx < k →
      (WordsTest.generate_random_word_list_of R RAND_MAX n k a' seed).1.getD idx 0 =
        (generate_random_word_list_of R RAND_MAX n k a seed).1.getD idx 0 + 1 := by
    intro idx hidx
    simp only [WordsTest.generate_random_word_list_of, generate_random_word_list_of]
    rw [l3]
    unfold shuffle
    by_cases hk1 : k > 1
    · rw [if_pos hk1, if_pos hk1]
      exact shuffleLoop_lockstep R RAND_MAX k hR (k - 1)
        ⟨0, (selectWords R n k a seed).seed, (selectWords R n k a seed).word_indices⟩
        ⟨0, (selectWords R n k a seed).seed,
          (WordsTest.selectLoop R n k n ⟨0, 0, seed, a'⟩).word_indices⟩
        rfl rfl l4 (by simp only; rw [s3]; omega) l5 idx hidx
    · rw [if_neg hk1, if_neg hk1]
      exact l5 idx hidx
  intro idx hidx
  have hmem : (generate_random_word_list_of R RAND_MAX n k a seed).1.getD idx 0 ∈
      (generate_random_word_list_of R RAND_MAX n k a seed).1.take k := by
    have hl : idx < ((generate_random_word_list_of R RAND_MAX n k a seed).1.take k).length := by
      rw [List.length_take]; omega
    have e : ((generate_random_word_list_of R RAND_MAX n k a seed).1.take k)[idx] =
        (generate_random_word_list_of R RAND_MAX n k a seed).1.getD idx 0 := by
      rw [List.getD_eq_getElem _ _ (by omega)]
      simp
    rw [← e]
    exact List.getElem_mem hl
  have hv := w3 _ hmem
  have hkey := key idx hidx
  exact ⟨hkey, by omega, by omega⟩

/-- Witness for C26: the sizes of `words-test.c` (34 words, 12 slots), position 3. -/
theorem words_test_selection_shifted_by_one_witness :
    WordsTest.NUM_WORD_LAYERS ≤ WordsTest.NUM_TOTAL_WORDS ∧
    (WordsTest.generate_random_word_list_of sampleStream 32767 WordsTest.NUM_TOTAL_WORDS
        WordsTest.NUM_WORD_LAYERS (List.replicate 13 0) 0).1.getD 3 0 =
      (generate_random_word_list_of sampleStream 32767 WordsTest.NUM_TOTAL_WORDS
        WordsTest.NUM_WORD_LAYERS (List.replicate 13 0) 0).1.getD 3 0 + 1 :=
  ⟨by decide,
   (words_test_selection_shifted_by_one sampleStream 32767 WordsTest.NUM_TOTAL_WORDS
     WordsTest.NUM_WORD_LAYERS sampleStream_le (by decide) (List.replicate 13 0)
     (List.replicate 13 0) 0 (by decide) (by decide) 3 (by decide)).1⟩

/-! ## Distribution of the selection: the property -/

/-- C27: counting over the `n!` equally likely vectors of independent draws `rand() % rn`
(entry `t` of a vector ranges over `[0, n - t)`), for `k ≤ n` slots. In one iteration with `rn`
candidates and `rm ≤ rn` slots left, `rm` of the `rn` values of the draw make the loop pick the
candidate. Every index `i < n` is in the selection for `k * n! / n` of the vectors
(probability `k / n`), and every strictly increasing list of `k` indices below `n` is the
selection for `k! * (n - k)!` of them (the same number for every `k`-subset). The following
`shuffle` does not change which indices are selected. -/
theorem selection_probability (n k : Nat) (hk : k ≤ n)
    (word_indices : List Int) (hlen : word_indices.length = k + 1) :
    (∀ st : SelectState, st.in_ < n → st.im < k → k - st.im ≤ n - st.in_ →
      (List.range (n - st.in_)).countP
        (fun d => decide ((selectLoop (fun _ => d) n k 1 st).im = st.im + 1)) = k - st.im) ∧
    (drawVectors n).length = n.factorial ∧
    (∀ i, i < n →
      n * (drawVectors n).countP
        (fun ds => decide ((i : Int) ∈
          (selectWords (drawStream ds) n k word_indices 0).word_indices.take k)) =
        k * n.factorial) ∧
    (∀ S : List Nat, S.Pairwise (· < ·) → S.length = k → (∀ x ∈ S, x < n) →
      (drawVectors n).countP
        (fun ds => decide
          ((selectWords (drawStream ds) n k word_indices 0).word_indices.take k =
            List.map (fun (x : Nat) => (x : Int)) S)) =
        k.factorial * (n - k).factorial) ∧
    (∀ (R : Nat → Nat) (RAND_MAX seed : Nat), (∀ s, R s ≤ RAND_MAX) → ∀ v : Int,
      (v ∈ (generate_random_word_list_of R RAND_MAX n k word_indices seed).1.take k ↔
        v ∈ (selectWords R n k word_indices seed).word_indices.take k)) := by
  refine ⟨?_, drawVectors_length n, ?_, ?_, ?_⟩
  · intro st h1 h2 h3
    rw [← countP_lt_range (k - st.im) (n - st.in_) h3]
    apply List.countP_congr
    intro d hd
    rw [List.mem_range] at hd
    simp only [selectLoop, if_pos (And.intro h1 h2), Nat.mod_eq_of_lt hd, decide_eq_true_eq]
    by_cases hp : d < k - st.im
    · simp [hp]
    · simp [hp]
  · intro i hi
    have hcongr : (drawVectors n).countP
        (fun ds => decide ((i : Int) ∈
          (selectWords (drawStream ds) n k word_indices 0).word_indices.take k)) =
        (drawVectors n).countP (fun ds => decide (i ∈ picks 0 k ds)) := by
      apply List.countP_congr
      intro ds hds
      rw [selectWords_draws n k hk word_indices hlen ds hds]
      simp
    rw [hcongr]
    obtain ⟨m, rfl⟩ : ∃ m, n = m + 1 := ⟨n - 1, by omega⟩
    rw [count_picks_mem m k 0 i hk (Nat.zero_le _) (by omega), Nat.factorial_succ]
    ring
  · intro S hp hl hb
    rw [← count_picks_eq n k 0 S hp hl (fun x hx => ⟨Nat.zero_le _, by have := hb x hx; omega⟩)]
    apply List.countP_congr
    intro ds hds
    rw [selectWords_draws n k hk word_indices hlen ds hds]
    simp only [decide_eq_true_eq]
    exact (List.map_injective_iff.mpr (fun a b h => Int.ofNat.inj h)).eq_iff
  · intro R RAND_MAX seed hR v
    obtain ⟨_, _, s3, _⟩ := selectWords_spec R n k hk word_indices seed hlen
    have hsh := shuffle_spec R RAND_MAX hR (selectWords R n k word_indices seed).word_indices k
      (selectWords R n k word_indices seed).seed (by omega)
    simp only [generate_random_word_list_of]
    exact hsh.1.mem_iff

set_option maxRecDepth 100000 in
/-- Witness for C27: four words, two slots; the index 3 and the subset `1, 3`. -/
theorem selection_probability_witness :
    2 ≤ 4 ∧
    4 * (drawVectors 4).countP
        (fun ds => decide (((3 : Nat) : Int) ∈
          (selectWords (drawStream ds) 4 2 [0, 0, 0] 0).word_indices.take 2)) =
        2 * Nat.factorial 4 ∧
    (drawVectors 4).countP
        (fun ds => decide
          ((selectWords (drawStream ds) 4 2 [0, 0, 0] 0).word_indices.take 2 =
            List.map (fun (x : Nat) => (x : Int)) [1, 3])) =
        Nat.factorial 2 * Nat.factorial (4 - 2) :=
  ⟨by decide,
   (selection_probability 4 2 (by decide) [0, 0, 0] rfl).2.2.1 3 (by decide),
   (selection_probability 4 2 (by decide) [0, 0, 0] rfl).2.2.2.1 [1, 3] (by decide) rfl
     (by decide)⟩

/-! ## Length of the cycle: the property -/

/-- C28: from `(Start, 0, 0)`, for every `rand()` stream, the phase at tick `m ≤ 104` is
`cyclePhase m`: Start for 2 ticks, Title for 6, Blank1 for 3, Words for 89, Blank2 for 4 (each
`state_times / TIMER_PERIOD + 1`, Words `8 * 11 + 1`). During Words the slot index goes up by
one on every eleventh tick. The state `(Start, 0, 0)` does not occur strictly between tick 0 and
tick 104, the phase is not Start from tick 2 to tick 103, and after 104 ticks the state is
`(Start, 0, 0)` again. -/
theorem cycle_lasts_104_ticks (R : Nat → Nat) (RAND_MAX : Nat) (s : App)
    (h : ctrl s = ⟨STATE_START, 0, 0⟩) :
    (state_times STATE_START / TIMER_PERIOD + 1 = 2 ∧
      state_times STATE_TITLE / TIMER_PERIOD + 1 = 6 ∧
      state_times STATE_BLANK_1 / TIMER_PERIOD + 1 = 3 ∧
      (NUM_WORD_LAYERS : Int) * (state_times STATE_WORDS / TIMER_PERIOD + 1) + 1 = 89 ∧
      state_times STATE_BLANK_2 / TIMER_PERIOD + 1 = 4) ∧
    (∀ m, m ≤ 104 → (ticks R RAND_MAX m s).stars_state = cyclePhase m) ∧
    (∀ m, 0 < m → m < 104 → ctrl (ticks R RAND_MAX m s) ≠ ⟨STATE_START, 0, 0⟩) ∧
    (∀ m, 2 ≤ m → m < 104 → (ticks R RAND_MAX m s).stars_state ≠ STATE_START) ∧
    (∀ m, m < 89 →
      ctrl (ticks R RAND_MAX (11 + m) s) = ⟨STATE_WORDS, 500 * ((m % 11 : Nat) : Int), m / 11⟩) ∧
    ctrl (ticks R RAND_MAX 104 s) = ⟨STATE_START, 0, 0⟩ := by
  have hph : ∀ m, m ≤ 104 → (ticks R RAND_MAX m s).stars_state = cyclePhase m := by
    intro m hm
    rw [(ctrl_fields _ _ (ctrl_ticks R RAND_MAX s m)).1, h]
    exact ctrlIter_cyclePhase m hm
  have h2 : ∀ m, 2 ≤ m → m < 104 → (ticks R RAND_MAX m s).stars_state ≠ STATE_START := by
    intro m hm1 hm2
    rw [hph m (by omega)]
    unfold cyclePhase
    split_ifs <;> first | omega | decide
  refine ⟨by decide, hph, ?_, h2, ?_, ?_⟩
  · intro m hm1 hm2 hc
    by_cases h1 : m = 1
    · subst h1
      rw [ctrl_ticks, h] at hc
      revert hc
      decide
    · exact h2 m (by omega) hm2 (ctrl_fields _ _ hc).1
  · intro m hm
    rw [ctrl_ticks, h]
    exact ctrlIter_words_from_start m hm
  · rw [ctrl_ticks, h]
    exact ctrlIter_cycle.1

/-- Witness for C28: the state left by `main_window_load` on the 144 x 168 viewport. -/
theorem cycle_lasts_104_ticks_witness :
    ctrl (main_window_load sampleStream 32767 144 168 initialApp) = ⟨STATE_START, 0, 0⟩ ∧
    (ticks sampleStream 32767 13
      (main_window_load sampleStream 32767 144 168 initialApp)).stars_state = STATE_WORDS ∧
    ctrl (ticks sampleStream 32767 104
      (main_window_load sampleStream 32767 144 168 initialApp)) = ⟨STATE_START, 0, 0⟩ :=
  ⟨rfl,
   (cycle_lasts_104_ticks sampleStream 32767
     (main_window_load sampleStream 32767 144 168 initialApp) rfl).2.1 13 (by decide),
   (cycle_lasts_104_ticks sampleStream 32767
     (main_window_load sampleStream 32767 144 168 initialApp) rfl).2.2.2.2.2⟩

/-! ## Slots written by the constellation generator: the property -/

/-- C29: for every `rand()` stream and every buffer, `generate_random_constellation` chooses a
length `L ≤ NUM_CONSTELLATION_STARS - 1`, its loop stops with the counter at `L` (the slots
written are 0 and the values of the counter, `1 .. L - 1`), the buffer keeps its size, every
slot at an index `k ≥ L` holds the value it had before the call, and so does the last slot
(index 15). -/
theorem constellation_writes_only_chosen_slots (R : Nat → Nat) (w h : Int)
    (constellation_stars : List GPoint) (seed : Nat) :
    (generate_random_constellation R w h constellation_stars
      seed).num_constellation_stars_chosen ≤ NUM_CONSTELLATION_STARS - 1 ∧
    (generate_random_constellation R w h constellation_stars seed).i =
      (generate_random_constellation R w h constellation_stars
        seed).num_constellation_stars_chosen ∧
    (generate_random_constellation R w h constellation_stars seed).constellation_stars.length =
      constellation_stars.length ∧
    (∀ k, (generate_random_constellation R w h constellation_stars
        seed).num_constellation_stars_chosen ≤ k →
      (generate_random_constellation R w h constellation_stars seed).constellation_stars.getD k
        ⟨0, 0⟩ = constellation_stars.getD k ⟨0, 0⟩) ∧
    (generate_random_constellation R w h constellation_stars seed).constellation_stars.getD
      (NUM_CONSTELLATION_STARS - 1) ⟨0, 0⟩ =
        constellation_stars.getD (NUM_CONSTELLATION_STARS - 1) ⟨0, 0⟩ := by
  have hL : (R seed % (NUM_CONSTELLATION_STARS - 4) + 4) % 256 ≤ NUM_CONSTELLATION_STARS - 1 := by
    simp only [NUM_CONSTELLATION_STARS]; omega
  have hL4 : 4 ≤ (R seed % (NUM_CONSTELLATION_STARS - 4) + 4) % 256 := by
    simp only [NUM_CONSTELLATION_STARS]; omega
  simp only [generate_random_constellation]
  generalize (R seed % (NUM_CONSTELLATION_STARS - 4) + 4) % 256 = L at hL hL4
  have hfr : ∀ k, L ≤ k →
      (constellationLoop R L (L - 1) ⟨1, seed + 3, constellation_stars.set 0
        ⟨toInt16 (Int.tmod (R (seed + 1)) (Int.tdiv w 2) + Int.tdiv w 4),
         toInt16 (Int.tmod (R (seed + 2)) (Int.tdiv h 2) + Int.tdiv h 4)⟩⟩).constellation_stars.getD
        k ⟨0, 0⟩ = constellation_stars.getD k ⟨0, 0⟩ := by
    intro k hk
    rw [constellationLoop_frame R L k hk]
    exact getD_set_ne _ _ _ _ _ (by omega)
  refine ⟨hL, ?_, ?_, hfr, hfr _ hL⟩
  · exact constellationLoop_counter R L _ _ (by simp only; omega)
  · rw [constellationLoop_length]
    simp

end ConstellationPoems
